import Mathlib

/-!
# XrdClientPSock: client socket with parallel streams

A shallow embedding of `src/XrdClient/XrdClientPSock.cc` and a verification of
properties of its substream pool: the registry (two tables and an ordered
list), the readiness set, the lifecycle operations, the round-robin hint, the
pause and restart of a substream, the send `SendRaw` and the multiplexed
receive `RecvRaw`.

## The embedding

* C `int` values are `Int`. The arithmetic of `GetSockIdHint` is that of a
  32-bit `int`: the increment, the product and the sum are reduced modulo
  `2^32` into `INT_MIN..INT_MAX` (`wrap32`), `/` and `%` are the truncating
  `Int.tdiv` and `Int.tmod`, and a zero divisor (or `INT_MIN` divided by `-1`)
  gives no result, as the call does not return. The byte counts, descriptors
  and times of `RecvRaw` are taken to stay within range.
* An `fd_set` is the list of the descriptors whose bit is set (`FD_SETSIZE` is
  not modelled; `FD_CLR` of a descriptor that is not in the set, a negative
  one included, changes nothing).
* The two `XrdOucRash<int,int>` tables are association lists with one entry
  per key; the order in which `Apply` visits the entries is the list order
  (the container leaves it unspecified, and no theorem below depends on it).
* The class header, the base class and the container are not among the
  sources. What the file uses of them (`GetSock`, `GetSockId`, `GetMainSock`,
  `ReinitFDTable`, `TryConnect_low`, `xrdmax`, the table operations) is
  modelled from the specification and marked so; the return codes and the
  staged id are parameters (`Consts`).
* The object is used sequentially: the mutex is not modelled, and the only
  effect of other threads that is represented is the raising of the read
  interrupt flag while `RecvRaw` waits.
* The operating system is represented by the results it hands back (`Env`:
  `select`, `recv`, `time`, the configured timeout; the descriptor returned by
  a connect) and by a record `Sys` of the descriptors that are open and of the
  `::close` calls made. `errno` is represented by what its test finds right
  after a call (`eintr`).
* `RecvRaw` is a loop whose termination depends on the environment; it is run
  for a given number of passes (`fuel`) and yields `none` when they do not
  bring it to a return. It records the calls it makes to `select` and `recv`
  (`trace`), which the statements about waits and reads refer to. `passAt`
  gives the state in which pass number `k` begins; that a call returns is
  stated as: it returns whenever it is given more than `k` passes.
-/

namespace XrdClientPSock

/-! ## Descriptor sets -/

/-- The empty descriptor set (`FD_ZERO`). -/
def FD_ZERO : List Int := []

/-- Set the bit of `fd` (`FD_SET`). -/
def FD_SET (fd : Int) (s : List Int) : List Int :=
  if fd ∈ s then s else fd :: s

/-- Clear the bit of `fd` (`FD_CLR`). -/
def FD_CLR (fd : Int) (s : List Int) : List Int :=
  s.filter (fun x => decide (x ≠ fd))

/-- Test the bit of `fd` (`FD_ISSET`). -/
def FD_ISSET (fd : Int) (s : List Int) : Bool :=
  decide (fd ∈ s)

/-- The `struct fdinfo` that `FdSetSockFunc` fills: a descriptor set and the
highest descriptor recorded for it. -/
structure fdinfo where
  fdset : List Int
  maxfd : Int
  deriving DecidableEq, Repr

/-- Modelled from the spec: the macro `xrdmax` is not among the sources; the
rebuild "updates the maximum", so it is the larger of its two arguments. -/
def xrdmax (a b : Int) : Int :=
  if a < b then b else a

/-! ## The keyed table `XrdOucRash<int,int>` -/

/-- Modelled from the spec: the container `XrdOucRash` is not among the
sources. `Find` is the lookup `get(id) -> handle | absent`. -/
def Find : List (Int × Int) → Int → Option Int
  | [], _ => none
  | (k, v) :: m, key => if k = key then some v else Find m key

/-- Modelled from the spec: `Del` drops the entry of a key (a no-op when the
key is absent). -/
def Del (m : List (Int × Int)) (key : Int) : List (Int × Int) :=
  m.filter (fun e => decide (e.1 ≠ key))

/-- Modelled from the spec: `Rep` inserts the entry or overwrites the one the
key already has. -/
def Rep (m : List (Int × Int)) (key v : Int) : List (Int × Int) :=
  (key, v) :: Del m key

/-- Modelled from the spec: `Apply` visits every entry with a visitor; a
negative return value deletes the visited entry, a positive one stops the
enumeration, zero continues. The visitor threads its argument `arg`. -/
def Apply {σ : Type} (func : Int → Int → σ → Int × σ) :
    List (Int × Int) → σ → List (Int × Int) × σ
  | [], arg => ([], arg)
  | (k, v) :: m, arg =>
    let r := func k v arg
    if r.1 > 0 then ((k, v) :: m, r.2)
    else
      let rest := Apply func m r.2
      if r.1 < 0 then rest else ((k, v) :: rest.1, rest.2)

/-! ## Constants and state -/

/-- The return codes and the staged-connection id, which are defined in headers
that are not among the sources; the code is parametric in their values. -/
structure Consts where
  TXSOCK_ERR : Int
  TXSOCK_ERR_TIMEOUT : Int
  TXSOCK_ERR_INTERRUPT : Int
  XRDCLI_PSOCKTEMP : Int
  deriving DecidableEq, Repr

/-- The part of the operating system the pool acts on: which descriptors are
open, and the sequence of `::close` calls made so far. -/
structure Sys where
  openFds : List Int
  closeLog : List Int
  deriving DecidableEq, Repr

/-- The system call `::close(fd)`. -/
def sysClose (fd : Int) (w : Sys) : Sys :=
  { openFds := w.openFds.filter (fun x => decide (x ≠ fd)),
    closeLog := w.closeLog ++ [fd] }

/-- A successful connect hands out the descriptor `fd`, which is open from
then on. -/
def sysOpen (fd : Int) (w : Sys) : Sys :=
  { w with openFds := fd :: w.openFds }

/-- The data members of `XrdClientPSock` (with those of its base class that the
file uses), together with the operating-system record. -/
structure PSock where
  fConnected : Bool
  fRDInterrupt : Bool
  lastsidhint : Int
  fReinit_fd : Bool
  globalfdinfo : fdinfo
  fSocketIdRepo : List Int
  fSocketPool : List (Int × Int)
  fSocketIdPool : List (Int × Int)
  sys : Sys
  deriving DecidableEq, Repr

/-- The constructor: `lastsidhint = 0`, `fReinit_fd = true`; the base class
starts not connected with no interrupt pending. `globalfdinfo` is not
initialised by the constructor, so its first content `g` is arbitrary. -/
def construct (g : fdinfo) (w : Sys) : PSock :=
  { fConnected := false, fRDInterrupt := false, lastsidhint := 0,
    fReinit_fd := true, globalfdinfo := g, fSocketIdRepo := [],
    fSocketPool := [], fSocketIdPool := [], sys := w }

/-! ## Accessors declared in the class header -/

/-- Modelled from the spec: `GetSock` is declared in the class header, which is
not among the sources; it is `get(id) -> handle | absent`, absent being the
negative value `-1` that the callers test with `sock >= 0`. -/
def GetSock (st : PSock) (id : Int) : Int :=
  match Find st.fSocketPool id with
  | some fd => fd
  | none => -1

/-- Modelled from the spec: the primary connection is the one registered under
id `0`. -/
def GetMainSock (st : PSock) : Int :=
  GetSock st 0

/-- Modelled from the spec: `GetSockId` is `idOf(handle) -> id | absent`,
absent being `-1`, the value `RecvRaw` compares against. -/
def GetSockId (st : PSock) (sock : Int) : Int :=
  match Find st.fSocketIdPool sock with
  | some id => id
  | none => -1

/-- Modelled from the spec: `ReinitFDTable` is `invalidate()`, which "marks the
cache stale; the next read-side operation must call rebuild". -/
def ReinitFDTable (st : PSock) : PSock :=
  { st with fReinit_fd := true }

/-! ## Disconnect -/

/-- The visitor `CloseSockFunc`: closes the descriptor and asks for the entry
to be deleted by returning `-1`. -/
def CloseSockFunc (_K V : Int) (w : Sys) : Int × Sys :=
  (-1, sysClose V w)

/-- The method `Disconnect`. -/
def Disconnect (st : PSock) : PSock :=
  let r := Apply CloseSockFunc st.fSocketPool st.sys
  { st with fConnected := false, fSocketPool := r.1, sys := r.2,
            fSocketIdPool := [], fSocketIdRepo := [] }

/-! ## Rebuilding the readiness set -/

/-- The visitor `FdSetSockFunc`. -/
def FdSetSockFunc (_sockid sockdescr : Int) (fds : fdinfo) : Int × fdinfo :=
  if sockdescr ≥ 0 then
    (0, { fdset := FD_SET sockdescr fds.fdset, maxfd := xrdmax fds.maxfd sockdescr })
  else (0, fds)

/-- The block of `RecvRaw` guarded by `fReinit_fd`: the global descriptor set is
emptied and refilled from the id-to-descriptor table. -/
def rebuildGlobal (st : PSock) : PSock :=
  let r := Apply FdSetSockFunc st.fSocketPool { fdset := FD_ZERO, maxfd := 0 }
  { st with fSocketPool := r.1, globalfdinfo := r.2, fReinit_fd := false }

/-! ## Lifecycle -/

/-- Modelled from the spec: `TryConnect_low` belongs to the base class, which is
not among the sources. It opens one connection; `s` is the descriptor it
returns (negative on failure). On success the descriptor is open and the
session is connected. -/
def TryConnect_low (s : Int) (st : PSock) : PSock :=
  if s ≥ 0 then { st with fConnected := true, sys := sysOpen s st.sys } else st

/-- The method `TryConnect`, `s` being what `TryConnect_low` returns. When the
session is already connected nothing changes (the `assert` on that path
aborts the process when it fails, so it has no successor state). -/
def TryConnect (s : Int) (st : PSock) : PSock :=
  if st.fConnected then st
  else
    let st1 := TryConnect_low s st
    if s ≥ 0 then
      { st1 with fSocketPool := Rep st1.fSocketPool 0 s,
                 fSocketIdPool := Rep st1.fSocketIdPool s 0 }
    else st1

/-- The method `TryConnectParallelSock`, `s` being what `TryConnect_low`
returns. -/
def TryConnectParallelSock (c : Consts) (s : Int) (st : PSock) : Int × PSock :=
  let st1 := TryConnect_low s st
  if s ≥ 0 then
    (s, { st1 with fSocketPool := Rep st1.fSocketPool c.XRDCLI_PSOCKTEMP s,
                   fSocketIdPool := Rep st1.fSocketIdPool s c.XRDCLI_PSOCKTEMP })
  else (s, st1)

/-- The method `RemoveParallelSock`. -/
def RemoveParallelSock (sockid : Int) (st : PSock) : Int × PSock :=
  let s := GetSock st sockid
  let w := if s ≥ 0 then sysClose s st.sys else st.sys
  (0, { st with sys := w,
                fSocketIdPool := Del st.fSocketIdPool s,
                fSocketPool := Del st.fSocketPool sockid,
                fSocketIdRepo := st.fSocketIdRepo.erase sockid })

/-- The method `EstablishParallelSock`. -/
def EstablishParallelSock (c : Consts) (sockid : Int) (st : PSock) : Int × PSock :=
  let s := GetSock st c.XRDCLI_PSOCKTEMP
  if s ≥ 0 then
    (0, { st with
            fSocketPool := Rep (Del st.fSocketPool c.XRDCLI_PSOCKTEMP) sockid s,
            fSocketIdPool := Rep (Del st.fSocketIdPool s) s sockid,
            fSocketIdRepo := st.fSocketIdRepo ++ [sockid] })
  else (-1, st)

/-! ## Substream hint -/

/-- The smallest value of a C `int` (32 bits, two's complement). -/
def INT_MIN : Int := -2147483648

/-- The largest value of a C `int`. -/
def INT_MAX : Int := 2147483647

/-- The `int` that a sum or product of `int`s comes out as: the exact result
reduced modulo `2^32` into the range `INT_MIN..INT_MAX`. -/
def wrap32 (x : Int) : Int :=
  (x + 2147483648) % 4294967296 - 2147483648

/-- The operator `%` on `int`s: the remainder has the sign of the dividend;
there is no result (the process is killed by the arithmetic trap) for a zero
divisor and for `INT_MIN % -1`. -/
def cMod (a b : Int) : Option Int :=
  if b = 0 ∨ (a = INT_MIN ∧ b = -1) then none else some (Int.tmod a b)

/-- The operator `/` on `int`s: the quotient is truncated towards zero; there
is no result for a zero divisor and for `INT_MIN / -1`. -/
def cDiv (a b : Int) : Option Int :=
  if b = 0 ∨ (a = INT_MIN ∧ b = -1) then none else some (Int.tdiv a b)

/-- The method `GetSockIdHint`: returns the hint and stores the new
`lastsidhint`; `none` when the call does not return because `%` or `/` traps.
The increment, the product and the final sum are `int` computations. -/
def GetSockIdHint (reqsperstream : Int) (st : PSock) : Option (Int × PSock) :=
  if (st.fSocketIdRepo.length : Int) > 0 then
    match cMod (wrap32 (st.lastsidhint + 1))
        (wrap32 ((st.fSocketIdRepo.length : Int) * reqsperstream)) with
    | none => none
    | some h =>
      match cDiv h reqsperstream with
      | none => none
      | some q => some (wrap32 (q + 1), { st with lastsidhint := h })
  else
    match cDiv 0 reqsperstream with
    | none => none
    | some q => some (wrap32 (q + 1), { st with lastsidhint := 0 })

/-- The hints returned by `n` consecutive calls of `GetSockIdHint`; the list
ends early at a call that does not return. -/
def hints (reqsperstream : Int) : Nat → PSock → List Int
  | 0, _ => []
  | n + 1, st =>
    match GetSockIdHint reqsperstream st with
    | none => []
    | some r => r.1 :: hints reqsperstream n r.2

/-! ## Pause and restart -/

/-- The method `PauseSelectOnSubstream`. -/
def PauseSelectOnSubstream (substreamid : Int) (st : PSock) : PSock :=
  let sock := GetSock st substreamid
  if sock ≥ 0 then
    { st with globalfdinfo := { st.globalfdinfo with fdset := FD_CLR sock st.globalfdinfo.fdset } }
  else st

/-- The method `RestartSelectOnSubstream`. -/
def RestartSelectOnSubstream (substreamid : Int) (st : PSock) : PSock :=
  let sock := GetSock st substreamid
  if sock ≥ 0 then
    { st with globalfdinfo := { st.globalfdinfo with fdset := FD_SET sock st.globalfdinfo.fdset } }
  else st

/-! ## RecvRaw -/

/-- What one call of `select` hands back: its return value, the descriptors it
found readable, and whether `errno` is `EINTR` when it is tested after the
call. -/
structure SelectRet where
  selRet : Int
  ready : List Int
  eintr : Bool
  deriving DecidableEq, Repr

/-- What one call of `recv` hands back: its return value, and whether `errno`
is `EINTR` when it is tested after the call. -/
structure RecvRet where
  n : Int
  eintr : Bool
  deriving DecidableEq, Repr

/-- The behaviour of everything outside the pool during one call of `RecvRaw`.
`time k` is the value of the `k`-th evaluation of `time(0)`; `select k` and
`recv k` answer the `k`-th call of the primitive, given its arguments;
`interrupt k` tells whether another thread raises the read interrupt flag
during the `k`-th wait. -/
structure Env where
  requestTimeout : Int
  time : Nat → Int
  select : Nat → List Int → Int → SelectRet
  interrupt : Nat → Bool
  recv : Nat → Int → Int → RecvRet

/-- The calls `RecvRaw` makes to the wait and read primitives, in order. -/
inductive Ev where
  | wait (fds : List Int) (nfds : Int)
  | read (fd len n : Int) (eintr : Bool)
  deriving DecidableEq, Repr

/-- The local variables of `RecvRaw` that live across iterations, the value
written through `usedsubstreamid` (`none` while nothing was written), the
number of calls made to each primitive, and the calls themselves. -/
structure Locals where
  bytesread : Int
  substreamid : Int
  usedsubstreamid : Option Int
  nsel : Nat
  nrecv : Nat
  trace : List Ev
  deriving DecidableEq, Repr

/-- What a call of `RecvRaw` leaves behind: the return value, the value written
through `usedsubstreamid`, the pool, and the primitive calls it made. -/
structure RecvOut where
  ret : Int
  usedsubstreamid : Option Int
  st : PSock
  trace : List Ev
  deriving DecidableEq, Repr

/-- One pass through the loop body either returns or goes round again. -/
inductive Step where
  | done (out : RecvOut)
  | again (st : PSock) (L : Locals)

/-- Returning `ret` from inside the loop. -/
def leave (ret : Int) (st : PSock) (L : Locals) : Step :=
  Step.done { ret := ret, usedsubstreamid := L.usedsubstreamid, st := st, trace := L.trace }

/-- The descriptor set `select` leaves in place of the one it was given: below
`nfds` only the readable descriptors keep their bit, the others are not
examined. -/
def selected (fds : List Int) (nfds : Int) (ready : List Int) : List Int :=
  fds.filter (fun fd => decide (nfds ≤ fd) || decide (fd ∈ ready))

/-- The scan `for (ii = 0; ii <= maxfd; ii++) if (FD_ISSET(ii, ...))`: the
first descriptor found, if any. -/
def scan (loc : fdinfo) : Option Int :=
  ((List.range (loc.maxfd + 1).toNat).map Int.ofNat).find? (fun ii => FD_ISSET ii loc.fdset)

/-- The test of the outer loop, `while (bytesread < length)`, evaluated after a
pass through its body. -/
def whileTest (length : Int) (st : PSock) (L : Locals) : Step :=
  if L.bytesread < length then Step.again st L else leave L.bytesread st L

/-- The locals once `recv` has been called on `ii` for `len` bytes and has
handed back `r`. -/
def noteRead (L : Locals) (ii len : Int) (r : RecvRet) : Locals :=
  { L with nrecv := L.nrecv + 1, trace := L.trace ++ [Ev.read ii len r.n r.eintr] }

/-- The locals after a read on `ii` that was not a failure: `bytesread`
advances when bytes came, and the call is pinned to the id of `ii`, which is
also written through `usedsubstreamid`. -/
def pin (st : PSock) (L : Locals) (ii : Int) (r : RecvRet) : Locals :=
  { L with bytesread := if r.n > 0 then L.bytesread + r.n else L.bytesread,
           substreamid := GetSockId st ii,
           usedsubstreamid := some (GetSockId st ii) }

/-- The statement `FD_CLR(fd, &globalfdinfo.fdset)`. -/
def clearGlobal (fd : Int) (st : PSock) : PSock :=
  { st with globalfdinfo := { st.globalfdinfo with fdset := FD_CLR fd st.globalfdinfo.fdset } }

/-- The body of `if (FD_ISSET(ii, &locfdinfo.fdset))` in the scan: the read on
`ii`, the treatment of its failure, the pinning, and (after the `break`) the
test of the outer loop. -/
def readStep (c : Consts) (w : Env) (length : Int) (st : PSock) (L : Locals) (ii : Int) :
    Step :=
  let r := w.recv L.nrecv ii (length - L.bytesread)
  let L1 := noteRead L ii (length - L.bytesread) r
  if r.n ≤ 0 ∧ r.eintr = false then
    if GetSockId st ii = 0 ∨ GetSockId st ii = -1 then leave c.TXSOCK_ERR st L1
    else
      leave c.TXSOCK_ERR_TIMEOUT (RemoveParallelSock (GetSockId st ii) (clearGlobal ii st)).2 L1
  else whileTest length st (pin st L1 ii r)

/-- The part of the outer loop body that follows the wait loop: the checks on
the main socket and on the interrupt flag, then the scan. `loc` is the local
descriptor set as `select` left it. -/
def afterWait (c : Consts) (w : Env) (length : Int) (st : PSock) (L : Locals)
    (loc : fdinfo) : Step :=
  if GetMainSock st < 0 then leave c.TXSOCK_ERR st L
  else if st.fRDInterrupt then
    leave c.TXSOCK_ERR_INTERRUPT { st with fRDInterrupt := false } L
  else
    match scan loc with
    | none => whileTest length st L
    | some ii => readStep c w length st L ii

/-- The locals once `select` has been called on the set `loc`. -/
def noteWait (L : Locals) (loc : fdinfo) : Locals :=
  { L with nsel := L.nsel + 1, trace := L.trace ++ [Ev.wait loc.fdset (loc.maxfd + 1)] }

/-- Another thread may raise the read interrupt flag during a wait. -/
def raise (b : Bool) (st : PSock) : PSock :=
  if b then { st with fRDInterrupt := true } else st

/-- The wait step, from the test of the deadline to the test of the wait loop
`do ... while (selRet <= 0 && !fRDInterrupt)`, continued, when that loop is
left, by the rest of the outer loop body. `loc` is the local descriptor set
chosen for this step. -/
def waitStep (c : Consts) (w : Env) (length starttime : Int) (st : PSock) (L : Locals)
    (loc : fdinfo) : Step :=
  if w.time (L.nsel + 1) - starttime > w.requestTimeout then
    leave c.TXSOCK_ERR_TIMEOUT st L
  else
    let r := w.select L.nsel loc.fdset (loc.maxfd + 1)
    let L1 := noteWait L loc
    if r.selRet < 0 ∧ r.eintr = false then leave c.TXSOCK_ERR (ReinitFDTable st) L1
    else
      let st2 := raise (w.interrupt L.nsel) st
      if r.selRet ≤ 0 ∧ st2.fRDInterrupt = false then Step.again st2 L1
      else
        afterWait c w length st2 L1
          { loc with fdset := selected loc.fdset (loc.maxfd + 1) r.ready }

/-- The statement `if (fReinit_fd) { ... }` that opens the body of the wait
loop: the global descriptor set is rebuilt when it is stale. -/
def refreshed (st : PSock) : PSock :=
  if st.fReinit_fd then rebuildGlobal st else st

/-- One pass through the body of the wait loop: the rebuild of the global
descriptor set when it is stale, the choice of the local descriptor set (the
global one for `substreamid == -1`, else the descriptor of the substream, with
the two returns taken when that substream has none), and the wait step. -/
def body (c : Consts) (w : Env) (length starttime : Int) (st0 : PSock) (L : Locals) :
    Step :=
  let st := refreshed st0
  if L.substreamid = -1 then
    waitStep c w length starttime st L st.globalfdinfo
  else
    let sock := GetSock st L.substreamid
    if sock ≥ 0 then
      waitStep c w length starttime st L { fdset := FD_SET sock FD_ZERO, maxfd := sock }
    else if L.substreamid = 0 then leave c.TXSOCK_ERR st L
    else leave c.TXSOCK_ERR_TIMEOUT (RemoveParallelSock L.substreamid (clearGlobal sock st)).2 L

/-- The loop of `RecvRaw`, run for at most `fuel` passes through `body`. -/
def loop (c : Consts) (w : Env) (length starttime : Int) :
    Nat → PSock → Locals → Option RecvOut
  | 0, _, _ => none
  | fuel + 1, st, L =>
    match body c w length starttime st L with
    | Step.done out => some out
    | Step.again st1 L1 => loop c w length starttime fuel st1 L1

/-- The method `RecvRaw(buffer, length, substreamid, usedsubstreamid)`; `none`
when `fuel` passes through the loop body did not bring it to a return. -/
def RecvRaw (c : Consts) (w : Env) (length substreamid : Int) (fuel : Nat) (st : PSock) :
    Option RecvOut :=
  let L0 : Locals :=
    { bytesread := 0, substreamid := substreamid, usedsubstreamid := none,
      nsel := 0, nrecv := 0, trace := [] }
  if st.fConnected = false then
    some { ret := c.TXSOCK_ERR, usedsubstreamid := none, st := st, trace := [] }
  else if GetMainSock st < 0 then
    some { ret := c.TXSOCK_ERR, usedsubstreamid := none, st := st, trace := [] }
  else if (0 : Int) < length then loop c w length (w.time 0) fuel st L0
  else some { ret := 0, usedsubstreamid := none, st := st, trace := [] }

/-- Reading a step against two conditions: the first is asked of what the step
returns, the second of the state it goes round again with. -/
def Step.sat (Q : RecvOut → Prop) (P : PSock → Locals → Prop) : Step → Prop
  | Step.done out => Q out
  | Step.again st L => P st L

/-! ## Sequences of operations -/

/-- The public operations of the pool, each with what the outside world
contributes to it: the descriptor that the connect primitive returns, or the
environment of a `RecvRaw` call and the number of passes it is given. -/
inductive Op where
  | connectPrimary (s : Int)
  | connectParallel (s : Int)
  | establish (id : Int)
  | remove (id : Int)
  | disconnect
  | hint (reqsperstream : Int)
  | pause (id : Int)
  | restart (id : Int)
  | recv (w : Env) (length substreamid : Int) (fuel : Nat)

/-- The pool an operation leaves behind; `none` for a `RecvRaw` call that did
not return within its number of passes and for a `GetSockIdHint` call that
traps. -/
def Op.run (c : Consts) : Op → PSock → Option PSock
  | Op.connectPrimary s, st => some (TryConnect s st)
  | Op.connectParallel s, st => some (TryConnectParallelSock c s st).2
  | Op.establish id, st => some (EstablishParallelSock c id st).2
  | Op.remove id, st => some (RemoveParallelSock id st).2
  | Op.disconnect, st => some (Disconnect st)
  | Op.hint r, st => (GetSockIdHint r st).map (fun res => res.2)
  | Op.pause id, st => some (PauseSelectOnSubstream id st)
  | Op.restart id, st => some (RestartSelectOnSubstream id st)
  | Op.recv w length substreamid fuel, st =>
    (RecvRaw c w length substreamid fuel st).map (fun out => out.st)

/-- What the operating system guarantees about an operation: a connect that
succeeds hands out a descriptor that is not open at that moment. -/
def Op.admissible : Op → PSock → Prop
  | Op.connectPrimary s, st => s < 0 ∨ s ∉ st.sys.openFds
  | Op.connectParallel s, st => s < 0 ∨ s ∉ st.sys.openFds
  | _, _ => True

/-- The pools that can be reached from a freshly constructed one by the public
operations. -/
inductive Reachable (c : Consts) : PSock → Prop
  | fresh (g : fdinfo) (w : Sys) : Reachable c (construct g w)
  | step {st st1 : PSock} (op : Op) : Reachable c st → op.admissible st →
      op.run c st = some st1 → Reachable c st1

/-- The number of established parallel substreams in the registry: the entries
of the id table whose id is neither the primary `0` nor the staged id. -/
def establishedCount (c : Consts) (st : PSock) : Nat :=
  (st.fSocketPool.filter
    (fun e => decide (e.1 ≠ 0) && decide (e.1 ≠ c.XRDCLI_PSOCKTEMP))).length

/-- The two operations that add a parallel substream. -/
inductive ParOp where
  | connectParallel (s : Int)
  | establish (id : Int)
  deriving DecidableEq, Repr

/-- The pool one of the two operations leaves behind. -/
def ParOp.run (c : Consts) : ParOp → PSock → PSock
  | ParOp.connectParallel s, st => (TryConnectParallelSock c s st).2
  | ParOp.establish id, st => (EstablishParallelSock c id st).2

/-- The pool a sequence of the two operations leaves behind. -/
def runPar (c : Consts) : List ParOp → PSock → PSock
  | [], st => st
  | op :: ops, st => runPar c ops (op.run c st)

/-- Every `establish` of the sequence is given an id that is a new parallel
id at that moment: not the primary `0`, not the staged id, and without an
entry in the id table. -/
def newIds (c : Consts) : List ParOp → PSock → Prop
  | [], _ => True
  | ParOp.connectParallel s :: ops, st =>
    newIds c ops ((ParOp.connectParallel s).run c st)
  | ParOp.establish id :: ops, st =>
    (id ≠ 0 ∧ id ≠ c.XRDCLI_PSOCKTEMP ∧ Find st.fSocketPool id = none) ∧
      newIds c ops ((ParOp.establish id).run c st)

/-- The ordered list agrees with the registry: it is as long as there are
established parallel substreams, and each of its ids resolves to a
descriptor; none of them is the staged id. -/
def ListAgrees (c : Consts) (st : PSock) : Prop :=
  st.fSocketIdRepo.length = establishedCount c st ∧
    ∀ id ∈ st.fSocketIdRepo, 0 ≤ GetSock st id ∧ id ≠ c.XRDCLI_PSOCKTEMP

/-- The consistency that the operations maintain between an id table `p`, a
descriptor table `q` and the open descriptors `o`: an id that maps to a
descriptor is what that descriptor maps back to; the descriptors with an
entry are open; the registered descriptors are not negative; the id table has
one entry per id. -/
structure RegOK (p q : List (Int × Int)) (o : List Int) : Prop where
  back : ∀ id h, Find p id = some h → Find q h = some id
  isOpen : ∀ h id, Find q h = some id → h ∈ o
  nonneg : ∀ id h, Find p id = some h → 0 ≤ h
  keys : (p.map Prod.fst).Nodup

/-- The registry of the pool is consistent. -/
def RegInv (st : PSock) : Prop :=
  RegOK st.fSocketPool st.fSocketIdPool st.sys.openFds

/-! ## Concrete pools used as test inputs -/

/-- A choice of the constants: three distinct negative return codes and a
staged id that is neither `0` nor `-1`. -/
def sampleConsts : Consts :=
  { TXSOCK_ERR := -1, TXSOCK_ERR_TIMEOUT := -2, TXSOCK_ERR_INTERRUPT := -3,
    XRDCLI_PSOCKTEMP := -4 }

/-- A freshly constructed pool. -/
def freshPool : PSock :=
  construct { fdset := [], maxfd := 0 } { openFds := [], closeLog := [] }

/-- The pool after the primary connection (descriptor 3) and two parallel
connections (descriptors 4 and 5), established as substreams 1 and 2. -/
def poolTwo : PSock :=
  (EstablishParallelSock sampleConsts 2
    (TryConnectParallelSock sampleConsts 5
      (EstablishParallelSock sampleConsts 1
        (TryConnectParallelSock sampleConsts 4 (TryConnect 3 freshPool)).2).2).2).2

/-- An environment in which the clock stands still, descriptor 5 is always
readable, nobody interrupts, and the reads deliver first at most 2 bytes and
then all that is asked for. -/
def envTwoReads : Env :=
  { requestTimeout := 10,
    time := fun _ => 0,
    select := fun _ _ _ => { selRet := 1, ready := [5], eintr := false },
    interrupt := fun _ => false,
    recv := fun k _ len => if k = 0 then { n := min 2 len, eintr := false }
                           else { n := len, eintr := false } }

/-- What `RecvRaw` leaves behind when 10 bytes are asked from any substream of
`poolTwo` in the environment `envTwoReads`. -/
def outTwoReads : RecvOut :=
  { ret := 10,
    usedsubstreamid := some 2,
    st := { poolTwo with
            fReinit_fd := false,
            globalfdinfo := { fdset := [3, 4, 5], maxfd := 5 } },
    trace := [Ev.wait [3, 4, 5] 6, Ev.read 5 10 2 false, Ev.wait [5] 6,
              Ev.read 5 8 8 false] }

/-- An environment in which descriptor 5 is readable and the read on it finds
the connection closed by the peer (`recv` returns 0, `errno` is not `EINTR`). -/
def envClosed5 : Env :=
  { requestTimeout := 10,
    time := fun _ => 0,
    select := fun _ _ _ => { selRet := 1, ready := [5], eintr := false },
    interrupt := fun _ => false,
    recv := fun _ _ _ => { n := 0, eintr := false } }

/-- An environment in which descriptor 3 is readable and the read on it finds
the connection closed by the peer. -/
def envClosed3 : Env :=
  { requestTimeout := 10,
    time := fun _ => 0,
    select := fun _ _ _ => { selRet := 1, ready := [3], eintr := false },
    interrupt := fun _ => false,
    recv := fun _ _ _ => { n := 0, eintr := false } }

/-- The pool after the primary connection (descriptor 3) and two parallel
connections (descriptors 4 and 5) that were both established under the id 1:
the id is twice in the ordered list, and it resolves to descriptor 5. -/
def poolDup : PSock :=
  (EstablishParallelSock sampleConsts 1
    (TryConnectParallelSock sampleConsts 5
      (EstablishParallelSock sampleConsts 1
        (TryConnectParallelSock sampleConsts 4 (TryConnect 3 freshPool)).2).2).2).2

/-- What `RecvRaw` leaves behind on `poolDup` in the environment `envClosed5`. -/
def outDupClosed5 : RecvOut :=
  { ret := -2,
    usedsubstreamid := none,
    st := { poolDup with
            fReinit_fd := false,
            globalfdinfo := { fdset := [3], maxfd := 5 },
            fSocketIdRepo := [1],
            fSocketPool := [(0, 3)],
            fSocketIdPool := [(4, 1), (3, 0)],
            sys := { openFds := [4, 3], closeLog := [5] } },
    trace := [Ev.wait [3, 5] 6, Ev.read 5 10 0 false] }

/-- What `RecvRaw` leaves behind on `poolTwo` in the environment `envClosed5`. -/
def outTwoClosed5 : RecvOut :=
  { ret := -2,
    usedsubstreamid := none,
    st := { poolTwo with
            fReinit_fd := false,
            globalfdinfo := { fdset := [3, 4], maxfd := 5 },
            fSocketIdRepo := [1],
            fSocketPool := [(1, 4), (0, 3)],
            fSocketIdPool := [(4, 1), (3, 0)],
            sys := { openFds := [4, 3], closeLog := [5] } },
    trace := [Ev.wait [3, 4, 5] 6, Ev.read 5 10 0 false] }

/-- What `RecvRaw` leaves behind on `poolTwo` in the environment `envClosed3`. -/
def outTwoClosed3 : RecvOut :=
  { ret := -1,
    usedsubstreamid := none,
    st := { poolTwo with
            fReinit_fd := false,
            globalfdinfo := { fdset := [3, 4, 5], maxfd := 5 } },
    trace := [Ev.wait [3, 4, 5] 6, Ev.read 3 10 0 false] }

/-- The pool after two parallel connections (descriptors 4 and 5) were opened
one after the other without an `establish` in between. -/
def poolStagedTwice : PSock :=
  (TryConnectParallelSock sampleConsts 5 (TryConnectParallelSock sampleConsts 4 freshPool).2).2

/-- Two parallel connections, both established under the id 1. -/
def opsDup : List ParOp :=
  [ParOp.connectParallel 4, ParOp.establish 1, ParOp.connectParallel 5, ParOp.establish 1]

/-- Two parallel connections, established under the ids 1 and 2. -/
def opsTwo : List ParOp :=
  [ParOp.connectParallel 4, ParOp.establish 1, ParOp.connectParallel 5, ParOp.establish 2]

/-- The pool after the primary connection (descriptor 3) and one parallel
connection (descriptor 4) established as substream 1. -/
def poolOne : PSock :=
  (EstablishParallelSock sampleConsts 1
    (TryConnectParallelSock sampleConsts 4 (TryConnect 3 freshPool)).2).2

/-- An environment in which the clock advances by one per reading and the
deadline is 2, the descriptors `readyNow` are readable (`select` returns how
many of the descriptors it was given are), nobody interrupts, and every read
delivers all that is asked for. -/
def envReady (readyNow : List Int) : Env :=
  { requestTimeout := 2,
    time := fun k => (k : Int),
    select := fun _ fds nfds =>
      { selRet := ((fds.filter
          (fun fd => decide (fd < nfds) && decide (fd ∈ readyNow))).length : Int),
        ready := readyNow, eintr := false },
    interrupt := fun _ => false,
    recv := fun _ _ len => { n := len, eintr := false } }

/-- An environment in which `select` fails with an error other than `EINTR`,
as it does when it is given a descriptor that is closed. -/
def envBadFd : Env :=
  { requestTimeout := 2,
    time := fun k => (k : Int),
    select := fun _ _ _ => { selRet := -1, ready := [], eintr := false },
    interrupt := fun _ => false,
    recv := fun _ _ len => { n := len, eintr := false } }

/-- The pool `poolOne` after a `RecvRaw` call that rebuilt the global
descriptor set: the stale flag is down and the set holds 3 and 4. -/
def poolOneUsed : PSock :=
  { poolOne with fReinit_fd := false, globalfdinfo := { fdset := [3, 4], maxfd := 4 } }

/-- The pool `poolOneUsed` after one more parallel connection (descriptor 5)
was established as substream 2. -/
def poolGrown : PSock :=
  (EstablishParallelSock sampleConsts 2 (TryConnectParallelSock sampleConsts 5 poolOneUsed).2).2

/-- The pool `poolOneUsed` after `RemoveParallelSock(1)`. -/
def poolShrunk : PSock :=
  (RemoveParallelSock 1 poolOneUsed).2

/-! ## Vocabulary of the statements -/

/-- Two pools have the same registry: the same two tables and the same ordered
list of substream ids; and no descriptor was opened or closed between them. -/
def SameRegistry (st st1 : PSock) : Prop :=
  st1.fSocketPool = st.fSocketPool ∧ st1.fSocketIdPool = st.fSocketIdPool ∧
    st1.fSocketIdRepo = st.fSocketIdRepo ∧ st1.sys = st.sys

/-- The descriptor `fd` is the handle of the substream `S`: the registry maps
`S` to `fd` and `fd` back to `S`, and `S` is an id, not the value `-1` that
stands for "any substream" and for "no id". -/
def HandleOf (st : PSock) (S fd : Int) : Prop :=
  GetSock st S = fd ∧ GetSockId st fd = S ∧ S ≠ -1

/-- No read of the sequence `t` was a failure, that is, a read that delivered
nothing without `errno` being `EINTR`. -/
def NoFailedRead (t : List Ev) : Prop :=
  ∀ fd len n, Ev.read fd len n false ∈ t → 0 < n

/-- How a call ends when one of its reads was a failure (on `fd`, say): the
registry was untouched until then; if `fd` has the id `0` or no id the call
returns `TXSOCK_ERR` and leaves the pool as it is; otherwise it returns
`TXSOCK_ERR_TIMEOUT` after clearing `fd` from the global descriptor set and
calling `RemoveParallelSock` on the id of `fd`. -/
def FailedReadOutcome (c : Consts) (st : PSock) (out : RecvOut) : Prop :=
  ∀ fd len n, Ev.read fd len n false ∈ out.trace → n ≤ 0 →
    ∃ st1, SameRegistry st st1 ∧
      ((GetSockId st fd = 0 ∨ GetSockId st fd = -1) →
        out.ret = c.TXSOCK_ERR ∧ out.st = st1) ∧
      (GetSockId st fd ≠ 0 → GetSockId st fd ≠ -1 →
        out.ret = c.TXSOCK_ERR_TIMEOUT ∧
          out.st = (RemoveParallelSock (GetSockId st fd) (clearGlobal fd st1)).2)

/-- What a call of `RecvRaw` can do to the registry of `st`: nothing, or one
call of `RemoveParallelSock`. -/
def RegistryEffect (st : PSock) (out : RecvOut) : Prop :=
  SameRegistry st out.st ∨
    ∃ id st1, SameRegistry st st1 ∧ out.st = (RemoveParallelSock id st1).2

/-- The first call of a primitive in the sequence `t`, if there is one, is a
wait on the descriptor set `g`. -/
def FirstWaitOn (g : fdinfo) (t : List Ev) : Prop :=
  t = [] ∨ ∃ rest, t = Ev.wait g.fdset (g.maxfd + 1) :: rest

/-- The sequence `t` is not empty and starts with a wait on `g`. -/
def StartsWithWaitOn (g : fdinfo) (t : List Ev) : Prop :=
  ∃ rest, t = Ev.wait g.fdset (g.maxfd + 1) :: rest

/-! ## Sending -/

/-- Modelled from the spec: the base-class method `XrdClientSock::SendRaw` is
not among the sources; it is "the single-connection write primitive (external
collaborator)". What it returns is given by `write`, from the buffer, the
length and the descriptor it is called with. -/
structure SendOut where
  ret : Int
  calls : List (List Nat × Int × Int)
  deriving DecidableEq, Repr

/-- The method `SendRaw(buffer, length, substreamid)`: what it returns, and
the calls it makes to the base-class write. -/
def SendRaw (write : List Nat → Int → Int → Int) (buffer : List Nat)
    (length substreamid : Int) (st : PSock) : SendOut :=
  let sfd := GetSock st substreamid
  { ret := write buffer length sfd, calls := [(buffer, length, sfd)] }

/-! ## Sequences of pause and restart calls -/

/-- A call of `PauseSelectOnSubstream` or of `RestartSelectOnSubstream`. -/
inductive PauseOp where
  | pause (id : Int)
  | restart (id : Int)
  deriving DecidableEq, Repr

/-- The pool a pause or restart call leaves behind. -/
def PauseOp.run : PauseOp → PSock → PSock
  | PauseOp.pause id, st => PauseSelectOnSubstream id st
  | PauseOp.restart id, st => RestartSelectOnSubstream id st

/-- The pool a sequence of pause and restart calls leaves behind. -/
def runPauseOps : List PauseOp → PSock → PSock
  | [], st => st
  | op :: ops, st => runPauseOps ops (op.run st)

/-! ## More concrete inputs -/

/-- The connected pool with one parallel connection (descriptor 4) staged and
not yet established. -/
def poolStaged : PSock :=
  (TryConnectParallelSock sampleConsts 4 (TryConnect 3 freshPool)).2

/-- A base-class write that reports `length` bytes written on a descriptor
that is not negative, and `-1` otherwise. -/
def writeAll (_buffer : List Nat) (length sfd : Int) : Int :=
  if sfd ≥ 0 then length else -1

/-- The readiness record is within bounds: its descriptors lie between 0 and
`maxfd`, `maxfd` is not negative, it is 0 while the set is empty and a member
of the set otherwise. -/
def Bounded (a : fdinfo) : Prop :=
  (∀ fd ∈ a.fdset, 0 ≤ fd ∧ fd ≤ a.maxfd) ∧ 0 ≤ a.maxfd ∧
    (a.fdset = [] → a.maxfd = 0) ∧ (a.fdset ≠ [] → a.maxfd ∈ a.fdset)

/-- The readiness set stays within the recorded maximum `M`: the maximum is
`M`, the descriptors of the set lie between 0 and `M`, and so does every
descriptor of the id table that is not negative. -/
def WithinMax (M : Int) (st : PSock) : Prop :=
  st.globalfdinfo.maxfd = M ∧
    (∀ fd ∈ st.globalfdinfo.fdset, 0 ≤ fd ∧ fd ≤ M) ∧
    (∀ k h, (k, h) ∈ st.fSocketPool → 0 ≤ h → h ≤ M)

/-! ## Repeated hints -/

/-- The pool after `k` consecutive calls of `GetSockIdHint`; `none` when one
of them does not return. -/
def hintState (reqsperstream : Int) : Nat → PSock → Option PSock
  | 0, st => some st
  | k + 1, st =>
    match GetSockIdHint reqsperstream st with
    | none => none
    | some r => hintState reqsperstream k r.2

/-- The ordinal returned by call number `j + 1` of a run of consecutive calls
of `GetSockIdHint`; `none` when that call or an earlier one does not
return. -/
def hintAt (reqsperstream : Int) (st : PSock) (j : Nat) : Option Int :=
  match hintState reqsperstream j st with
  | none => none
  | some st1 => (GetSockIdHint reqsperstream st1).map (fun res => res.1)

/-- The ordinal that corresponds to the counter value reached `j + 1` calls
after the counter held `a`, for `n` substreams and `r` requests per
stream. -/
def ordinalAfter (n r a j : Nat) : Nat :=
  ((a + j + 1) % (n * r)) / r + 1

/-! ## Vocabulary for the interrupt -/

/-- The number of waits in a sequence of primitive calls. -/
def waitsIn (t : List Ev) : Nat :=
  (t.filter (fun e => match e with
    | Ev.wait _ _ => true
    | Ev.read _ _ _ _ => false)).length

/-- In the sequence `t`, wait number `k` (counting from 0) was on the set
`fds` with bound `nfds`, and `post` is what followed it. -/
def WaitAt (t : List Ev) (k : Nat) (fds : List Int) (nfds : Int) (post : List Ev) : Prop :=
  ∃ pre, t = pre ++ Ev.wait fds nfds :: post ∧ waitsIn pre = k

/-- Wait number `k` reported a hard error: `select` returned a negative value
and `errno` was not `EINTR`. -/
def HardError (w : Env) (k : Nat) (fds : List Int) (nfds : Int) : Prop :=
  (w.select k fds nfds).selRet < 0 ∧ (w.select k fds nfds).eintr = false

/-- The interrupt flag is set at the end of wait number `k` of a call made on
the pool `st`: it was set when the call began and this is its first wait, or
another thread raised it during this wait. -/
def FlagSeen (w : Env) (st : PSock) (k : Nat) : Prop :=
  (k = 0 ∧ st.fRDInterrupt = true) ∨ w.interrupt k = true

/-- None of the waits of `t` that ended without a hard error found the
interrupt flag set. -/
def NotInterrupted (w : Env) (st : PSock) (t : List Ev) : Prop :=
  ∀ k fds nfds post, WaitAt t k fds nfds post → ¬ HardError w k fds nfds →
    ¬ FlagSeen w st k

/-- How a call ends when one of its waits ended without a hard error and with
the interrupt flag set: it returns `TXSOCK_ERR_INTERRUPT`, the flag is down,
and that wait was its last call of a primitive. -/
def InterruptOutcome (c : Consts) (w : Env) (st : PSock) (out : RecvOut) : Prop :=
  ∀ k fds nfds post, WaitAt out.trace k fds nfds post → ¬ HardError w k fds nfds →
    FlagSeen w st k →
    out.ret = c.TXSOCK_ERR_INTERRUPT ∧ out.st.fRDInterrupt = false ∧ post = []

/-- An environment in which descriptor 5 is readable and another thread
raises the interrupt flag during every wait. -/
def envInterrupt : Env :=
  { requestTimeout := 10,
    time := fun _ => 0,
    select := fun _ _ _ => { selRet := 1, ready := [5], eintr := false },
    interrupt := fun _ => true,
    recv := fun _ _ len => { n := len, eintr := false } }

/-- What `RecvRaw` leaves behind on `poolTwo` in the environment
`envInterrupt`. -/
def outTwoInterrupt : RecvOut :=
  { ret := -3,
    usedsubstreamid := none,
    st := { poolTwo with
            fReinit_fd := false,
            globalfdinfo := { fdset := [3, 4, 5], maxfd := 5 } },
    trace := [Ev.wait [3, 4, 5] 6] }

/-! ## Vocabulary for the pause -/

/-- The calls of `t` stay away from the descriptor `sock`: no wait is on a set
that holds it and no read is on it. -/
def Avoids (sock : Int) (t : List Ev) : Prop :=
  (∀ fds nfds, Ev.wait fds nfds ∈ t → sock ∉ fds) ∧
    (∀ fd len n e, Ev.read fd len n e ∈ t → fd ≠ sock)

/-- Every descriptor of the set `g` is the handle of a substream other than
`id`: the registry maps its id back to it, and that id is not `id`. -/
def OthersRegistered (st : PSock) (g : List Int) (id : Int) : Prop :=
  ∀ fd ∈ g, GetSock st (GetSockId st fd) = fd ∧ GetSockId st fd ≠ id

/-- An environment in which the clock stands still, the descriptors 4 and 5
are always readable, nobody interrupts, and the reads deliver first at most 2
bytes and then all that is asked for. -/
def envTwoReads45 : Env :=
  { requestTimeout := 10,
    time := fun _ => 0,
    select := fun _ _ _ => { selRet := 1, ready := [4, 5], eintr := false },
    interrupt := fun _ => false,
    recv := fun k _ len => if k = 0 then { n := min 2 len, eintr := false }
                           else { n := len, eintr := false } }

/-- The pool `poolTwo` after a `RecvRaw` call that rebuilt the global
descriptor set: the stale flag is down and the set holds 3, 4 and 5. -/
def poolTwoUsed : PSock :=
  { poolTwo with fReinit_fd := false, globalfdinfo := { fdset := [3, 4, 5], maxfd := 5 } }

/-- The pool `poolOneUsed` after one more parallel connection (descriptor 5)
was established under the id 1, which descriptor 4 had: the global descriptor
set, built before, holds 3 and 4, and descriptor 4 still maps to the id 1. -/
def poolStale : PSock :=
  (EstablishParallelSock sampleConsts 1 (TryConnectParallelSock sampleConsts 5 poolOneUsed).2).2

/-- What `RecvRaw` leaves behind on `poolTwoUsed` with substream 2 paused, in
the environment `envTwoReads45`. -/
def outPaused : RecvOut :=
  { ret := 10,
    usedsubstreamid := some 1,
    st := { poolTwo with fReinit_fd := false, globalfdinfo := { fdset := [3, 4], maxfd := 5 } },
    trace := [Ev.wait [3, 4] 6, Ev.read 4 10 2 false, Ev.wait [4] 5, Ev.read 4 8 8 false] }

/-! ## Runs within the range of `int` -/

/-- The arguments of an operation keep the arithmetic of `GetSockIdHint`
within the range of `int` and away from a zero divisor: `reqsperstream` is at
least 1 and its product with the length of the ordered list does not exceed
`INT_MAX`. The other operations do no such arithmetic. -/
def Op.fits : Op → PSock → Prop
  | Op.hint r, st => 1 ≤ r ∧ (st.fSocketIdRepo.length : Int) * r ≤ INT_MAX
  | _, _ => True

/-- The pools that can be reached from a freshly constructed one by the public
operations when every `GetSockIdHint` call among them fits. -/
inductive ReachableFit (c : Consts) : PSock → Prop
  | fresh (g : fdinfo) (w : Sys) : ReachableFit c (construct g w)
  | step {st st1 : PSock} (op : Op) : ReachableFit c st → op.admissible st → op.fits st →
      op.run c st = some st1 → ReachableFit c st1

/-- The pool `poolTwo` after one more parallel connection (descriptor 6) was
established as substream 3. -/
def poolThree : PSock :=
  (EstablishParallelSock sampleConsts 3 (TryConnectParallelSock sampleConsts 6 poolTwo).2).2

/-- The pool `poolThree` after one more parallel connection (descriptor 7) was
established as substream 4. -/
def poolFour : PSock :=
  (EstablishParallelSock sampleConsts 4 (TryConnectParallelSock sampleConsts 7 poolThree).2).2

/-- The pool `poolTwo` after 2147483647 calls `GetSockIdHint(1073741824)`:
the hint counter holds `INT_MAX`. -/
def poolCounterMax : PSock :=
  { poolTwo with lastsidhint := 2147483647 }

/-- The pool `poolCounterMax` after one call `GetSockIdHint(3)`: the hint
counter holds `-2`. -/
def poolCounterNeg : PSock :=
  { poolTwo with lastsidhint := -2 }

/-! ## The passes of a receive -/

/-- The locals with which `RecvRaw` enters its loop. -/
def startLocals (substreamid : Int) : Locals :=
  { bytesread := 0, substreamid := substreamid, usedsubstreamid := none,
    nsel := 0, nrecv := 0, trace := [] }

/-- The pool and the locals with which pass number `k` (counting from 0)
through the loop body begins, when the loop gets that far. -/
def passAt (c : Consts) (w : Env) (length starttime : Int) :
    Nat → PSock → Locals → Option (PSock × Locals)
  | 0, st, L => some (st, L)
  | k + 1, st, L =>
    match body c w length starttime st L with
    | Step.done _ => none
    | Step.again st1 L1 => passAt c w length starttime k st1 L1

/-- The local descriptor set of a pass: the global one for
`substreamid == -1`, else the descriptor of the substream alone. `st` is the
pool after the rebuild of a stale global set. -/
def localSet (st : PSock) (substreamid : Int) : fdinfo :=
  if substreamid = -1 then st.globalfdinfo
  else { fdset := FD_SET (GetSock st substreamid) FD_ZERO, maxfd := GetSock st substreamid }

/-- What `select` hands back in the pass that begins with the pool `st` and
the locals `L`. -/
def selectAt (w : Env) (st : PSock) (L : Locals) : SelectRet :=
  w.select L.nsel (localSet (refreshed st) L.substreamid).fdset
    ((localSet (refreshed st) L.substreamid).maxfd + 1)

/-- The interrupt flag as it stands when the wait of that pass is over. -/
def flagAt (w : Env) (st : PSock) (L : Locals) : Bool :=
  (raise (w.interrupt L.nsel) (refreshed st)).fRDInterrupt

/-- The pass reaches the end of its wait step: the substream the call is
pinned to, if any, has a descriptor, the deadline has not elapsed, and
`select` reported no hard error. -/
def WaitEnds (w : Env) (starttime : Int) (st : PSock) (L : Locals) : Prop :=
  (L.substreamid = -1 ∨ 0 ≤ GetSock (refreshed st) L.substreamid) ∧
    ¬ (w.time (L.nsel + 1) - starttime > w.requestTimeout) ∧
    ¬ ((selectAt w st L).selRet < 0 ∧ (selectAt w st L).eintr = false)

/-- The first descriptor that the scan of the pass finds ready. -/
def firstReady (w : Env) (st : PSock) (L : Locals) : Option Int :=
  scan { localSet (refreshed st) L.substreamid with
    fdset := selected (localSet (refreshed st) L.substreamid).fdset
      ((localSet (refreshed st) L.substreamid).maxfd + 1) (selectAt w st L).ready }

/-- The pass issues a read on `ii`: its wait step ends with a positive result
of `select` and with the interrupt flag down, and `ii` is the first ready
descriptor. -/
def ReadsOn (w : Env) (starttime : Int) (st : PSock) (L : Locals) (ii : Int) : Prop :=
  WaitEnds w starttime st L ∧ 0 < (selectAt w st L).selRet ∧ flagAt w st L = false ∧
    firstReady w st L = some ii

/-- The read of the pass on `ii` fails: `recv` returns a value that is not
positive and `errno` is not `EINTR`. -/
def ReadFails (w : Env) (length : Int) (L : Locals) (ii : Int) : Prop :=
  (w.recv L.nrecv ii (length - L.bytesread)).n ≤ 0 ∧
    (w.recv L.nrecv ii (length - L.bytesread)).eintr = false

/-- The pool after the primary connection (descriptor 3) and one parallel
connection (descriptor 4) established under the id `-1`. -/
def poolMinusOne : PSock :=
  (EstablishParallelSock sampleConsts (-1)
    (TryConnectParallelSock sampleConsts 4 (TryConnect 3 freshPool)).2).2

/-- An environment in which descriptor 4 is readable and the read on it finds
the connection closed by the peer. -/
def envClosed4 : Env :=
  { requestTimeout := 10,
    time := fun _ => 0,
    select := fun _ _ _ => { selRet := 1, ready := [4], eintr := false },
    interrupt := fun _ => false,
    recv := fun _ _ _ => { n := 0, eintr := false } }

/-! ## Theorems -/

/-! ### Substream hint -/

/-- One call of `GetSockIdHint` on a list that is not empty, when `%` and `/`
give the results `h` and `q`. -/
theorem GetSockIdHint_eq (r : Int) (st : PSock) (h q : Int)
    (hpos : (st.fSocketIdRepo.length : Int) > 0)
    (hm : cMod (wrap32 (st.lastsidhint + 1))
      (wrap32 ((st.fSocketIdRepo.length : Int) * r)) = some h)
    (hd : cDiv h r = some q) :
    GetSockIdHint r st = some (wrap32 (q + 1), { st with lastsidhint := h }) := by
  unfold GetSockIdHint
  rw [if_pos hpos, hm]
  simp only [hd]

/-- The list of hints when the first call returns: the counter holds `a`, and
`%` and `/` give `h` and `q`. -/
theorem hints_cons (r : Int) (st : PSock) (a h q : Int) (n : Nat)
    (hpos : (st.fSocketIdRepo.length : Int) > 0) (h0 : st.lastsidhint = a)
    (hm : cMod (wrap32 (a + 1)) (wrap32 ((st.fSocketIdRepo.length : Int) * r)) = some h)
    (hd : cDiv h r = some q) :
    hints r (n + 1) st = wrap32 (q + 1) :: hints r n { st with lastsidhint := h } := by
  have hcall := GetSockIdHint_eq r st h q hpos (by rw [h0]; exact hm) hd
  simp only [hints, hcall]

/-- A call of `GetSockIdHint` that returns changes nothing but the counter. -/
theorem GetSockIdHint_state {r : Int} {st : PSock} {res : Int × PSock}
    (h : GetSockIdHint r st = some res) :
    res.2 = { st with lastsidhint := res.2.lastsidhint } := by
  unfold GetSockIdHint at h
  split_ifs at h
  · cases hm : cMod (wrap32 (st.lastsidhint + 1))
        (wrap32 ((st.fSocketIdRepo.length : Int) * r)) with
    | none => simp only [hm] at h; exact Option.noConfusion h
    | some m =>
      simp only [hm] at h
      cases hd : cDiv m r with
      | none => simp only [hd] at h; exact Option.noConfusion h
      | some q =>
        simp only [hd, Option.some.injEq] at h
        subst h
        rfl
  · cases hd : cDiv 0 r with
    | none => simp only [hd] at h; exact Option.noConfusion h
    | some q =>
      simp only [hd, Option.some.injEq] at h
      subst h
      rfl

/-- C5 fails as stated: on the freshly built pool with the parallel substreams
1 and 2 in the ordered list and the hint counter at 0, six calls
`GetSockIdHint(2)` return 1,2,2,1,1,2 and not 1,1,2,2,1,1. -/
theorem C5_hint_sequence_counterexample :
    poolTwo.lastsidhint = 0 ∧ poolTwo.fSocketIdRepo = [1, 2] ∧
      hints 2 6 poolTwo = [1, 2, 2, 1, 1, 2] ∧
      hints 2 6 poolTwo ≠ [1, 1, 2, 2, 1, 1] := by
  decide

/-- C5 as amended: from a hint counter of 0 and the ordered list `[1, 2]`, six
consecutive calls `GetSockIdHint(2)` return 1,2,2,1,1,2 (the counter is
advanced before it is mapped to an ordinal). -/
theorem C5_hint_sequence (st : PSock) (h0 : st.lastsidhint = 0)
    (hrepo : st.fSocketIdRepo = [1, 2]) :
    hints 2 6 st = [1, 2, 2, 1, 1, 2] := by
  rw [hints_cons 2 st 0 1 0 5 (by rw [hrepo]; decide) h0 (by rw [hrepo]; decide) (by decide),
    hints_cons 2 _ 1 2 1 4 (by rw [hrepo]; decide) rfl (by rw [hrepo]; decide) (by decide),
    hints_cons 2 _ 2 3 1 3 (by rw [hrepo]; decide) rfl (by rw [hrepo]; decide) (by decide),
    hints_cons 2 _ 3 0 0 2 (by rw [hrepo]; decide) rfl (by rw [hrepo]; decide) (by decide),
    hints_cons 2 _ 0 1 0 1 (by rw [hrepo]; decide) rfl (by rw [hrepo]; decide) (by decide),
    hints_cons 2 _ 1 2 1 0 (by rw [hrepo]; decide) rfl (by rw [hrepo]; decide) (by decide)]
  simp only [hints]
  decide

/-- C5 as amended, at the pool built by the constructor and the connects. -/
theorem C5_hint_sequence_witness :
    poolTwo.lastsidhint = 0 ∧ poolTwo.fSocketIdRepo = [1, 2] ∧
      hints 2 6 poolTwo = [1, 2, 2, 1, 1, 2] :=
  ⟨by decide, by decide, C5_hint_sequence poolTwo (by decide) (by decide)⟩

/-! ### The keyed table -/

/-- After `Del` the key is absent. -/
theorem Find_Del_self (m : List (Int × Int)) (k : Int) : Find (Del m k) k = none := by
  induction m with
  | nil => rfl
  | cons e m ih =>
    obtain ⟨a, b⟩ := e
    by_cases h : a = k
    · simpa [Del, h] using ih
    · simpa [Del, h, Find] using ih

/-- `Del` leaves the other keys as they are. -/
theorem Find_Del_ne (m : List (Int × Int)) {k key : Int} (h : key ≠ k) :
    Find (Del m k) key = Find m key := by
  induction m with
  | nil => rfl
  | cons e m ih =>
    obtain ⟨a, b⟩ := e
    unfold Del at ih ⊢
    by_cases h1 : a = k
    · subst h1
      have h2 : ¬ a = key := fun h3 => h h3.symm
      rw [List.filter_cons_of_neg (by simp)]
      simp only [Find, if_neg h2]
      exact ih
    · rw [List.filter_cons_of_pos (by simpa using h1)]
      simp only [Find]
      split_ifs
      · rfl
      · exact ih

/-- After `Rep` the key maps to the new value. -/
theorem Find_Rep_self (m : List (Int × Int)) (k v : Int) : Find (Rep m k v) k = some v := by
  simp [Rep, Find]

/-- `Rep` leaves the other keys as they are. -/
theorem Find_Rep_ne (m : List (Int × Int)) {k key : Int} (v : Int) (h : key ≠ k) :
    Find (Rep m k v) key = Find m key := by
  have h2 : k ≠ key := fun h3 => h h3.symm
  simp [Rep, Find, h2, Find_Del_ne m h]

/-- What `Find` returns is an entry of the table. -/
theorem Find_some_mem {m : List (Int × Int)} {k v : Int} (h : Find m k = some v) :
    (k, v) ∈ m := by
  induction m with
  | nil => simp [Find] at h
  | cons e m ih =>
    obtain ⟨a, b⟩ := e
    by_cases h1 : a = k
    · simp [Find, h1] at h
      simp [h1, h]
    · simp [Find, h1] at h
      exact List.mem_cons_of_mem _ (ih h)

/-- The visitor `FdSetSockFunc` deletes nothing: the table is as before. -/
theorem Apply_FdSetSockFunc_fst (m : List (Int × Int)) (a : fdinfo) :
    (Apply FdSetSockFunc m a).1 = m := by
  induction m generalizing a with
  | nil => rfl
  | cons e m ih =>
    obtain ⟨k, v⟩ := e
    by_cases h : v ≥ 0
    · simp [Apply, FdSetSockFunc, h, ih]
    · simp [Apply, FdSetSockFunc, h, ih]

/-- The visitor `CloseSockFunc` deletes every entry. -/
theorem Apply_CloseSockFunc_fst (m : List (Int × Int)) (w : Sys) :
    (Apply CloseSockFunc m w).1 = [] := by
  induction m generalizing w with
  | nil => rfl
  | cons e m ih =>
    obtain ⟨k, v⟩ := e
    simp [Apply, CloseSockFunc, ih]

/-- The visitor `CloseSockFunc` closes the descriptors of the table, one call
per entry. -/
theorem Apply_CloseSockFunc_closeLog (m : List (Int × Int)) (w : Sys) :
    (Apply CloseSockFunc m w).2.closeLog = w.closeLog ++ m.map Prod.snd := by
  induction m generalizing w with
  | nil => simp [Apply]
  | cons e m ih =>
    obtain ⟨k, v⟩ := e
    simp [Apply, CloseSockFunc, ih, sysClose]

/-! ### What a pass through the loop leaves untouched -/

theorem SameRegistry.refl (st : PSock) : SameRegistry st st := ⟨rfl, rfl, rfl, rfl⟩

theorem SameRegistry.trans {a b d : PSock} (h1 : SameRegistry a b) (h2 : SameRegistry b d) :
    SameRegistry a d :=
  ⟨h2.1.trans h1.1, h2.2.1.trans h1.2.1, h2.2.2.1.trans h1.2.2.1, h2.2.2.2.trans h1.2.2.2⟩

theorem SameRegistry.getSock {a b : PSock} (h : SameRegistry a b) (id : Int) :
    GetSock b id = GetSock a id := by
  simp [GetSock, h.1]

theorem SameRegistry.getSockId {a b : PSock} (h : SameRegistry a b) (fd : Int) :
    GetSockId b fd = GetSockId a fd := by
  simp [GetSockId, h.2.1]

theorem SameRegistry.getMainSock {a b : PSock} (h : SameRegistry a b) :
    GetMainSock b = GetMainSock a := h.getSock 0

theorem refreshed_sameRegistry (st : PSock) : SameRegistry st (refreshed st) := by
  unfold refreshed
  split_ifs
  · exact ⟨Apply_FdSetSockFunc_fst _ _, rfl, rfl, rfl⟩
  · exact SameRegistry.refl st

theorem raise_sameRegistry (b : Bool) (st : PSock) : SameRegistry st (raise b st) := by
  unfold raise
  split_ifs
  · exact ⟨rfl, rfl, rfl, rfl⟩
  · exact SameRegistry.refl st

theorem ReinitFDTable_sameRegistry (st : PSock) : SameRegistry st (ReinitFDTable st) :=
  ⟨rfl, rfl, rfl, rfl⟩

theorem clearGlobal_sameRegistry (fd : Int) (st : PSock) : SameRegistry st (clearGlobal fd st) :=
  ⟨rfl, rfl, rfl, rfl⟩

/-! ### The descriptor that the scan finds -/

/-- The scan returns a descriptor of the set it scans. -/
theorem scan_mem {loc : fdinfo} {ii : Int} (h : scan loc = some ii) : ii ∈ loc.fdset := by
  unfold scan at h
  have := List.find?_some h
  simpa [FD_ISSET] using this

/-- The primitive `select` sets no bit: what it leaves was in the set it got. -/
theorem selected_subset {fds : List Int} {nfds : Int} {ready : List Int} {x : Int}
    (h : x ∈ selected fds nfds ready) : x ∈ fds := by
  unfold selected at h
  exact (List.mem_filter.mp h).1

/-- The set built for a pinned call holds one descriptor. -/
theorem mem_FD_SET_FD_ZERO {fd x : Int} (h : x ∈ FD_SET fd FD_ZERO) : x = fd := by
  simpa [FD_SET, FD_ZERO] using h

/-! ### The loop of RecvRaw -/

/-- Invariant rule for the loop of `RecvRaw`: when every pass through `body`
from a state satisfying `P` returns with `Q` or goes round again with `P`,
whatever the loop returns satisfies `Q`. -/
theorem loop_sat (c : Consts) (w : Env) (length starttime : Int)
    (P : PSock → Locals → Prop) (Q : RecvOut → Prop)
    (hbody : ∀ st L, P st L → (body c w length starttime st L).sat Q P) :
    ∀ (fuel : Nat) (st : PSock) (L : Locals), P st L →
      ∀ out, loop c w length starttime fuel st L = some out → Q out := by
  intro fuel
  induction fuel with
  | zero => intro st L _ out h; simp [loop] at h
  | succ n ih =>
    intro st L hP out h
    simp only [loop] at h
    have hb := hbody st L hP
    cases hs : body c w length starttime st L with
    | done o =>
      rw [hs] at h hb
      simp only [Option.some.injEq] at h
      subst h
      exact hb
    | again st1 L1 =>
      rw [hs] at h hb
      exact ih st1 L1 hb out h

/-- Rule for `leave`. -/
theorem leave_sat {Q : RecvOut → Prop} {P : PSock → Locals → Prop} {ret : Int} {st : PSock}
    {L : Locals}
    (h : Q { ret := ret, usedsubstreamid := L.usedsubstreamid, st := st, trace := L.trace }) :
    (leave ret st L).sat Q P := h

/-- Rule for the test of the outer loop. -/
theorem whileTest_sat {Q : RecvOut → Prop} {P : PSock → Locals → Prop} {length : Int}
    {st : PSock} {L : Locals}
    (hagain : L.bytesread < length → P st L)
    (hdone : ¬ L.bytesread < length →
      Q { ret := L.bytesread, usedsubstreamid := L.usedsubstreamid, st := st,
          trace := L.trace }) :
    (whileTest length st L).sat Q P := by
  unfold whileTest
  split_ifs with h
  · exact hagain h
  · exact hdone h

/-- Rule for the read on a ready descriptor. -/
theorem readStep_sat {Q : RecvOut → Prop} {P : PSock → Locals → Prop} {c : Consts} {w : Env}
    {length : Int} {st : PSock} {L : Locals} {ii : Int}
    (hfatal : (w.recv L.nrecv ii (length - L.bytesread)).n ≤ 0 →
      (w.recv L.nrecv ii (length - L.bytesread)).eintr = false →
      (GetSockId st ii = 0 ∨ GetSockId st ii = -1) →
      (leave c.TXSOCK_ERR st
        (noteRead L ii (length - L.bytesread) (w.recv L.nrecv ii (length - L.bytesread)))).sat Q P)
    (hdrop : (w.recv L.nrecv ii (length - L.bytesread)).n ≤ 0 →
      (w.recv L.nrecv ii (length - L.bytesread)).eintr = false →
      GetSockId st ii ≠ 0 → GetSockId st ii ≠ -1 →
      (leave c.TXSOCK_ERR_TIMEOUT
        (RemoveParallelSock (GetSockId st ii) (clearGlobal ii st)).2
        (noteRead L ii (length - L.bytesread) (w.recv L.nrecv ii (length - L.bytesread)))).sat Q P)
    (hread : ¬ ((w.recv L.nrecv ii (length - L.bytesread)).n ≤ 0 ∧
        (w.recv L.nrecv ii (length - L.bytesread)).eintr = false) →
      (whileTest length st
        (pin st (noteRead L ii (length - L.bytesread) (w.recv L.nrecv ii (length - L.bytesread)))
          ii (w.recv L.nrecv ii (length - L.bytesread)))).sat Q P) :
    (readStep c w length st L ii).sat Q P := by
  unfold readStep
  simp only
  split_ifs with h1 h2
  · exact hfatal h1.1 h1.2 h2
  · rw [not_or] at h2
    exact hdrop h1.1 h1.2 h2.1 h2.2
  · exact hread h1

/-- Rule for the part of the loop body that follows the wait loop. -/
theorem afterWait_sat {Q : RecvOut → Prop} {P : PSock → Locals → Prop} {c : Consts} {w : Env}
    {length : Int} {st : PSock} {L : Locals} {loc : fdinfo}
    (hmain : GetMainSock st < 0 → (leave c.TXSOCK_ERR st L).sat Q P)
    (hint : ¬ GetMainSock st < 0 → st.fRDInterrupt = true →
      (leave c.TXSOCK_ERR_INTERRUPT { st with fRDInterrupt := false } L).sat Q P)
    (hnone : ¬ GetMainSock st < 0 → st.fRDInterrupt = false → scan loc = none →
      (whileTest length st L).sat Q P)
    (hsome : ∀ ii, ¬ GetMainSock st < 0 → st.fRDInterrupt = false → scan loc = some ii →
      (readStep c w length st L ii).sat Q P) :
    (afterWait c w length st L loc).sat Q P := by
  unfold afterWait
  split_ifs with h1 h2
  · exact hmain h1
  · exact hint h1 h2
  · have h2f : st.fRDInterrupt = false := by simpa using h2
    cases hs : scan loc with
    | none => exact hnone h1 h2f hs
    | some ii => exact hsome ii h1 h2f hs

/-- Rule for the wait step. -/
theorem waitStep_sat {Q : RecvOut → Prop} {P : PSock → Locals → Prop} {c : Consts} {w : Env}
    {length starttime : Int} {st : PSock} {L : Locals} {loc : fdinfo}
    (hlate : w.time (L.nsel + 1) - starttime > w.requestTimeout →
      (leave c.TXSOCK_ERR_TIMEOUT st L).sat Q P)
    (herr : ¬ w.time (L.nsel + 1) - starttime > w.requestTimeout →
      (w.select L.nsel loc.fdset (loc.maxfd + 1)).selRet < 0 →
      (w.select L.nsel loc.fdset (loc.maxfd + 1)).eintr = false →
      (leave c.TXSOCK_ERR (ReinitFDTable st) (noteWait L loc)).sat Q P)
    (hrepeat : ¬ w.time (L.nsel + 1) - starttime > w.requestTimeout →
      (w.select L.nsel loc.fdset (loc.maxfd + 1)).selRet ≤ 0 →
      (raise (w.interrupt L.nsel) st).fRDInterrupt = false →
      P (raise (w.interrupt L.nsel) st) (noteWait L loc))
    (hgo : ¬ w.time (L.nsel + 1) - starttime > w.requestTimeout →
      ¬ ((w.select L.nsel loc.fdset (loc.maxfd + 1)).selRet ≤ 0 ∧
          (raise (w.interrupt L.nsel) st).fRDInterrupt = false) →
      (afterWait c w length (raise (w.interrupt L.nsel) st) (noteWait L loc)
        { loc with
          fdset := selected loc.fdset (loc.maxfd + 1)
            (w.select L.nsel loc.fdset (loc.maxfd + 1)).ready }).sat Q P) :
    (waitStep c w length starttime st L loc).sat Q P := by
  unfold waitStep
  simp only
  split_ifs with h1 h2 h3
  · exact hlate h1
  · exact herr h1 h2.1 h2.2
  · exact hrepeat h1 h3.1 h3.2
  · exact hgo h1 h3

/-- Rule for a pass through the loop body. -/
theorem body_sat {Q : RecvOut → Prop} {P : PSock → Locals → Prop} {c : Consts} {w : Env}
    {length starttime : Int} {st : PSock} {L : Locals}
    (hany : L.substreamid = -1 →
      (waitStep c w length starttime (refreshed st) L (refreshed st).globalfdinfo).sat Q P)
    (hone : L.substreamid ≠ -1 → GetSock (refreshed st) L.substreamid ≥ 0 →
      (waitStep c w length starttime (refreshed st) L
        { fdset := FD_SET (GetSock (refreshed st) L.substreamid) FD_ZERO,
          maxfd := GetSock (refreshed st) L.substreamid }).sat Q P)
    (hmain : L.substreamid ≠ -1 → ¬ GetSock (refreshed st) L.substreamid ≥ 0 →
      L.substreamid = 0 → (leave c.TXSOCK_ERR (refreshed st) L).sat Q P)
    (hgone : L.substreamid ≠ -1 → ¬ GetSock (refreshed st) L.substreamid ≥ 0 →
      L.substreamid ≠ 0 →
      (leave c.TXSOCK_ERR_TIMEOUT
        (RemoveParallelSock L.substreamid
          (clearGlobal (GetSock (refreshed st) L.substreamid) (refreshed st))).2 L).sat Q P) :
    (body c w length starttime st L).sat Q P := by
  unfold body
  simp only
  split_ifs with h1 h2 h3
  · exact hany h1
  · exact hone h1 h2
  · exact hmain h1 h2 h3
  · exact hgone h1 h2 h3

/-! ### C1: a successful RecvRaw returns exactly length -/

/-- What a pass through the loop body can hand back, given reads that deliver
no more than asked: one of the three codes, or `length` itself. -/
theorem body_ret (c : Consts) (w : Env) (length starttime : Int)
    (hrecv : ∀ k fd len, (w.recv k fd len).n ≤ len) (st : PSock) (L : Locals)
    (hP : L.bytesread ≤ length) :
    (body c w length starttime st L).sat
      (fun out => out.ret = c.TXSOCK_ERR ∨ out.ret = c.TXSOCK_ERR_TIMEOUT ∨
        out.ret = c.TXSOCK_ERR_INTERRUPT ∨ out.ret = length)
      (fun _ L1 => L1.bytesread ≤ length) := by
  have hw : ∀ (st : PSock) (loc : fdinfo),
      (waitStep c w length starttime st L loc).sat
        (fun out => out.ret = c.TXSOCK_ERR ∨ out.ret = c.TXSOCK_ERR_TIMEOUT ∨
          out.ret = c.TXSOCK_ERR_INTERRUPT ∨ out.ret = length)
        (fun _ L1 => L1.bytesread ≤ length) := by
    intro st loc
    apply waitStep_sat
    · intro _; exact Or.inr (Or.inl rfl)
    · intro _ _ _; exact Or.inl rfl
    · intro _ _ _; exact hP
    · intro _ _
      apply afterWait_sat
      · intro _; exact Or.inl rfl
      · intro _ _; exact Or.inr (Or.inr (Or.inl rfl))
      · intro _ _ _
        apply whileTest_sat
        · intro _; exact hP
        · intro h
          have hb : L.bytesread = length := le_antisymm hP (not_lt.mp h)
          exact Or.inr (Or.inr (Or.inr hb))
      · intro ii _ _ _
        apply readStep_sat
        · intro _ _ _; exact Or.inl rfl
        · intro _ _ _ _; exact Or.inr (Or.inl rfl)
        · intro _
          have hn := hrecv (noteWait L loc).nrecv ii (length - (noteWait L loc).bytesread)
          have hle : (pin (raise (w.interrupt L.nsel) st)
              (noteRead (noteWait L loc) ii (length - (noteWait L loc).bytesread)
                (w.recv (noteWait L loc).nrecv ii (length - (noteWait L loc).bytesread)))
              ii (w.recv (noteWait L loc).nrecv ii
                (length - (noteWait L loc).bytesread))).bytesread ≤ length := by
            simp only [pin, noteRead, noteWait] at hn ⊢
            split_ifs <;> omega
          apply whileTest_sat
          · intro _; exact hle
          · intro h
            exact Or.inr (Or.inr (Or.inr (le_antisymm hle (not_lt.mp h))))
  apply body_sat
  · intro _; exact hw _ _
  · intro _ _; exact hw _ _
  · intro _ _ _; exact Or.inl rfl
  · intro _ _ _; exact Or.inr (Or.inl rfl)

/-- C1: when the three return codes are negative and every read delivers at
most the number of bytes asked for, a call of `RecvRaw` for `length >= 0`
bytes that returns a non-negative value returns exactly `length`, whatever the
pool, the requested substream and the behaviour of wait, read and clock. -/
theorem C1_recv_returns_length (c : Consts) (w : Env) (length substreamid : Int)
    (fuel : Nat) (st : PSock) (out : RecvOut)
    (hlen : 0 ≤ length)
    (hE : c.TXSOCK_ERR < 0) (hT : c.TXSOCK_ERR_TIMEOUT < 0)
    (hI : c.TXSOCK_ERR_INTERRUPT < 0)
    (hrecv : ∀ k fd len, (w.recv k fd len).n ≤ len)
    (hcall : RecvRaw c w length substreamid fuel st = some out)
    (hok : 0 ≤ out.ret) :
    out.ret = length := by
  unfold RecvRaw at hcall
  simp only at hcall
  split_ifs at hcall with h1 h2 h3
  · simp only [Option.some.injEq] at hcall
    subst hcall
    simp only at hok
    omega
  · simp only [Option.some.injEq] at hcall
    subst hcall
    simp only at hok
    omega
  · have h := loop_sat c w length (w.time 0) (fun _ L1 => L1.bytesread ≤ length)
      (fun out => out.ret = c.TXSOCK_ERR ∨ out.ret = c.TXSOCK_ERR_TIMEOUT ∨
        out.ret = c.TXSOCK_ERR_INTERRUPT ∨ out.ret = length)
      (fun st L hP => body_ret c w length (w.time 0) hrecv st L hP)
      fuel st _ (le_of_lt h3) out hcall
    rcases h with h | h | h | h
    · omega
    · omega
    · omega
    · exact h
  · simp only [Option.some.injEq] at hcall
    subst hcall
    simp only
    omega

/-- Every read of `envTwoReads` delivers at most what is asked for. -/
theorem envTwoReads_recv_le (k : Nat) (fd len : Int) :
    (envTwoReads.recv k fd len).n ≤ len := by
  simp only [envTwoReads]
  split_ifs
  · exact min_le_right _ _
  · exact le_refl _

/-- C1 at a concrete call: 10 bytes are asked from any substream of the pool
with substreams 1 and 2; they arrive in two reads on descriptor 5 and the
call returns 10. -/
theorem C1_recv_returns_length_witness :
    RecvRaw sampleConsts envTwoReads 10 (-1) 5 poolTwo = some outTwoReads ∧
      outTwoReads.ret = 10 :=
  ⟨by decide,
    C1_recv_returns_length sampleConsts envTwoReads 10 (-1) 5 poolTwo outTwoReads
      (by decide) (by decide) (by decide) (by decide) envTwoReads_recv_le (by decide)
      (by decide)⟩

/-! ### C2: stickiness -/

theorem NoFailedRead_nil : NoFailedRead [] := by
  intro fd len n h
  simp at h

theorem NoFailedRead_wait {t : List Ev} (h : NoFailedRead t) (fds : List Int) (nfds : Int) :
    NoFailedRead (t ++ [Ev.wait fds nfds]) := by
  intro fd len n hm
  rcases List.mem_append.mp hm with hm | hm
  · exact h fd len n hm
  · simp at hm

theorem NoFailedRead_read {t : List Ev} (h : NoFailedRead t) (ii len n : Int) (e : Bool)
    (hne : ¬ (n ≤ 0 ∧ e = false)) :
    NoFailedRead (t ++ [Ev.read ii len n e]) := by
  intro fd len1 n1 hm
  rcases List.mem_append.mp hm with hm | hm
  · exact h fd len1 n1 hm
  · simp only [List.mem_singleton, Ev.read.injEq] at hm
    obtain ⟨_, _, h3, h4⟩ := hm
    subst h3
    by_contra hcon
    exact hne ⟨not_lt.mp hcon, h4.symm⟩

/-- While no read has failed there is nothing to say about the outcome. -/
theorem FailedReadOutcome_of_noFailedRead (c : Consts) (st : PSock) (out : RecvOut)
    (h : NoFailedRead out.trace) : FailedReadOutcome c st out := by
  intro fd len n hm hn
  have := h fd len n hm
  omega

/-- A pass through the loop body either meets no failed read, or returns in
the way `FailedReadOutcome` describes. -/
theorem body_failedRead (c : Consts) (w : Env) (length starttime : Int) (st0 st : PSock)
    (L : Locals) (hreg : SameRegistry st0 st) (hL : NoFailedRead L.trace) :
    (body c w length starttime st L).sat (FailedReadOutcome c st0)
      (fun st1 L1 => SameRegistry st0 st1 ∧ NoFailedRead L1.trace) := by
  have hreg1 : SameRegistry st0 (refreshed st) := hreg.trans (refreshed_sameRegistry st)
  have hw : ∀ loc : fdinfo,
      (waitStep c w length starttime (refreshed st) L loc).sat (FailedReadOutcome c st0)
        (fun st1 L1 => SameRegistry st0 st1 ∧ NoFailedRead L1.trace) := by
    intro loc
    have hW : NoFailedRead (noteWait L loc).trace := NoFailedRead_wait hL _ _
    have hreg2 : SameRegistry st0 (raise (w.interrupt L.nsel) (refreshed st)) :=
      hreg1.trans (raise_sameRegistry _ _)
    apply waitStep_sat
    · intro _; exact FailedReadOutcome_of_noFailedRead c st0 _ hL
    · intro _ _ _; exact FailedReadOutcome_of_noFailedRead c st0 _ hW
    · intro _ _ _; exact ⟨hreg2, hW⟩
    · intro _ _
      apply afterWait_sat
      · intro _; exact FailedReadOutcome_of_noFailedRead c st0 _ hW
      · intro _ _; exact FailedReadOutcome_of_noFailedRead c st0 _ hW
      · intro _ _ _
        apply whileTest_sat
        · intro _; exact ⟨hreg2, hW⟩
        · intro _; exact FailedReadOutcome_of_noFailedRead c st0 _ hW
      · intro ii _ _ _
        have hfail : ∀ fd len n,
            Ev.read fd len n false ∈ (noteRead (noteWait L loc) ii
              (length - (noteWait L loc).bytesread)
              (w.recv (noteWait L loc).nrecv ii (length - (noteWait L loc).bytesread))).trace →
            n ≤ 0 → fd = ii := by
          intro fd len n hm hn
          rcases List.mem_append.mp hm with hm | hm
          · have := hW fd len n hm
            omega
          · simp only [List.mem_singleton, Ev.read.injEq] at hm
            exact hm.1
        apply readStep_sat
        · intro _ _ hid fd len n hm hn
          have hfd := hfail fd len n hm hn
          subst hfd
          rw [hreg2.getSockId] at hid
          refine ⟨_, hreg2, fun _ => ⟨rfl, rfl⟩, fun h0 h1 => ?_⟩
          rcases hid with hid | hid
          · exact absurd hid h0
          · exact absurd hid h1
        · intro _ _ h0 h1 fd len n hm hn
          have hfd := hfail fd len n hm hn
          subst hfd
          rw [hreg2.getSockId] at h0 h1
          refine ⟨_, hreg2, fun hid => ?_, fun _ _ => ⟨rfl, ?_⟩⟩
          · rcases hid with hid | hid
            · exact absurd hid h0
            · exact absurd hid h1
          · show (RemoveParallelSock _ _).2 = _
            rw [hreg2.getSockId]
        · intro hne
          have hR := NoFailedRead_read hW ii (length - (noteWait L loc).bytesread) _ _ hne
          apply whileTest_sat
          · intro _; exact ⟨hreg2, hR⟩
          · intro _; exact FailedReadOutcome_of_noFailedRead c st0 _ hR
  apply body_sat
  · intro _; exact hw _
  · intro _ _; exact hw _
  · intro _ _ _; exact FailedReadOutcome_of_noFailedRead c st0 _ hL
  · intro _ _ _; exact FailedReadOutcome_of_noFailedRead c st0 _ hL

/-- Whatever `RecvRaw` returns after a failed read is as `FailedReadOutcome`
describes. -/
theorem RecvRaw_failedRead (c : Consts) (w : Env) (length substreamid : Int) (fuel : Nat)
    (st : PSock) (out : RecvOut)
    (hcall : RecvRaw c w length substreamid fuel st = some out) :
    FailedReadOutcome c st out := by
  unfold RecvRaw at hcall
  simp only at hcall
  split_ifs at hcall with h1 h2 h3
  · simp only [Option.some.injEq] at hcall
    subst hcall
    exact FailedReadOutcome_of_noFailedRead c st _ NoFailedRead_nil
  · simp only [Option.some.injEq] at hcall
    subst hcall
    exact FailedReadOutcome_of_noFailedRead c st _ NoFailedRead_nil
  · exact loop_sat c w length (w.time 0)
      (fun st1 L1 => SameRegistry st st1 ∧ NoFailedRead L1.trace)
      (FailedReadOutcome c st)
      (fun st1 L1 hP => body_failedRead c w length (w.time 0) st st1 L1 hP.1 hP.2)
      fuel st _ ⟨SameRegistry.refl st, NoFailedRead_nil⟩ out hcall
  · simp only [Option.some.injEq] at hcall
    subst hcall
    exact FailedReadOutcome_of_noFailedRead c st _ NoFailedRead_nil

/-- What a `RecvRaw` call has returned and left behind when one of its reads
failed (`n <= 0`, `errno` not `EINTR`) on the handle `fd` of a substream `S`
other than the primary: the return value is `TXSOCK_ERR_TIMEOUT`, `S` has no
entry in the id table and `fd` none in the descriptor table, `fd` is not in
the global descriptor set, and the ordered list has lost its first occurrence
of `S`. -/
theorem RecvRaw_dropped_parallel (c : Consts) (w : Env) (length substreamid : Int) (fuel : Nat)
    (st : PSock) (out : RecvOut) (S fd len n : Int)
    (hcall : RecvRaw c w length substreamid fuel st = some out)
    (hev : Ev.read fd len n false ∈ out.trace) (hn : n ≤ 0)
    (hS : HandleOf st S fd) (hS0 : S ≠ 0) :
    out.ret = c.TXSOCK_ERR_TIMEOUT ∧
      (c.TXSOCK_ERR ≠ c.TXSOCK_ERR_TIMEOUT → out.ret ≠ c.TXSOCK_ERR) ∧
      Find out.st.fSocketPool S = none ∧ Find out.st.fSocketIdPool fd = none ∧
      fd ∉ out.st.globalfdinfo.fdset ∧
      out.st.fSocketIdRepo = st.fSocketIdRepo.erase S ∧
      (st.fSocketIdRepo.count S ≤ 1 → S ∉ out.st.fSocketIdRepo) := by
  obtain ⟨hsock, hid, hany⟩ := hS
  obtain ⟨st1, hreg, _, hdrop⟩ := RecvRaw_failedRead c w length substreamid fuel st out hcall
    fd len n hev hn
  rw [hid] at hdrop
  obtain ⟨hret, hst⟩ := hdrop hS0 hany
  have hs : GetSock (clearGlobal fd st1) S = fd := by
    rw [(hreg.trans (clearGlobal_sameRegistry fd st1)).getSock, hsock]
  have hrepo : out.st.fSocketIdRepo = st.fSocketIdRepo.erase S := by
    rw [hst]
    simp only [RemoveParallelSock, clearGlobal]
    rw [hreg.2.2.1]
  refine ⟨hret, ?_, ?_, ?_, ?_, hrepo, ?_⟩
  · intro hd h
    exact hd (h.symm.trans hret)
  · rw [hst]
    simp only [RemoveParallelSock, clearGlobal]
    exact Find_Del_self _ _
  · rw [hst]
    simp only [RemoveParallelSock]
    rw [hs]
    exact Find_Del_self _ _
  · rw [hst]
    simp [RemoveParallelSock, clearGlobal, FD_CLR]
  · intro hc
    rw [hrepo]
    apply List.count_eq_zero.mp
    rw [List.count_erase_self]
    omega

/-! ### A failed read on the primary connection -/

/-- What a `RecvRaw` call has returned and left behind when one of its reads
failed (`n <= 0`, `errno` not `EINTR`) on a descriptor that the registry maps
to the primary id `0`: the return value is `TXSOCK_ERR`, and the two tables,
the ordered list and the open descriptors are those found at the call. -/
theorem RecvRaw_primary_lost (c : Consts) (w : Env) (length substreamid : Int) (fuel : Nat)
    (st : PSock) (out : RecvOut) (fd len n : Int)
    (hcall : RecvRaw c w length substreamid fuel st = some out)
    (hev : Ev.read fd len n false ∈ out.trace) (hn : n ≤ 0)
    (hmain : GetSockId st fd = 0) :
    out.ret = c.TXSOCK_ERR ∧
      (c.TXSOCK_ERR ≠ c.TXSOCK_ERR_TIMEOUT → out.ret ≠ c.TXSOCK_ERR_TIMEOUT) ∧
      SameRegistry st out.st := by
  obtain ⟨st1, hreg, hfatal, _⟩ := RecvRaw_failedRead c w length substreamid fuel st out hcall
    fd len n hev hn
  obtain ⟨hret, hst⟩ := hfatal (Or.inl hmain)
  refine ⟨hret, ?_, ?_⟩
  · intro hd h
    exact hd (hret.symm.trans h)
  · rw [hst]
    exact hreg

/-! ### Consistency of the registry -/

/-- The keys left by `Del`. -/
theorem keys_Del (m : List (Int × Int)) (k : Int) :
    (Del m k).map Prod.fst = (m.map Prod.fst).filter (fun x => decide (x ≠ k)) := by
  induction m with
  | nil => rfl
  | cons e m ih =>
    obtain ⟨a, b⟩ := e
    unfold Del at ih ⊢
    simp only [ne_eq, decide_not] at ih ⊢
    by_cases h : a = k
    · simp [h, ih]
    · simp [h, ih]

theorem keys_Del_nodup {m : List (Int × Int)} (k : Int) (h : (m.map Prod.fst).Nodup) :
    ((Del m k).map Prod.fst).Nodup := by
  rw [keys_Del]
  exact h.filter _

theorem keys_Rep_nodup {m : List (Int × Int)} (k v : Int) (h : (m.map Prod.fst).Nodup) :
    ((Rep m k v).map Prod.fst).Nodup := by
  unfold Rep
  rw [List.map_cons, List.nodup_cons]
  refine ⟨?_, keys_Del_nodup k h⟩
  rw [keys_Del]
  simp

/-- `Del` of an absent key changes nothing. -/
theorem Del_of_Find_none {m : List (Int × Int)} {k : Int} (h : Find m k = none) :
    Del m k = m := by
  induction m with
  | nil => rfl
  | cons e m ih =>
    obtain ⟨a, b⟩ := e
    by_cases h1 : a = k
    · simp [Find, h1] at h
    · simp only [Find, if_neg h1] at h
      have := ih h
      unfold Del at this ⊢
      rw [List.filter_cons_of_pos (by simpa using h1), this]

/-- In a table with one entry per key, `Find` returns the entry of the key. -/
theorem mem_Find_of_nodup {m : List (Int × Int)} {k v : Int}
    (hk : (m.map Prod.fst).Nodup) (h : (k, v) ∈ m) : Find m k = some v := by
  induction m with
  | nil => simp at h
  | cons e m ih =>
    obtain ⟨a, b⟩ := e
    rw [List.map_cons, List.nodup_cons] at hk
    rcases List.mem_cons.mp h with h1 | h1
    · cases h1
      simp [Find]
    · have hne : a ≠ k := by
        intro ha
        apply hk.1
        rw [ha]
        exact List.mem_map.mpr ⟨(k, v), h1, rfl⟩
      simp only [Find, if_neg hne]
      exact ih hk.2 h1

theorem RegOK_nil (o : List Int) : RegOK [] [] o :=
  { back := fun _ _ h => by simp [Find] at h
    isOpen := fun _ _ h => by simp [Find] at h
    nonneg := fun _ _ h => by simp [Find] at h
    keys := List.nodup_nil }

/-- Registering a descriptor that was not open, under any id. -/
theorem RegOK_register {p q : List (Int × Int)} {o : List Int} (h : RegOK p q o)
    (k : Int) {s : Int} (hs : s ∉ o) (hs0 : 0 ≤ s) :
    RegOK (Rep p k s) (Rep q s k) (s :: o) where
  back := by
    intro id x hx
    by_cases hid : id = k
    · subst hid
      rw [Find_Rep_self] at hx
      cases hx
      exact Find_Rep_self _ _ _
    · rw [Find_Rep_ne _ _ hid] at hx
      have hq := h.back id x hx
      have hne : x ≠ s := fun hxs => hs (hxs ▸ h.isOpen x id hq)
      rw [Find_Rep_ne _ _ hne]
      exact hq
  isOpen := by
    intro x id hx
    by_cases hxs : x = s
    · subst hxs
      exact List.mem_cons_self _ _
    · rw [Find_Rep_ne _ _ hxs] at hx
      exact List.mem_cons_of_mem _ (h.isOpen x id hx)
  nonneg := by
    intro id x hx
    by_cases hid : id = k
    · subst hid
      rw [Find_Rep_self] at hx
      cases hx
      exact hs0
    · rw [Find_Rep_ne _ _ hid] at hx
      exact h.nonneg id x hx
  keys := keys_Rep_nodup _ _ h.keys

/-- Moving the descriptor registered under `t` to the id `id`. -/
theorem RegOK_establish {p q : List (Int × Int)} {o : List Int} (h : RegOK p q o)
    {t s : Int} (id : Int) (ht : Find p t = some s) :
    RegOK (Rep (Del p t) id s) (Rep (Del q s) s id) o where
  back := by
    intro k x hx
    by_cases hk : k = id
    · subst hk
      rw [Find_Rep_self] at hx
      cases hx
      exact Find_Rep_self _ _ _
    · rw [Find_Rep_ne _ _ hk] at hx
      have hkt : k ≠ t := by
        intro hkt
        rw [hkt, Find_Del_self] at hx
        cases hx
      rw [Find_Del_ne _ hkt] at hx
      have hq := h.back k x hx
      have hne : x ≠ s := by
        intro hxs
        rw [hxs, h.back t s ht] at hq
        cases hq
        exact hkt rfl
      rw [Find_Rep_ne _ _ hne, Find_Del_ne _ hne]
      exact hq
  isOpen := by
    intro x k hx
    by_cases hxs : x = s
    · subst hxs
      exact h.isOpen x t (h.back t x ht)
    · rw [Find_Rep_ne _ _ hxs, Find_Del_ne _ hxs] at hx
      exact h.isOpen x k hx
  nonneg := by
    intro k x hx
    by_cases hk : k = id
    · subst hk
      rw [Find_Rep_self] at hx
      cases hx
      exact h.nonneg t s ht
    · rw [Find_Rep_ne _ _ hk] at hx
      by_cases hkt : k = t
      · rw [hkt, Find_Del_self] at hx
        cases hx
      · rw [Find_Del_ne _ hkt] at hx
        exact h.nonneg k x hx
  keys := keys_Rep_nodup _ _ (keys_Del_nodup _ h.keys)

/-- Removing an id that has an entry, and closing its descriptor. -/
theorem RegOK_remove_some {p q : List (Int × Int)} {o : List Int} (h : RegOK p q o)
    {id s : Int} (hid : Find p id = some s) :
    RegOK (Del p id) (Del q s) (o.filter (fun x => decide (x ≠ s))) where
  back := by
    intro k x hx
    have hk : k ≠ id := by
      intro hk
      rw [hk, Find_Del_self] at hx
      cases hx
    rw [Find_Del_ne _ hk] at hx
    have hq := h.back k x hx
    have hne : x ≠ s := by
      intro hxs
      rw [hxs, h.back id s hid] at hq
      cases hq
      exact hk rfl
    rw [Find_Del_ne _ hne]
    exact hq
  isOpen := by
    intro x k hx
    have hne : x ≠ s := by
      intro hxs
      rw [hxs, Find_Del_self] at hx
      cases hx
    rw [Find_Del_ne _ hne] at hx
    exact List.mem_filter.mpr ⟨h.isOpen x k hx, by simpa using hne⟩
  nonneg := by
    intro k x hx
    have hk : k ≠ id := by
      intro hk
      rw [hk, Find_Del_self] at hx
      cases hx
    rw [Find_Del_ne _ hk] at hx
    exact h.nonneg k x hx
  keys := keys_Del_nodup _ h.keys

/-- Removing an id that has no entry. -/
theorem RegOK_remove_none {p q : List (Int × Int)} {o : List Int} (h : RegOK p q o)
    {id : Int} (hid : Find p id = none) :
    RegOK (Del p id) (Del q (-1)) o where
  back := by
    intro k x hx
    rw [Del_of_Find_none hid] at hx
    have hq := h.back k x hx
    have h0 := h.nonneg k x hx
    have hne : x ≠ -1 := by omega
    rw [Find_Del_ne _ hne]
    exact hq
  isOpen := by
    intro x k hx
    have hne : x ≠ -1 := by
      intro hxs
      rw [hxs, Find_Del_self] at hx
      cases hx
    rw [Find_Del_ne _ hne] at hx
    exact h.isOpen x k hx
  nonneg := by
    intro k x hx
    rw [Del_of_Find_none hid] at hx
    exact h.nonneg k x hx
  keys := keys_Del_nodup _ h.keys

theorem RegInv_of_sameRegistry {st st1 : PSock} (hreg : SameRegistry st st1)
    (h : RegInv st) : RegInv st1 := by
  unfold RegInv
  rw [hreg.1, hreg.2.1, hreg.2.2.2]
  exact h

theorem RegInv_construct (g : fdinfo) (w : Sys) : RegInv (construct g w) :=
  RegOK_nil _

theorem RegInv_TryConnect {st : PSock} (h : RegInv st) {s : Int}
    (hs : s < 0 ∨ s ∉ st.sys.openFds) : RegInv (TryConnect s st) := by
  unfold TryConnect TryConnect_low
  by_cases hc : st.fConnected = true
  · simpa [hc] using h
  · by_cases h0 : s ≥ 0
    · have hs1 : s ∉ st.sys.openFds := by
        rcases hs with hs | hs
        · omega
        · exact hs
      simpa [hc, h0, RegInv, sysOpen] using RegOK_register h 0 hs1 h0
    · simpa [hc, h0] using h

theorem RegInv_TryConnectParallelSock (c : Consts) {st : PSock} (h : RegInv st) {s : Int}
    (hs : s < 0 ∨ s ∉ st.sys.openFds) : RegInv (TryConnectParallelSock c s st).2 := by
  unfold TryConnectParallelSock TryConnect_low
  by_cases h0 : s ≥ 0
  · have hs1 : s ∉ st.sys.openFds := by
      rcases hs with hs | hs
      · omega
      · exact hs
    simpa [h0, RegInv, sysOpen] using RegOK_register h c.XRDCLI_PSOCKTEMP hs1 h0
  · simpa [h0] using h

theorem RegInv_EstablishParallelSock (c : Consts) (id : Int) {st : PSock} (h : RegInv st) :
    RegInv (EstablishParallelSock c id st).2 := by
  unfold EstablishParallelSock
  by_cases h0 : GetSock st c.XRDCLI_PSOCKTEMP ≥ 0
  · cases hf : Find st.fSocketPool c.XRDCLI_PSOCKTEMP with
    | none => simp [GetSock, hf] at h0
    | some s =>
      have hg : GetSock st c.XRDCLI_PSOCKTEMP = s := by simp [GetSock, hf]
      simp only [hg] at h0 ⊢
      simpa [h0, RegInv] using RegOK_establish h id hf
  · simpa [h0] using h

theorem RegInv_RemoveParallelSock (id : Int) {st : PSock} (h : RegInv st) :
    RegInv (RemoveParallelSock id st).2 := by
  unfold RemoveParallelSock
  cases hf : Find st.fSocketPool id with
  | none =>
    have hg : GetSock st id = -1 := by simp [GetSock, hf]
    simp only [hg]
    simpa [RegInv] using RegOK_remove_none h hf
  | some s =>
    have hg : GetSock st id = s := by simp [GetSock, hf]
    have h0 : s ≥ 0 := h.nonneg id s hf
    simp only [hg]
    simpa [RegInv, h0, sysClose] using RegOK_remove_some h hf

theorem RegInv_Disconnect (st : PSock) : RegInv (Disconnect st) := by
  unfold Disconnect RegInv
  simp only [Apply_CloseSockFunc_fst]
  exact RegOK_nil _

/-- A pass through the loop body leaves the registry alone, unless it returns
after one call of `RemoveParallelSock`. -/
theorem body_registry (c : Consts) (w : Env) (length starttime : Int) (st0 st : PSock)
    (L : Locals) (hreg : SameRegistry st0 st) :
    (body c w length starttime st L).sat (RegistryEffect st0)
      (fun st1 _ => SameRegistry st0 st1) := by
  have hreg1 : SameRegistry st0 (refreshed st) := hreg.trans (refreshed_sameRegistry st)
  have hw : ∀ loc : fdinfo,
      (waitStep c w length starttime (refreshed st) L loc).sat (RegistryEffect st0)
        (fun st1 _ => SameRegistry st0 st1) := by
    intro loc
    have hreg2 : SameRegistry st0 (raise (w.interrupt L.nsel) (refreshed st)) :=
      hreg1.trans (raise_sameRegistry _ _)
    apply waitStep_sat
    · intro _; exact Or.inl hreg1
    · intro _ _ _; exact Or.inl (hreg1.trans (ReinitFDTable_sameRegistry _))
    · intro _ _ _; exact hreg2
    · intro _ _
      apply afterWait_sat
      · intro _; exact Or.inl hreg2
      · intro _ _; exact Or.inl (hreg2.trans ⟨rfl, rfl, rfl, rfl⟩)
      · intro _ _ _
        apply whileTest_sat
        · intro _; exact hreg2
        · intro _; exact Or.inl hreg2
      · intro ii _ _ _
        apply readStep_sat
        · intro _ _ _; exact Or.inl hreg2
        · intro _ _ _ _
          exact Or.inr ⟨_, _, hreg2.trans (clearGlobal_sameRegistry _ _), rfl⟩
        · intro _
          apply whileTest_sat
          · intro _; exact hreg2
          · intro _; exact Or.inl hreg2
  apply body_sat
  · intro _; exact hw _
  · intro _ _; exact hw _
  · intro _ _ _; exact Or.inl hreg1
  · intro _ _ _
    exact Or.inr ⟨_, _, hreg1.trans (clearGlobal_sameRegistry _ _), rfl⟩

/-- A call of `RecvRaw` leaves the registry alone, or makes one call of
`RemoveParallelSock`. -/
theorem RecvRaw_registry (c : Consts) (w : Env) (length substreamid : Int) (fuel : Nat)
    (st : PSock) (out : RecvOut)
    (hcall : RecvRaw c w length substreamid fuel st = some out) :
    RegistryEffect st out := by
  unfold RecvRaw at hcall
  simp only at hcall
  split_ifs at hcall with h1 h2 h3
  · simp only [Option.some.injEq] at hcall
    subst hcall
    exact Or.inl (SameRegistry.refl st)
  · simp only [Option.some.injEq] at hcall
    subst hcall
    exact Or.inl (SameRegistry.refl st)
  · exact loop_sat c w length (w.time 0) (fun st1 _ => SameRegistry st st1)
      (RegistryEffect st)
      (fun st1 L1 hP => body_registry c w length (w.time 0) st st1 L1 hP)
      fuel st _ (SameRegistry.refl st) out hcall
  · simp only [Option.some.injEq] at hcall
    subst hcall
    exact Or.inl (SameRegistry.refl st)

theorem GetSockIdHint_sameRegistry {r : Int} {st : PSock} {res : Int × PSock}
    (h : GetSockIdHint r st = some res) : SameRegistry st res.2 := by
  rw [GetSockIdHint_state h]
  exact ⟨rfl, rfl, rfl, rfl⟩

theorem PauseSelectOnSubstream_sameRegistry (id : Int) (st : PSock) :
    SameRegistry st (PauseSelectOnSubstream id st) := by
  unfold PauseSelectOnSubstream
  simp only
  split_ifs
  · exact ⟨rfl, rfl, rfl, rfl⟩
  · exact SameRegistry.refl st

theorem RestartSelectOnSubstream_sameRegistry (id : Int) (st : PSock) :
    SameRegistry st (RestartSelectOnSubstream id st) := by
  unfold RestartSelectOnSubstream
  simp only
  split_ifs
  · exact ⟨rfl, rfl, rfl, rfl⟩
  · exact SameRegistry.refl st

/-- Every admissible operation keeps the registry consistent. -/
theorem RegInv_run (c : Consts) (op : Op) {st st1 : PSock} (h : RegInv st)
    (hadm : op.admissible st) (hrun : op.run c st = some st1) : RegInv st1 := by
  cases op with
  | connectPrimary s =>
    simp only [Op.run, Option.some.injEq] at hrun
    subst hrun
    exact RegInv_TryConnect h hadm
  | connectParallel s =>
    simp only [Op.run, Option.some.injEq] at hrun
    subst hrun
    exact RegInv_TryConnectParallelSock c h hadm
  | establish id =>
    simp only [Op.run, Option.some.injEq] at hrun
    subst hrun
    exact RegInv_EstablishParallelSock c id h
  | remove id =>
    simp only [Op.run, Option.some.injEq] at hrun
    subst hrun
    exact RegInv_RemoveParallelSock id h
  | disconnect =>
    simp only [Op.run, Option.some.injEq] at hrun
    subst hrun
    exact RegInv_Disconnect st
  | hint r =>
    simp only [Op.run, Option.map_eq_some'] at hrun
    obtain ⟨res, hcall, hst⟩ := hrun
    subst hst
    exact RegInv_of_sameRegistry (GetSockIdHint_sameRegistry hcall) h
  | pause id =>
    simp only [Op.run, Option.some.injEq] at hrun
    subst hrun
    exact RegInv_of_sameRegistry (PauseSelectOnSubstream_sameRegistry id st) h
  | restart id =>
    simp only [Op.run, Option.some.injEq] at hrun
    subst hrun
    exact RegInv_of_sameRegistry (RestartSelectOnSubstream_sameRegistry id st) h
  | recv w length substreamid fuel =>
    simp only [Op.run, Option.map_eq_some'] at hrun
    obtain ⟨out, hcall, hst⟩ := hrun
    subst hst
    rcases RecvRaw_registry c w length substreamid fuel st out hcall with hreg | ⟨id, st2, hreg, hst⟩
    · exact RegInv_of_sameRegistry hreg h
    · rw [hst]
      exact RegInv_RemoveParallelSock id (RegInv_of_sameRegistry hreg h)

/-- The registry of every reachable pool is consistent. -/
theorem RegInv_of_reachable (c : Consts) {st : PSock} (h : Reachable c st) : RegInv st := by
  induction h with
  | fresh g w => exact RegInv_construct g w
  | step op _ hadm hrun ih => exact RegInv_run c op ih hadm hrun

/-! ### The concrete pools are reachable -/

theorem reachable_connected : Reachable sampleConsts (TryConnect 3 freshPool) :=
  Reachable.step (Op.connectPrimary 3) (Reachable.fresh _ _)
    (show (3 : Int) < 0 ∨ (3 : Int) ∉ freshPool.sys.openFds from Or.inr (by decide)) rfl

theorem reachable_poolOne :
    Reachable sampleConsts
      (EstablishParallelSock sampleConsts 1
        (TryConnectParallelSock sampleConsts 4 (TryConnect 3 freshPool)).2).2 :=
  Reachable.step (Op.establish 1)
    (Reachable.step (Op.connectParallel 4) reachable_connected
      (show (4 : Int) < 0 ∨ (4 : Int) ∉ (TryConnect 3 freshPool).sys.openFds from
        Or.inr (by decide)) rfl)
    trivial rfl

theorem reachable_poolTwo : Reachable sampleConsts poolTwo :=
  Reachable.step (Op.establish 2)
    (Reachable.step (Op.connectParallel 5) reachable_poolOne
      (show (5 : Int) < 0 ∨ (5 : Int) ∉ (EstablishParallelSock sampleConsts 1
        (TryConnectParallelSock sampleConsts 4 (TryConnect 3 freshPool)).2).2.sys.openFds from
        Or.inr (by decide)) rfl)
    trivial rfl

theorem reachable_poolDup : Reachable sampleConsts poolDup :=
  Reachable.step (Op.establish 1)
    (Reachable.step (Op.connectParallel 5) reachable_poolOne
      (show (5 : Int) < 0 ∨ (5 : Int) ∉ (EstablishParallelSock sampleConsts 1
        (TryConnectParallelSock sampleConsts 4 (TryConnect 3 freshPool)).2).2.sys.openFds from
        Or.inr (by decide)) rfl)
    trivial rfl

theorem reachable_poolStagedTwice : Reachable sampleConsts poolStagedTwice :=
  Reachable.step (Op.connectParallel 5)
    (Reachable.step (Op.connectParallel 4) (Reachable.fresh _ _)
      (show (4 : Int) < 0 ∨ (4 : Int) ∉ freshPool.sys.openFds from Or.inr (by decide)) rfl)
    (show (5 : Int) < 0 ∨
        (5 : Int) ∉ (TryConnectParallelSock sampleConsts 4 freshPool).2.sys.openFds from
      Or.inr (by decide)) rfl

/-! ### C6: the two tables -/

/-- C6 fails as stated: after two parallel connects in a row (descriptors 4
and 5, each not open when it was handed out) the pool is reachable and
descriptor 4 still maps to the staged id, while the staged id maps to
descriptor 5: the entry of descriptor 4 dangles. -/
theorem C6_registry_counterexample :
    Reachable sampleConsts poolStagedTwice ∧
      Find poolStagedTwice.fSocketIdPool 4 = some sampleConsts.XRDCLI_PSOCKTEMP ∧
      Find poolStagedTwice.fSocketPool sampleConsts.XRDCLI_PSOCKTEMP = some 5 ∧
      ¬ (Find poolStagedTwice.fSocketPool sampleConsts.XRDCLI_PSOCKTEMP = some 4 ↔
          Find poolStagedTwice.fSocketIdPool 4 = some sampleConsts.XRDCLI_PSOCKTEMP) :=
  ⟨reachable_poolStagedTwice, by decide, by decide, by decide⟩

/-- C6 as amended: in every pool reachable by the public operations (the five
lifecycle operations among them), where each successful connect yields a
descriptor that is not open, whenever an id maps to a descriptor, that
descriptor maps back to the id. (The converse is what fails: a descriptor can
keep an entry for an id that maps elsewhere or nowhere.) -/
theorem C6_registry_back (c : Consts) (st : PSock) (h : Reachable c st) (id fd : Int)
    (hid : Find st.fSocketPool id = some fd) :
    Find st.fSocketIdPool fd = some id ∧ GetSock st id = fd ∧ GetSockId st fd = id := by
  have hq := (RegInv_of_reachable c h).back id fd hid
  exact ⟨hq, by simp [GetSock, hid], by simp [GetSockId, hq]⟩

/-- C6 as amended, on the pool with substreams 1 and 2: substream 2 maps to
descriptor 5 and descriptor 5 maps back to 2. -/
theorem C6_registry_back_witness :
    Find poolTwo.fSocketPool 2 = some 5 ∧ Find poolTwo.fSocketIdPool 5 = some 2 :=
  ⟨by decide, (C6_registry_back sampleConsts poolTwo reachable_poolTwo 2 5 (by decide)).1⟩

/-! ### C8: RemoveParallelSock -/

/-- C8 fails as stated: the pool in which the id 1 was established twice is
reachable, and after `RemoveParallelSock(1)` the ordered list still holds an
occurrence of 1. -/
theorem C8_remove_counterexample :
    Reachable sampleConsts poolDup ∧
      (1 : Int) ∈ (RemoveParallelSock 1 poolDup).2.fSocketIdRepo :=
  ⟨reachable_poolDup, by decide⟩

/-- C8 as amended: for every reachable pool and every id, after
`RemoveParallelSock(id)` the id has no entry, the descriptor it was registered
under has no entry either, and the ordered list has lost its first occurrence
of id, so that id is gone from it when it was listed at most once; the
entries of every other id (in both tables) and its occurrences in the list
are unchanged. -/
theorem C8_remove (c : Consts) (st : PSock) (h : Reachable c st) (id : Int) :
    Find (RemoveParallelSock id st).2.fSocketPool id = none ∧
      Find (RemoveParallelSock id st).2.fSocketIdPool (GetSock st id) = none ∧
      (RemoveParallelSock id st).2.fSocketIdRepo = st.fSocketIdRepo.erase id ∧
      (st.fSocketIdRepo.count id ≤ 1 → id ∉ (RemoveParallelSock id st).2.fSocketIdRepo) ∧
      ∀ k, k ≠ id →
        Find (RemoveParallelSock id st).2.fSocketPool k = Find st.fSocketPool k ∧
        (RemoveParallelSock id st).2.fSocketIdRepo.count k = st.fSocketIdRepo.count k ∧
        ∀ fd, Find st.fSocketPool k = some fd →
          Find (RemoveParallelSock id st).2.fSocketIdPool fd = some k := by
  have hinv := RegInv_of_reachable c h
  refine ⟨Find_Del_self _ _, Find_Del_self _ _, rfl, ?_, ?_⟩
  · intro hc
    show id ∉ st.fSocketIdRepo.erase id
    apply List.count_eq_zero.mp
    rw [List.count_erase_self]
    omega
  · intro k hk
    refine ⟨Find_Del_ne _ hk, ?_, ?_⟩
    · show (st.fSocketIdRepo.erase id).count k = _
      exact List.count_erase_of_ne hk _
    · intro fd hfd
      exact (RegInv_RemoveParallelSock id hinv).back k fd
        ((Find_Del_ne st.fSocketPool hk).trans hfd)

/-- C8 as amended, on the pool with substreams 1 and 2: after
`RemoveParallelSock(1)` the id 1 is in neither table nor in the list, and
substream 2 is as before. -/
theorem C8_remove_witness :
    Find (RemoveParallelSock 1 poolTwo).2.fSocketPool 1 = none ∧
      (1 : Int) ∉ (RemoveParallelSock 1 poolTwo).2.fSocketIdRepo ∧
      Find (RemoveParallelSock 1 poolTwo).2.fSocketPool 2 = Find poolTwo.fSocketPool 2 :=
  have h := C8_remove sampleConsts poolTwo reachable_poolTwo 1
  ⟨h.1, h.2.2.2.1 (by decide), (h.2.2.2.2 2 (by decide)).1⟩

/-! ### C10: Disconnect -/

/-- In a consistent registry no descriptor is registered twice. -/
theorem RegOK.values_nodup {p q : List (Int × Int)} {o : List Int} (h : RegOK p q o) :
    (p.map Prod.snd).Nodup := by
  apply List.Nodup.map_on _ (List.Nodup.of_map _ h.keys)
  intro x hx y hy hxy
  obtain ⟨k1, v1⟩ := x
  obtain ⟨k2, v2⟩ := y
  simp only at hxy
  subst hxy
  have h1 := h.back k1 v1 (mem_Find_of_nodup h.keys hx)
  have h2 := h.back k2 v1 (mem_Find_of_nodup h.keys hy)
  rw [h1] at h2
  cases h2
  rfl

/-- C10 as amended: for every reachable pool, after `Disconnect` the session
is not connected, both tables and the ordered list are empty, and the calls of
`::close` made by it are exactly one for each descriptor that some id mapped
to, and none for any other descriptor; a second `Disconnect` (the destructor
makes one) closes nothing more. -/
theorem C10_disconnect (c : Consts) (st : PSock) (h : Reachable c st) :
    (Disconnect st).fConnected = false ∧
      (Disconnect st).fSocketPool = [] ∧ (Disconnect st).fSocketIdPool = [] ∧
      (Disconnect st).fSocketIdRepo = [] ∧
      (Disconnect st).sys.closeLog = st.sys.closeLog ++ st.fSocketPool.map Prod.snd ∧
      (∀ fd, (∃ id, Find st.fSocketPool id = some fd) →
        (st.fSocketPool.map Prod.snd).count fd = 1) ∧
      (∀ fd, (¬ ∃ id, Find st.fSocketPool id = some fd) →
        (st.fSocketPool.map Prod.snd).count fd = 0) ∧
      (Disconnect (Disconnect st)).sys.closeLog = (Disconnect st).sys.closeLog := by
  have hinv := RegInv_of_reachable c h
  have hagain : (Disconnect (Disconnect st)).sys.closeLog = (Disconnect st).sys.closeLog := by
    have h1 : (Disconnect st).fSocketPool = [] := Apply_CloseSockFunc_fst _ _
    have h2 : (Disconnect (Disconnect st)).sys.closeLog =
        (Disconnect st).sys.closeLog ++ (Disconnect st).fSocketPool.map Prod.snd :=
      Apply_CloseSockFunc_closeLog _ _
    rw [h2, h1]
    simp
  refine ⟨rfl, Apply_CloseSockFunc_fst _ _, rfl, rfl, Apply_CloseSockFunc_closeLog _ _, ?_, ?_,
    hagain⟩
  · intro fd hfd
    obtain ⟨id, hid⟩ := hfd
    apply List.count_eq_one_of_mem hinv.values_nodup
    exact List.mem_map.mpr ⟨(id, fd), Find_some_mem hid, rfl⟩
  · intro fd hfd
    apply List.count_eq_zero.mpr
    intro hm
    obtain ⟨e, he, hefd⟩ := List.mem_map.mp hm
    obtain ⟨k, v⟩ := e
    simp only at hefd
    subst hefd
    exact hfd ⟨k, mem_Find_of_nodup hinv.keys he⟩

/-- C10 as amended, on the pool with substreams 1 and 2: `Disconnect` empties the
registry and closes the descriptors 5, 4 and 3, each once. -/
theorem C10_disconnect_witness :
    (Disconnect poolTwo).fSocketPool = [] ∧
      (Disconnect poolTwo).sys.closeLog = [5, 4, 3] ∧
      (poolTwo.fSocketPool.map Prod.snd).count 4 = 1 :=
  have h := C10_disconnect sampleConsts poolTwo reachable_poolTwo
  ⟨h.2.1, by decide, h.2.2.2.2.2.1 4 ⟨1, by decide⟩⟩

/-! ### C7: the ordered list -/

/-- Dropping the staged entry does not change which established parallel
substreams the id table holds. -/
theorem filter_Del_staged (c : Consts) (m : List (Int × Int)) :
    (Del m c.XRDCLI_PSOCKTEMP).filter
        (fun e => decide (e.1 ≠ 0) && decide (e.1 ≠ c.XRDCLI_PSOCKTEMP)) =
      m.filter (fun e => decide (e.1 ≠ 0) && decide (e.1 ≠ c.XRDCLI_PSOCKTEMP)) := by
  induction m with
  | nil => rfl
  | cons e m ih =>
    obtain ⟨a, b⟩ := e
    unfold Del at ih ⊢
    by_cases h : a = c.XRDCLI_PSOCKTEMP
    · rw [List.filter_cons_of_neg (by simp [h]), List.filter_cons_of_neg (by simp [h])]
      exact ih
    · rw [List.filter_cons_of_pos (by simpa using h)]
      by_cases h0 : a = 0
      · rw [List.filter_cons_of_neg (by simp [h0]), List.filter_cons_of_neg (by simp [h0])]
        exact ih
      · rw [List.filter_cons_of_pos (by simp [h0, h]),
          List.filter_cons_of_pos (by simp [h0, h]), ih]

/-- A parallel connect keeps the ordered list in agreement with the
registry. -/
theorem ListAgrees_TryConnectParallelSock (c : Consts) (s : Int) {st : PSock}
    (h : ListAgrees c st) : ListAgrees c (TryConnectParallelSock c s st).2 := by
  unfold TryConnectParallelSock TryConnect_low
  by_cases h0 : s ≥ 0
  · simp only [h0, if_true]
    constructor
    · show st.fSocketIdRepo.length = _
      rw [h.1]
      unfold establishedCount
      simp only [Rep]
      rw [List.filter_cons_of_neg (by simp), filter_Del_staged]
    · intro id hid
      have hid2 := h.2 id hid
      refine ⟨?_, hid2.2⟩
      have h1 := hid2.1
      simp only [GetSock] at h1 ⊢
      rw [Find_Rep_ne _ _ hid2.2]
      exact h1
  · simpa [h0] using h

/-- An `establish` with a new parallel id keeps the ordered list in agreement
with the registry. -/
theorem ListAgrees_EstablishParallelSock (c : Consts) (id : Int) {st : PSock}
    (h : ListAgrees c st) (h0 : id ≠ 0) (ht : id ≠ c.XRDCLI_PSOCKTEMP)
    (hnew : Find st.fSocketPool id = none) :
    ListAgrees c (EstablishParallelSock c id st).2 := by
  unfold EstablishParallelSock
  by_cases hs : GetSock st c.XRDCLI_PSOCKTEMP ≥ 0
  · simp only [hs, if_true]
    have hnew2 : Find (Del st.fSocketPool c.XRDCLI_PSOCKTEMP) id = none := by
      rw [Find_Del_ne _ ht]
      exact hnew
    constructor
    · show (st.fSocketIdRepo ++ [id]).length = _
      rw [List.length_append, h.1]
      unfold establishedCount
      simp only [Rep]
      rw [List.filter_cons_of_pos (by simp [h0, ht]), Del_of_Find_none hnew2,
        filter_Del_staged]
      simp
    · intro k hk
      rcases List.mem_append.mp hk with hk | hk
      · have hk2 := h.2 k hk
        refine ⟨?_, hk2.2⟩
        by_cases hki : k = id
        · subst hki
          simp only [GetSock, Find_Rep_self]
          exact hs
        · have h1 := hk2.1
          simp only [GetSock] at h1 ⊢
          rw [Find_Rep_ne _ _ hki, Find_Del_ne _ hk2.2]
          exact h1
      · simp only [List.mem_singleton] at hk
        subst hk
        refine ⟨?_, ht⟩
        simp only [GetSock, Find_Rep_self]
        exact hs
  · simpa [hs] using h

/-- C7 fails as stated: on the connected pool, two parallel connections that
are both established under the id 1 leave an ordered list of length 2, while
the registry holds one established parallel substream. -/
theorem C7_list_agrees_counterexample :
    (TryConnect 3 freshPool).fConnected = true ∧
      (runPar sampleConsts opsDup (TryConnect 3 freshPool)).fSocketIdRepo.length = 2 ∧
      establishedCount sampleConsts (runPar sampleConsts opsDup (TryConnect 3 freshPool)) = 1 := by
  decide

/-- C7 as amended: starting from a pool whose ordered list agrees with the
registry, after any sequence of `TryConnectParallelSock` and
`EstablishParallelSock` calls in which every `establish` is given a new
parallel id (not 0, not the staged id, not already in the id table), the
length of the ordered list equals the number of established parallel
substreams in the registry, and every id in the list resolves through the
registry to a descriptor. -/
theorem C7_list_agrees (c : Consts) (ops : List ParOp) (st : PSock)
    (h : ListAgrees c st) (hops : newIds c ops st) :
    (runPar c ops st).fSocketIdRepo.length = establishedCount c (runPar c ops st) ∧
      ∀ id ∈ (runPar c ops st).fSocketIdRepo, 0 ≤ GetSock (runPar c ops st) id := by
  have key : ListAgrees c (runPar c ops st) := by
    induction ops generalizing st with
    | nil => exact h
    | cons op ops ih =>
      cases op with
      | connectParallel s =>
        exact ih _ (ListAgrees_TryConnectParallelSock c s h) hops
      | establish id =>
        obtain ⟨⟨h0, ht, hnew⟩, hrest⟩ := hops
        exact ih _ (ListAgrees_EstablishParallelSock c id h h0 ht hnew) hrest
  exact ⟨key.1, fun id hid => (key.2 id hid).1⟩

/-- C7 as amended, on the connected pool: two parallel connections established
under the ids 1 and 2 give a list of length 2 for 2 established substreams. -/
theorem C7_list_agrees_witness :
    (runPar sampleConsts opsTwo (TryConnect 3 freshPool)).fSocketIdRepo = [1, 2] ∧
      establishedCount sampleConsts (runPar sampleConsts opsTwo (TryConnect 3 freshPool)) = 2 ∧
      (runPar sampleConsts opsTwo (TryConnect 3 freshPool)).fSocketIdRepo.length =
        establishedCount sampleConsts (runPar sampleConsts opsTwo (TryConnect 3 freshPool)) :=
  ⟨by decide, by decide,
    (C7_list_agrees sampleConsts opsTwo (TryConnect 3 freshPool)
      ⟨by decide, by decide⟩
      ⟨⟨by decide, by decide, by decide⟩, ⟨by decide, by decide, by decide⟩, trivial⟩).1⟩

/-! ### C9: the stale flag -/

/-- What the rebuild puts into the descriptor set: what was there, and the
descriptors of the id table that are not negative. -/
theorem mem_Apply_FdSetSockFunc (m : List (Int × Int)) (a : fdinfo) (fd : Int) :
    fd ∈ (Apply FdSetSockFunc m a).2.fdset ↔
      fd ∈ a.fdset ∨ (0 ≤ fd ∧ ∃ k, (k, fd) ∈ m) := by
  induction m generalizing a with
  | nil => simp [Apply]
  | cons e m ih =>
    obtain ⟨k, v⟩ := e
    by_cases hv : v ≥ 0
    · simp only [Apply, FdSetSockFunc, hv, if_true, gt_iff_lt, lt_self_iff_false, if_false]
      rw [ih]
      simp only [FD_SET]
      constructor
      · rintro (h | ⟨h0, k1, hk1⟩)
        · split_ifs at h with hmem
          · exact Or.inl h
          · rcases List.mem_cons.mp h with h | h
            · right
              subst h
              exact ⟨hv, k, List.mem_cons_self _ _⟩
            · exact Or.inl h
        · exact Or.inr ⟨h0, k1, List.mem_cons_of_mem _ hk1⟩
      · rintro (h | ⟨h0, k1, hk1⟩)
        · left
          split_ifs
          · exact h
          · exact List.mem_cons_of_mem _ h
        · rcases List.mem_cons.mp hk1 with h | h
          · cases h
            left
            split_ifs with hmem
            · exact hmem
            · exact List.mem_cons_self _ _
          · exact Or.inr ⟨h0, k1, h⟩
    · simp only [Apply, FdSetSockFunc, hv, if_false, gt_iff_lt, lt_self_iff_false]
      rw [ih]
      constructor
      · rintro (h | ⟨h0, k1, hk1⟩)
        · exact Or.inl h
        · exact Or.inr ⟨h0, k1, List.mem_cons_of_mem _ hk1⟩
      · rintro (h | ⟨h0, k1, hk1⟩)
        · exact Or.inl h
        · rcases List.mem_cons.mp hk1 with h | h
          · cases h
            exact absurd h0 hv
          · exact Or.inr ⟨h0, k1, h⟩

theorem StartsWithWaitOn_append {g : fdinfo} {t : List Ev} (h : StartsWithWaitOn g t)
    (x : Ev) : StartsWithWaitOn g (t ++ [x]) := by
  obtain ⟨rest, hr⟩ := h
  exact ⟨rest ++ [x], by rw [hr]; rfl⟩

/-- The wait step, entered with no call made yet on the set `g`, or with a
first call that was a wait on `g`, keeps that first call. -/
theorem waitStep_firstWait (c : Consts) (w : Env) (length starttime : Int) (g : fdinfo)
    (st : PSock) (L : Locals) (loc : fdinfo)
    (hL : (L.trace = [] ∧ loc = g) ∨ StartsWithWaitOn g L.trace) :
    (waitStep c w length starttime st L loc).sat (fun out => FirstWaitOn g out.trace)
      (fun _ L1 => StartsWithWaitOn g L1.trace) := by
  have h0 : FirstWaitOn g L.trace := by
    rcases hL with h | h
    · exact Or.inl h.1
    · exact Or.inr h
  have hW : StartsWithWaitOn g (noteWait L loc).trace := by
    rcases hL with h | h
    · refine ⟨[], ?_⟩
      simp only [noteWait]
      rw [h.1, h.2]
      rfl
    · exact StartsWithWaitOn_append h _
  apply waitStep_sat
  · intro _; exact h0
  · intro _ _ _; exact Or.inr hW
  · intro _ _ _; exact hW
  · intro _ _
    apply afterWait_sat
    · intro _; exact Or.inr hW
    · intro _ _; exact Or.inr hW
    · intro _ _ _
      apply whileTest_sat
      · intro _; exact hW
      · intro _; exact Or.inr hW
    · intro ii _ _ _
      have hR := StartsWithWaitOn_append hW (Ev.read ii (length - (noteWait L loc).bytesread)
        (w.recv (noteWait L loc).nrecv ii (length - (noteWait L loc).bytesread)).n
        (w.recv (noteWait L loc).nrecv ii (length - (noteWait L loc).bytesread)).eintr)
      apply readStep_sat
      · intro _ _ _; exact Or.inr hR
      · intro _ _ _ _; exact Or.inr hR
      · intro _
        apply whileTest_sat
        · intro _; exact hR
        · intro _; exact Or.inr hR

/-- In a call with hint ANY that finds the stale flag set, the first wait is
on the rebuilt global descriptor set. -/
theorem body_firstWait (c : Consts) (w : Env) (length starttime : Int) (st0 st : PSock)
    (L : Locals) (hflag : st0.fReinit_fd = true)
    (hL : (L.trace = [] ∧ L.substreamid = -1 ∧ st = st0) ∨
      StartsWithWaitOn (rebuildGlobal st0).globalfdinfo L.trace) :
    (body c w length starttime st L).sat
      (fun out => FirstWaitOn (rebuildGlobal st0).globalfdinfo out.trace)
      (fun st1 L1 => (L1.trace = [] ∧ L1.substreamid = -1 ∧ st1 = st0) ∨
        StartsWithWaitOn (rebuildGlobal st0).globalfdinfo L1.trace) := by
  have hweak : ∀ {s : Step},
      s.sat (fun out => FirstWaitOn (rebuildGlobal st0).globalfdinfo out.trace)
        (fun _ L1 => StartsWithWaitOn (rebuildGlobal st0).globalfdinfo L1.trace) →
      s.sat (fun out => FirstWaitOn (rebuildGlobal st0).globalfdinfo out.trace)
        (fun st1 L1 => (L1.trace = [] ∧ L1.substreamid = -1 ∧ st1 = st0) ∨
          StartsWithWaitOn (rebuildGlobal st0).globalfdinfo L1.trace) := by
    intro s hs
    cases s with
    | done out => exact hs
    | again st1 L1 => exact Or.inr hs
  have h0 : FirstWaitOn (rebuildGlobal st0).globalfdinfo L.trace := by
    rcases hL with h | h
    · exact Or.inl h.1
    · exact Or.inr h
  apply body_sat
  · intro _
    apply hweak
    apply waitStep_firstWait
    rcases hL with h | h
    · left
      refine ⟨h.1, ?_⟩
      rw [h.2.2]
      simp [refreshed, hflag]
    · exact Or.inr h
  · intro hsid _
    apply hweak
    apply waitStep_firstWait
    rcases hL with h | h
    · exact absurd h.2.1 hsid
    · exact Or.inr h
  · intro _ _ _; exact h0
  · intro _ _ _; exact h0

/-- C9 fails as stated. The pool with substream 1 has been through a `RecvRaw`
call, so its stale flag is down. (a) A parallel connection on descriptor 5 is
then established as substream 2: the flag is still down, and the next call
with hint ANY, with data waiting on descriptor 5 only, waits on descriptors 3
and 4 until the deadline and returns the timeout code. (b) Instead,
`RemoveParallelSock(1)` closes descriptor 4: the flag is still down, and the
next call with hint ANY waits on a set that still holds descriptor 4. -/
theorem C9_stale_flag_counterexample :
    (RecvRaw sampleConsts (envReady [3]) 10 (-1) 5 poolOne).map (fun out => out.st)
        = some poolOneUsed ∧
      (EstablishParallelSock sampleConsts 2
        (TryConnectParallelSock sampleConsts 5 poolOneUsed).2).1 = 0 ∧
      poolGrown.fReinit_fd = false ∧ GetSock poolGrown 2 = 5 ∧
      (RecvRaw sampleConsts (envReady [5]) 10 (-1) 5 poolGrown).map
          (fun out => (out.ret, out.trace))
        = some (sampleConsts.TXSOCK_ERR_TIMEOUT, [Ev.wait [3, 4] 5, Ev.wait [3, 4] 5]) ∧
      GetSock poolOneUsed 1 = 4 ∧ poolShrunk.fReinit_fd = false ∧
      poolShrunk.sys.closeLog = [4] ∧ GetSockId poolShrunk 4 = -1 ∧
      (RecvRaw sampleConsts envBadFd 10 (-1) 5 poolShrunk).map
          (fun out => (out.ret, out.trace))
        = some (sampleConsts.TXSOCK_ERR, [Ev.wait [3, 4] 5]) := by
  decide

/-- What the first wait of a `RecvRaw` call with hint ANY is on, when the call
has returned and the stale flag was set at the call: exactly the descriptors
of the id table that are not negative. -/
theorem RecvRaw_firstWait_rebuilt (c : Consts) (w : Env) (length : Int) (fuel : Nat)
    (st : PSock) (out : RecvOut) (fds : List Int) (nfds : Int) (rest : List Ev)
    (hflag : st.fReinit_fd = true)
    (hcall : RecvRaw c w length (-1) fuel st = some out)
    (htrace : out.trace = Ev.wait fds nfds :: rest) :
    ∀ fd, fd ∈ fds ↔ (0 ≤ fd ∧ ∃ k, (k, fd) ∈ st.fSocketPool) := by
  have hfirst : FirstWaitOn (rebuildGlobal st).globalfdinfo out.trace := by
    unfold RecvRaw at hcall
    simp only at hcall
    split_ifs at hcall with h1 h2 h3
    · simp only [Option.some.injEq] at hcall
      subst hcall
      exact Or.inl rfl
    · simp only [Option.some.injEq] at hcall
      subst hcall
      exact Or.inl rfl
    · exact loop_sat c w length (w.time 0)
        (fun st1 L1 => (L1.trace = [] ∧ L1.substreamid = -1 ∧ st1 = st) ∨
          StartsWithWaitOn (rebuildGlobal st).globalfdinfo L1.trace)
        (fun out => FirstWaitOn (rebuildGlobal st).globalfdinfo out.trace)
        (fun st1 L1 hP => body_firstWait c w length (w.time 0) st st1 L1 hflag hP)
        fuel st _ (Or.inl ⟨rfl, rfl, rfl⟩) out hcall
    · simp only [Option.some.injEq] at hcall
      subst hcall
      exact Or.inl rfl
  have hfds : fds = (rebuildGlobal st).globalfdinfo.fdset := by
    rcases hfirst with h | ⟨r, h⟩
    · rw [h] at htrace
      cases htrace
    · rw [h] at htrace
      cases htrace
      rfl
  intro fd
  rw [hfds]
  simp only [rebuildGlobal]
  rw [mem_Apply_FdSetSockFunc]
  simp [FD_ZERO]

/-- C9 as amended: on every pool, `EstablishParallelSock` and
`RemoveParallelSock` leave the stale flag and the global descriptor set as
they find them: a flag that is down stays down (marking the set stale is left
to `ReinitFDTable`). When the stale flag is set at a `RecvRaw` call with hint
ANY, the local descriptor set of the first pass, and so the set of the first
wait of a call that returns, holds exactly the descriptors of the id table
that are not negative. -/
theorem C9_stale_flag (c : Consts) (id : Int) (st : PSock) :
    ((EstablishParallelSock c id st).2.fReinit_fd = st.fReinit_fd ∧
        (EstablishParallelSock c id st).2.globalfdinfo = st.globalfdinfo) ∧
      ((RemoveParallelSock id st).2.fReinit_fd = st.fReinit_fd ∧
        (RemoveParallelSock id st).2.globalfdinfo = st.globalfdinfo) ∧
      (st.fReinit_fd = true →
        ∀ fd, fd ∈ (localSet (refreshed st) (startLocals (-1)).substreamid).fdset ↔
          (0 ≤ fd ∧ ∃ k, (k, fd) ∈ st.fSocketPool)) ∧
      (st.fReinit_fd = true →
        ∀ (w : Env) (length : Int) (fuel : Nat) (out : RecvOut) (fds : List Int) (nfds : Int)
          (rest : List Ev),
          RecvRaw c w length (-1) fuel st = some out → out.trace = Ev.wait fds nfds :: rest →
          ∀ fd, fd ∈ fds ↔ (0 ≤ fd ∧ ∃ k, (k, fd) ∈ st.fSocketPool)) := by
  refine ⟨?_, ⟨rfl, rfl⟩, ?_, ?_⟩
  · unfold EstablishParallelSock
    simp only
    split_ifs
    · exact ⟨rfl, rfl⟩
    · exact ⟨rfl, rfl⟩
  · intro hflag fd
    have hset : (localSet (refreshed st) (startLocals (-1)).substreamid).fdset
        = (rebuildGlobal st).globalfdinfo.fdset := by
      unfold localSet refreshed startLocals
      rw [if_pos rfl, if_pos hflag]
    rw [hset]
    simp only [rebuildGlobal]
    rw [mem_Apply_FdSetSockFunc]
    simp [FD_ZERO]
  · intro hflag w length fuel out fds nfds rest hcall htrace
    exact RecvRaw_firstWait_rebuilt c w length fuel st out fds nfds rest hflag hcall htrace

/-- C9 as amended, at concrete inputs: on the pool `poolOneUsed`, whose stale
flag is down, the flag is down after `EstablishParallelSock(2)` and after
`RemoveParallelSock(1)`; on the pool with substreams 1 and 2, whose stale flag
is set, descriptor 5 is in the local set of the first pass, and the first wait
of the call is on the descriptors 3, 4 and 5. -/
theorem C9_stale_flag_witness :
    poolOneUsed.fReinit_fd = false ∧
      (EstablishParallelSock sampleConsts 2 poolOneUsed).2.fReinit_fd = false ∧
      (RemoveParallelSock 1 poolOneUsed).2.fReinit_fd = false ∧
      poolTwo.fReinit_fd = true ∧
      (5 : Int) ∈ (localSet (refreshed poolTwo) (startLocals (-1)).substreamid).fdset ∧
      RecvRaw sampleConsts envTwoReads 10 (-1) 5 poolTwo = some outTwoReads ∧
      ((5 : Int) ∈ [(3 : Int), 4, 5] ↔
        (0 ≤ (5 : Int) ∧ ∃ k, (k, (5 : Int)) ∈ poolTwo.fSocketPool)) :=
  have h1 := C9_stale_flag sampleConsts 2 poolOneUsed
  have h2 := C9_stale_flag sampleConsts 1 poolOneUsed
  have h3 := C9_stale_flag sampleConsts 1 poolTwo
  ⟨by decide, h1.1.1.trans (by decide), h2.2.1.1.trans (by decide), by decide,
    (h3.2.2.1 (by decide) 5).mpr ⟨by decide, 2, by decide⟩, by decide,
    h3.2.2.2 (by decide) envTwoReads 10 5 outTwoReads [3, 4, 5] 6
      [Ev.read 5 10 2 false, Ev.wait [5] 6, Ev.read 5 8 8 false] (by decide) (by decide) 5⟩

/-! ### C11: EstablishParallelSock -/

/-- C11 fails as stated: with descriptor 4 staged, `EstablishParallelSock`
called with the staged id itself returns 0 and the staged id is still in the
id table afterwards (it maps to descriptor 4). -/
theorem C11_establish_counterexample :
    Find poolStaged.fSocketPool sampleConsts.XRDCLI_PSOCKTEMP = some 4 ∧
      (EstablishParallelSock sampleConsts sampleConsts.XRDCLI_PSOCKTEMP poolStaged).1 = 0 ∧
      Find (EstablishParallelSock sampleConsts sampleConsts.XRDCLI_PSOCKTEMP
        poolStaged).2.fSocketPool sampleConsts.XRDCLI_PSOCKTEMP = some 4 := by
  decide

/-- C11 as amended: for every pool and every id other than the staged id: if
the staged id maps to a descriptor `h >= 0`, `EstablishParallelSock(id)`
returns 0 and afterwards the staged id has no entry in the id table, `id` maps
to `h`, `h` maps back to `id`, and the ordered list is the previous one with
`id` appended; if the staged id has no entry, it returns -1 and leaves the
pool as it is. -/
theorem C11_establish (c : Consts) (st : PSock) (id : Int)
    (hid : id ≠ c.XRDCLI_PSOCKTEMP) :
    (∀ h, Find st.fSocketPool c.XRDCLI_PSOCKTEMP = some h → 0 ≤ h →
      (EstablishParallelSock c id st).1 = 0 ∧
      Find (EstablishParallelSock c id st).2.fSocketPool c.XRDCLI_PSOCKTEMP = none ∧
      Find (EstablishParallelSock c id st).2.fSocketPool id = some h ∧
      Find (EstablishParallelSock c id st).2.fSocketIdPool h = some id ∧
      (EstablishParallelSock c id st).2.fSocketIdRepo = st.fSocketIdRepo ++ [id]) ∧
    (Find st.fSocketPool c.XRDCLI_PSOCKTEMP = none →
      EstablishParallelSock c id st = (-1, st)) := by
  constructor
  · intro h hf h0
    have hg : GetSock st c.XRDCLI_PSOCKTEMP = h := by simp [GetSock, hf]
    have hE : EstablishParallelSock c id st =
        (0, { st with
            fSocketPool := Rep (Del st.fSocketPool c.XRDCLI_PSOCKTEMP) id h,
            fSocketIdPool := Rep (Del st.fSocketIdPool h) h id,
            fSocketIdRepo := st.fSocketIdRepo ++ [id] }) := by
      unfold EstablishParallelSock
      simp only [hg]
      rw [if_pos h0]
    rw [hE]
    refine ⟨rfl, ?_, Find_Rep_self _ _ _, Find_Rep_self _ _ _, rfl⟩
    show Find (Rep (Del st.fSocketPool c.XRDCLI_PSOCKTEMP) id h) c.XRDCLI_PSOCKTEMP = none
    rw [Find_Rep_ne _ _ (Ne.symm hid)]
    exact Find_Del_self _ _
  · intro hf
    have hg : GetSock st c.XRDCLI_PSOCKTEMP = -1 := by simp [GetSock, hf]
    unfold EstablishParallelSock
    simp [hg]

/-- C11 as amended, on the pool with descriptor 4 staged:
`EstablishParallelSock(1)` returns 0, the staged id is gone and substream 1
maps to descriptor 4. -/
theorem C11_establish_witness :
    (EstablishParallelSock sampleConsts 1 poolStaged).1 = 0 ∧
      Find (EstablishParallelSock sampleConsts 1 poolStaged).2.fSocketPool
        sampleConsts.XRDCLI_PSOCKTEMP = none ∧
      Find (EstablishParallelSock sampleConsts 1 poolStaged).2.fSocketPool 1 = some 4 :=
  have h := (C11_establish sampleConsts poolStaged 1 (by decide)).1 4 (by decide) (by decide)
  ⟨h.1, h.2.1, h.2.2.1⟩

/-! ### C13: SendRaw -/

/-- C13 fails as stated: on the pool with substreams 1 and 2, `SendRaw` to the
substream 7, which is not registered, calls the base-class write once, with
the descriptor `-1`, and returns what that call returns. -/
theorem C13_send_counterexample :
    Find poolTwo.fSocketPool 7 = none ∧
      (SendRaw writeAll [1, 2, 3] 3 7 poolTwo).calls = [([1, 2, 3], 3, -1)] ∧
      (SendRaw writeAll [1, 2, 3] 3 7 poolTwo).ret = writeAll [1, 2, 3] 3 (-1) := by
  decide

/-- C13 as amended: for every pool, buffer and length, `SendRaw` calls the
base-class write exactly once, with the same buffer and length and with the
descriptor that `GetSock` gives for the substream, and returns its result
unchanged: the descriptor is `h` when the substream is registered under `h`,
and `-1` when it is not registered (no error of its own is raised). -/
theorem C13_send (write : List Nat → Int → Int → Int) (buffer : List Nat)
    (length substreamid : Int) (st : PSock) :
    (SendRaw write buffer length substreamid st).calls =
        [(buffer, length, GetSock st substreamid)] ∧
      (SendRaw write buffer length substreamid st).ret =
        write buffer length (GetSock st substreamid) ∧
      (∀ h, Find st.fSocketPool substreamid = some h →
        (SendRaw write buffer length substreamid st).calls = [(buffer, length, h)] ∧
        (SendRaw write buffer length substreamid st).ret = write buffer length h) ∧
      (Find st.fSocketPool substreamid = none →
        (SendRaw write buffer length substreamid st).calls = [(buffer, length, -1)] ∧
        (SendRaw write buffer length substreamid st).ret = write buffer length (-1)) := by
  refine ⟨rfl, rfl, ?_, ?_⟩
  · intro h hf
    simp [SendRaw, GetSock, hf]
  · intro hf
    simp [SendRaw, GetSock, hf]

/-- C13 as amended, on the pool with substreams 1 and 2: `SendRaw` to
substream 2 makes one call of the write, on descriptor 5. -/
theorem C13_send_witness :
    (SendRaw writeAll [1, 2, 3] 3 2 poolTwo).calls = [([1, 2, 3], 3, 5)] ∧
      (SendRaw writeAll [1, 2, 3] 3 2 poolTwo).ret = 3 :=
  have h := (C13_send writeAll [1, 2, 3] 3 2 poolTwo).2.2.1 5 (by decide)
  ⟨h.1, h.2.trans (by decide)⟩

/-! ### C17: the readiness set and its maximum -/

/-- The members of a set after `FD_SET`. -/
theorem mem_FD_SET {v x : Int} {s : List Int} : x ∈ FD_SET v s ↔ x = v ∨ x ∈ s := by
  unfold FD_SET
  split_ifs with h
  · constructor
    · intro hx; exact Or.inr hx
    · rintro (hx | hx)
      · rw [hx]; exact h
      · exact hx
  · exact List.mem_cons

/-- The members of a set after `FD_CLR`. -/
theorem mem_FD_CLR {v x : Int} {s : List Int} : x ∈ FD_CLR v s ↔ x ∈ s ∧ x ≠ v := by
  unfold FD_CLR
  simp [List.mem_filter]

/-- One call of the visitor `FdSetSockFunc` keeps the record within bounds. -/
theorem Bounded_FdSetSockFunc (k v : Int) {a : fdinfo} (h : Bounded a) :
    Bounded (FdSetSockFunc k v a).2 := by
  obtain ⟨h1, h2, h3, h4⟩ := h
  unfold FdSetSockFunc
  by_cases hv : v ≥ 0
  · simp only [hv, if_true]
    have hx : a.maxfd ≤ xrdmax a.maxfd v ∧ v ≤ xrdmax a.maxfd v := by
      unfold xrdmax
      split_ifs <;> omega
    refine ⟨?_, ?_, ?_, ?_⟩
    · intro fd hfd
      dsimp only at hfd ⊢
      rcases mem_FD_SET.mp hfd with hfd | hfd
      · subst hfd
        exact ⟨hv, hx.2⟩
      · have := h1 fd hfd
        exact ⟨this.1, le_trans this.2 hx.1⟩
    · dsimp only
      omega
    · intro he
      dsimp only at he ⊢
      have : v ∈ FD_SET v a.fdset := mem_FD_SET.mpr (Or.inl rfl)
      rw [he] at this
      simp at this
    · intro _
      dsimp only
      apply mem_FD_SET.mpr
      unfold xrdmax
      split_ifs with hlt
      · exact Or.inl rfl
      · by_cases he : a.fdset = []
        · left
          have := h3 he
          omega
        · exact Or.inr (h4 he)
  · simpa [hv] using ⟨h1, h2, h3, h4⟩

/-- The rebuild keeps the record within bounds. -/
theorem Bounded_Apply_FdSetSockFunc (m : List (Int × Int)) {a : fdinfo} (h : Bounded a) :
    Bounded (Apply FdSetSockFunc m a).2 := by
  induction m generalizing a with
  | nil => exact h
  | cons e m ih =>
    obtain ⟨k, v⟩ := e
    have hstep := Bounded_FdSetSockFunc k v h
    have hrc : (FdSetSockFunc k v a).1 = 0 := by
      unfold FdSetSockFunc
      split_ifs <;> rfl
    simp only [Apply, hrc, gt_iff_lt, lt_self_iff_false, if_false]
    exact ih hstep

/-- After the rebuild the record is within bounds. -/
theorem Bounded_rebuildGlobal (st : PSock) : Bounded (rebuildGlobal st).globalfdinfo := by
  apply Bounded_Apply_FdSetSockFunc
  refine ⟨?_, le_refl _, fun _ => rfl, fun h => absurd rfl h⟩
  intro fd hfd
  simp [FD_ZERO] at hfd

/-- After the rebuild the readiness set is within the recorded maximum. -/
theorem WithinMax_rebuildGlobal (st : PSock) :
    WithinMax (rebuildGlobal st).globalfdinfo.maxfd (rebuildGlobal st) := by
  have hB := Bounded_rebuildGlobal st
  refine ⟨rfl, hB.1, ?_⟩
  intro k h hk h0
  have hpool : (rebuildGlobal st).fSocketPool = st.fSocketPool := Apply_FdSetSockFunc_fst _ _
  rw [hpool] at hk
  have hmem : h ∈ (rebuildGlobal st).globalfdinfo.fdset := by
    simp only [rebuildGlobal]
    rw [mem_Apply_FdSetSockFunc]
    exact Or.inr ⟨h0, k, hk⟩
  exact (hB.1 h hmem).2

/-- A pause or restart call keeps the readiness set within the recorded
maximum, which it does not change. -/
theorem WithinMax_run (op : PauseOp) {M : Int} {st : PSock} (h : WithinMax M st) :
    WithinMax M (op.run st) := by
  obtain ⟨h1, h2, h3⟩ := h
  cases op with
  | pause id =>
    simp only [PauseOp.run, PauseSelectOnSubstream]
    split_ifs with hs
    · refine ⟨h1, ?_, h3⟩
      intro fd hfd
      exact h2 fd (mem_FD_CLR.mp hfd).1
    · exact ⟨h1, h2, h3⟩
  | restart id =>
    simp only [PauseOp.run, RestartSelectOnSubstream]
    split_ifs with hs
    · refine ⟨h1, ?_, h3⟩
      intro fd hfd
      rcases mem_FD_SET.mp hfd with hfd | hfd
      · subst hfd
        cases hf : Find st.fSocketPool id with
        | none => simp [GetSock, hf] at hs
        | some s =>
          have hg : GetSock st id = s := by simp [GetSock, hf]
          rw [hg] at hs ⊢
          exact ⟨hs, h3 id s (Find_some_mem hf) hs⟩
      · exact h2 fd hfd
    · exact ⟨h1, h2, h3⟩

/-- A sequence of pause and restart calls keeps the readiness set within the
recorded maximum. -/
theorem WithinMax_runPauseOps (ops : List PauseOp) {M : Int} {st : PSock}
    (h : WithinMax M st) : WithinMax M (runPauseOps ops st) := by
  induction ops generalizing st with
  | nil => exact h
  | cons op ops ih => exact ih (WithinMax_run op h)

/-- C17 fails as stated: after the rebuild on the pool with substreams 1 and 2
(set 3, 4, 5 and maximum 5), pausing substream 2 leaves the set 3, 4, which is
not empty, with the recorded maximum still 5: the maximum is not a member of
the set and exceeds its highest descriptor. -/
theorem C17_readiness_max_counterexample :
    (rebuildGlobal poolTwo).globalfdinfo = { fdset := [3, 4, 5], maxfd := 5 } ∧
      (runPauseOps [PauseOp.pause 2] (rebuildGlobal poolTwo)).globalfdinfo
        = { fdset := [3, 4], maxfd := 5 } ∧
      (5 : Int) ∉ (runPauseOps [PauseOp.pause 2] (rebuildGlobal poolTwo)).globalfdinfo.fdset := by
  decide

/-- C17 as amended: right after a rebuild the recorded maximum is the highest
descriptor of the readiness set when the set is not empty; after any
following sequence of pause and restart calls the recorded maximum is the one
the rebuild recorded and every member of the set lies within the range
`0..maxfd` (the maximum bounds the set, and need not be a member of it). -/
theorem C17_readiness_max (st : PSock) (ops : List PauseOp) :
    ((rebuildGlobal st).globalfdinfo.fdset ≠ [] →
        (rebuildGlobal st).globalfdinfo.maxfd ∈ (rebuildGlobal st).globalfdinfo.fdset ∧
        ∀ fd ∈ (rebuildGlobal st).globalfdinfo.fdset,
          fd ≤ (rebuildGlobal st).globalfdinfo.maxfd) ∧
      (runPauseOps ops (rebuildGlobal st)).globalfdinfo.maxfd
        = (rebuildGlobal st).globalfdinfo.maxfd ∧
      ∀ fd ∈ (runPauseOps ops (rebuildGlobal st)).globalfdinfo.fdset,
        0 ≤ fd ∧ fd ≤ (runPauseOps ops (rebuildGlobal st)).globalfdinfo.maxfd := by
  have hB := Bounded_rebuildGlobal st
  have hW := WithinMax_runPauseOps ops (WithinMax_rebuildGlobal st)
  refine ⟨fun hne => ⟨hB.2.2.2 hne, fun fd hfd => (hB.1 fd hfd).2⟩, hW.1, ?_⟩
  intro fd hfd
  rw [hW.1]
  exact hW.2.1 fd hfd

/-- C17 as amended, on the pool with substreams 1 and 2: after the rebuild,
a pause of substream 2 and a restart of it, the maximum is 5 and descriptor 5
lies within `0..5`. -/
theorem C17_readiness_max_witness :
    (runPauseOps [PauseOp.pause 2, PauseOp.restart 2] (rebuildGlobal poolTwo)).globalfdinfo.maxfd
        = 5 ∧
      (0 ≤ (5 : Int) ∧ (5 : Int) ≤
        (runPauseOps [PauseOp.pause 2, PauseOp.restart 2]
          (rebuildGlobal poolTwo)).globalfdinfo.maxfd) :=
  have h := C17_readiness_max poolTwo [PauseOp.pause 2, PauseOp.restart 2]
  ⟨h.2.1.trans (by decide), h.2.2 5 (by decide)⟩

/-! ### The hint counter across a receive -/

/-- The rebuild leaves the hint counter alone. -/
theorem refreshed_lastsidhint (st : PSock) : (refreshed st).lastsidhint = st.lastsidhint := by
  unfold refreshed
  split_ifs <;> rfl

/-- Raising the interrupt flag leaves the hint counter alone. -/
theorem raise_lastsidhint (b : Bool) (st : PSock) :
    (raise b st).lastsidhint = st.lastsidhint := by
  unfold raise
  split_ifs <;> rfl

/-- A pass through the loop body leaves the hint counter alone. -/
theorem body_lastsidhint (c : Consts) (w : Env) (length starttime : Int) (v : Int)
    (st : PSock) (L : Locals) (h : st.lastsidhint = v) :
    (body c w length starttime st L).sat (fun out => out.st.lastsidhint = v)
      (fun st1 _ => st1.lastsidhint = v) := by
  have h1 : (refreshed st).lastsidhint = v := (refreshed_lastsidhint st).trans h
  have hw : ∀ loc : fdinfo,
      (waitStep c w length starttime (refreshed st) L loc).sat
        (fun out => out.st.lastsidhint = v) (fun st1 _ => st1.lastsidhint = v) := by
    intro loc
    have h2 : (raise (w.interrupt L.nsel) (refreshed st)).lastsidhint = v :=
      (raise_lastsidhint _ _).trans h1
    apply waitStep_sat
    · intro _; exact h1
    · intro _ _ _; exact h1
    · intro _ _ _; exact h2
    · intro _ _
      apply afterWait_sat
      · intro _; exact h2
      · intro _ _; exact h2
      · intro _ _ _
        apply whileTest_sat
        · intro _; exact h2
        · intro _; exact h2
      · intro ii _ _ _
        apply readStep_sat
        · intro _ _ _; exact h2
        · intro _ _ _ _; exact h2
        · intro _
          apply whileTest_sat
          · intro _; exact h2
          · intro _; exact h2
  apply body_sat
  · intro _; exact hw _
  · intro _ _; exact hw _
  · intro _ _ _; exact h1
  · intro _ _ _; exact h1

/-- A call of `RecvRaw` leaves the hint counter alone. -/
theorem RecvRaw_lastsidhint (c : Consts) (w : Env) (length substreamid : Int) (fuel : Nat)
    (st : PSock) (out : RecvOut)
    (hcall : RecvRaw c w length substreamid fuel st = some out) :
    out.st.lastsidhint = st.lastsidhint := by
  unfold RecvRaw at hcall
  simp only at hcall
  split_ifs at hcall with h1 h2 h3
  · simp only [Option.some.injEq] at hcall
    subst hcall
    rfl
  · simp only [Option.some.injEq] at hcall
    subst hcall
    rfl
  · exact loop_sat c w length (w.time 0) (fun st1 _ => st1.lastsidhint = st.lastsidhint)
      (fun out => out.st.lastsidhint = st.lastsidhint)
      (fun st1 L1 hP => body_lastsidhint c w length (w.time 0) _ st1 L1 hP)
      fuel st _ rfl out hcall
  · simp only [Option.some.injEq] at hcall
    subst hcall
    rfl

/-! ### Arithmetic of the rotation -/

/-- The closed form repeats after `n * r` calls. -/
theorem ordinalAfter_periodic (n r a j : Nat) :
    ordinalAfter n r a (j + n * r) = ordinalAfter n r a j := by
  unfold ordinalAfter
  have : a + (j + n * r) + 1 = (a + j + 1) + n * r := by omega
  rw [this, Nat.add_mod_right]

/-- From one call to the next the closed form stays, or moves to the cyclic
successor. -/
theorem ordinalAfter_step (n r a j : Nat) (hn0 : 0 < n) (hr : 1 ≤ r) :
    ordinalAfter n r a (j + 1) = ordinalAfter n r a j ∨
      ordinalAfter n r a (j + 1) = ordinalAfter n r a j % n + 1 := by
  unfold ordinalAfter
  have hm : 0 < n * r := Nat.mul_pos hn0 hr
  have hx : (a + j + 1) % (n * r) < n * r := Nat.mod_lt _ hm
  have hnext : (a + (j + 1) + 1) % (n * r) = ((a + j + 1) % (n * r) + 1) % (n * r) := by
    rw [Nat.mod_add_mod]
    congr 1
  rw [hnext]
  generalize (a + j + 1) % (n * r) = x at hx
  by_cases hlast : x + 1 = n * r
  · right
    rw [hlast, Nat.mod_self, Nat.zero_div]
    have hx2 : x / r = n - 1 := by
      apply Nat.div_eq_of_lt_le
      · have : (n - 1) * r + r = n * r := by
          rw [← Nat.succ_mul]
          congr 1
          omega
        omega
      · have : (n - 1 + 1) * r = n * r := by
          congr 1
          omega
        rw [this]
        exact hx
    rw [hx2]
    have : n - 1 + 1 = n := by omega
    rw [this, Nat.mod_self]
  · have hlt : x + 1 < n * r := by omega
    rw [Nat.mod_eq_of_lt hlt, Nat.succ_div]
    split_ifs with hdvd
    · right
      have hq : (x + 1) / r < n := (Nat.div_lt_iff_lt_mul hr).mpr hlt
      rw [Nat.succ_div, if_pos hdvd] at hq
      rw [Nat.mod_eq_of_lt (by omega)]
    · left
      rfl

/-- Among the counter values below `n * r`, exactly `r` give the ordinal
`q`. -/
theorem card_ordinal_eq (n r q : Nat) (hr : 1 ≤ r) (hq1 : 1 ≤ q) (hqn : q ≤ n) :
    ((Finset.range (n * r)).filter (fun x => (x % (n * r)) / r + 1 = q)).card = r := by
  have hset : (Finset.range (n * r)).filter (fun x => (x % (n * r)) / r + 1 = q)
      = Finset.Ico ((q - 1) * r) ((q - 1) * r + r) := by
    have hqr : (q - 1) * r + r ≤ n * r := by
      have : (q - 1) * r + r = q * r := by
        rw [← Nat.succ_mul]
        congr 1
        omega
      rw [this]
      exact Nat.mul_le_mul_right r hqn
    ext x
    simp only [Finset.mem_filter, Finset.mem_range, Finset.mem_Ico]
    constructor
    · rintro ⟨hx, hxq⟩
      rw [Nat.mod_eq_of_lt hx] at hxq
      have h1 : q - 1 ≤ x / r := by omega
      have h2 : x / r < q - 1 + 1 := by omega
      have h3 := (Nat.le_div_iff_mul_le hr).mp h1
      have h4 := (Nat.div_lt_iff_lt_mul hr).mp h2
      rw [Nat.succ_mul] at h4
      exact ⟨h3, h4⟩
    · rintro ⟨h3, h4⟩
      have hx : x < n * r := by omega
      refine ⟨hx, ?_⟩
      rw [Nat.mod_eq_of_lt hx]
      have h1 : q - 1 ≤ x / r := (Nat.le_div_iff_mul_le hr).mpr h3
      have h2 : x / r < q - 1 + 1 := by
        apply (Nat.div_lt_iff_lt_mul hr).mpr
        rw [Nat.succ_mul]
        exact h4
      omega
  rw [hset, Nat.card_Ico]
  omega

/-- Within any `n * r` consecutive calls the closed form takes each ordinal
`q` of `1..n` exactly `r` times. -/
theorem card_ordinalAfter_window (n r a i q : Nat) (hr : 1 ≤ r) (hq1 : 1 ≤ q) (hqn : q ≤ n) :
    ((Finset.range (n * r)).filter (fun j => ordinalAfter n r a (i + j) = q)).card = r := by
  have hper : Function.Periodic (fun x => (x % (n * r)) / r + 1 = q) (n * r) := by
    intro x
    simp only [Nat.add_mod_right]
  have h1 := Nat.filter_Ico_card_eq_of_periodic (a + i + 1) (n * r)
    (fun x => (x % (n * r)) / r + 1 = q) hper
  rw [Nat.count_eq_card_filter_range, card_ordinal_eq n r q hr hq1 hqn] at h1
  refine Eq.trans ?_ h1
  have himg : Finset.Ico (a + i + 1) (a + i + 1 + n * r)
      = (Finset.range (n * r)).image (fun j => a + i + 1 + j) := by
    rw [Finset.range_eq_Ico, Finset.image_add_left_Ico]
  rw [himg, Finset.filter_image,
    Finset.card_image_of_injective _ (fun x y hxy => by simpa using hxy)]
  congr 1
  ext j
  simp only [Finset.mem_filter, Finset.mem_range, ordinalAfter]
  have : a + (i + j) + 1 = a + i + 1 + j := by omega
  rw [this]

/-! ### The interrupt, seen in the calls made -/

/-- The waits of a concatenation. -/
theorem waitsIn_append (t u : List Ev) : waitsIn (t ++ u) = waitsIn t + waitsIn u := by
  simp [waitsIn, List.filter_append]

/-- A wait found in a sequence of calls extended by one call is that last
call, or was found before it. -/
theorem WaitAt_snoc {t : List Ev} {x : Ev} {k : Nat} {fds : List Int} {nfds : Int}
    {post : List Ev} (h : WaitAt (t ++ [x]) k fds nfds post) :
    (post = [] ∧ x = Ev.wait fds nfds ∧ waitsIn t = k) ∨
      (∃ post0, post = post0 ++ [x] ∧ WaitAt t k fds nfds post0) := by
  obtain ⟨pre, heq, hk⟩ := h
  rcases List.eq_nil_or_concat post with hp | ⟨post0, y, hp⟩
  · subst hp
    have h2 := List.append_inj' heq rfl
    left
    refine ⟨rfl, by simpa using h2.2, ?_⟩
    rw [h2.1]
    exact hk
  · subst hp
    right
    have heq2 : t ++ [x] = (pre ++ Ev.wait fds nfds :: post0) ++ [y] := by
      simpa using heq
    have h2 := List.append_inj' heq2 rfl
    have hxy : x = y := by simpa using h2.2
    subst hxy
    exact ⟨post0, by simp, pre, h2.1, hk⟩

/-- Before any call nothing has been interrupted. -/
theorem NotInterrupted_nil (w : Env) (st : PSock) : NotInterrupted w st [] := by
  intro k fds nfds post h
  obtain ⟨pre, heq, _⟩ := h
  simp at heq

/-- One more wait that did not end with the flag set. -/
theorem NotInterrupted_wait {w : Env} {st : PSock} {t : List Ev}
    (h : NotInterrupted w st t) (fds : List Int) (nfds : Int)
    (hlast : ¬ HardError w (waitsIn t) fds nfds → ¬ FlagSeen w st (waitsIn t)) :
    NotInterrupted w st (t ++ [Ev.wait fds nfds]) := by
  intro k fds1 nfds1 post hw hne
  rcases WaitAt_snoc hw with ⟨_, hx, hk⟩ | ⟨post0, _, hw0⟩
  · cases hx
    rw [← hk] at hne ⊢
    exact hlast hne
  · exact h k fds1 nfds1 post0 hw0 hne

/-- A read adds no wait. -/
theorem NotInterrupted_read {w : Env} {st : PSock} {t : List Ev}
    (h : NotInterrupted w st t) (fd len n : Int) (e : Bool) :
    NotInterrupted w st (t ++ [Ev.read fd len n e]) := by
  intro k fds1 nfds1 post hw hne
  rcases WaitAt_snoc hw with ⟨_, hx, _⟩ | ⟨post0, _, hw0⟩
  · cases hx
  · exact h k fds1 nfds1 post0 hw0 hne

/-- While no wait has found the flag set there is nothing to say about the
outcome. -/
theorem InterruptOutcome_of_notInterrupted (c : Consts) {w : Env} {st : PSock}
    (out : RecvOut) (h : NotInterrupted w st out.trace) : InterruptOutcome c w st out := by
  intro k fds nfds post hw hne hseen
  exact absurd hseen (h k fds nfds post hw hne)

/-- A pass through the loop body either meets no interrupt, or returns in the
way `InterruptOutcome` describes. The flag can be up at the start of a pass
only in the first pass of a call that found it up. -/
theorem body_interrupt (c : Consts) (w : Env) (length starttime : Int) (st0 st : PSock)
    (L : Locals) (hmain : ¬ GetMainSock st0 < 0) (hreg : SameRegistry st0 st)
    (hnsel : L.nsel = waitsIn L.trace)
    (hfirst : L.nsel = 0 → st.fRDInterrupt = st0.fRDInterrupt)
    (hL : NotInterrupted w st0 L.trace) :
    (body c w length starttime st L).sat (InterruptOutcome c w st0)
      (fun st1 L1 => SameRegistry st0 st1 ∧ L1.nsel = waitsIn L1.trace ∧
        (L1.nsel = 0 → st1.fRDInterrupt = st0.fRDInterrupt) ∧
        NotInterrupted w st0 L1.trace) := by
  have hreg1 : SameRegistry st0 (refreshed st) := hreg.trans (refreshed_sameRegistry st)
  have hflag1 : (refreshed st).fRDInterrupt = st.fRDInterrupt := by
    unfold refreshed
    split_ifs <;> rfl
  have hw : ∀ loc : fdinfo,
      (waitStep c w length starttime (refreshed st) L loc).sat (InterruptOutcome c w st0)
        (fun st1 L1 => SameRegistry st0 st1 ∧ L1.nsel = waitsIn L1.trace ∧
          (L1.nsel = 0 → st1.fRDInterrupt = st0.fRDInterrupt) ∧
          NotInterrupted w st0 L1.trace) := by
    intro loc
    have hreg2 : SameRegistry st0 (raise (w.interrupt L.nsel) (refreshed st)) :=
      hreg1.trans (raise_sameRegistry _ _)
    have hmain2 : ¬ GetMainSock (raise (w.interrupt L.nsel) (refreshed st)) < 0 := by
      rw [hreg2.getMainSock]
      exact hmain
    have hnsel1 : (noteWait L loc).nsel = waitsIn (noteWait L loc).trace := by
      simp only [noteWait, waitsIn_append, hnsel]
      rfl
    have hpos1 : (noteWait L loc).nsel = 0 → False := by
      simp [noteWait]
    -- the flag at the end of this wait is up exactly when `FlagSeen` says so
    have hseen : FlagSeen w st0 (waitsIn L.trace) →
        (raise (w.interrupt L.nsel) (refreshed st)).fRDInterrupt = true := by
      intro hs
      unfold raise
      split_ifs with hi
      · rfl
      · rcases hs with ⟨hk, hs⟩ | hs
        · rw [hflag1, hfirst (hnsel.trans hk)]
          exact hs
        · rw [← hnsel] at hs
          exact absurd hs hi
    have hW : (raise (w.interrupt L.nsel) (refreshed st)).fRDInterrupt = false →
        NotInterrupted w st0 (noteWait L loc).trace := by
      intro hf
      apply NotInterrupted_wait hL
      intro _ hs
      rw [hseen hs] at hf
      cases hf
    apply waitStep_sat
    · intro _; exact InterruptOutcome_of_notInterrupted c _ hL
    · intro _ h1 h2
      apply InterruptOutcome_of_notInterrupted c
      apply NotInterrupted_wait hL
      intro hne
      rw [← hnsel] at hne
      exact absurd ⟨h1, h2⟩ hne
    · intro _ _ hf
      exact ⟨hreg2, hnsel1, fun h => (hpos1 h).elim, hW hf⟩
    · intro _ _
      apply afterWait_sat
      · intro h; exact absurd h hmain2
      · intro _ _ k fds nfds post hwait hne hs
        rcases WaitAt_snoc hwait with ⟨hp, _, _⟩ | ⟨post0, _, hw0⟩
        · exact ⟨rfl, rfl, hp⟩
        · exact absurd hs (hL k fds nfds post0 hw0 hne)
      · intro _ hf _
        apply whileTest_sat
        · intro _
          exact ⟨hreg2, hnsel1, fun h => (hpos1 h).elim, hW hf⟩
        · intro _; exact InterruptOutcome_of_notInterrupted c _ (hW hf)
      · intro ii _ hf _
        have hR := NotInterrupted_read (hW hf) ii (length - (noteWait L loc).bytesread)
          (w.recv (noteWait L loc).nrecv ii (length - (noteWait L loc).bytesread)).n
          (w.recv (noteWait L loc).nrecv ii (length - (noteWait L loc).bytesread)).eintr
        have hnsel2 : (noteWait L loc).nsel = waitsIn ((noteWait L loc).trace ++
            [Ev.read ii (length - (noteWait L loc).bytesread)
              (w.recv (noteWait L loc).nrecv ii (length - (noteWait L loc).bytesread)).n
              (w.recv (noteWait L loc).nrecv ii (length - (noteWait L loc).bytesread)).eintr]) := by
          rw [waitsIn_append, ← hnsel1]
          rfl
        apply readStep_sat
        · intro _ _ _; exact InterruptOutcome_of_notInterrupted c _ hR
        · intro _ _ _ _; exact InterruptOutcome_of_notInterrupted c _ hR
        · intro _
          apply whileTest_sat
          · intro _
            exact ⟨hreg2, hnsel2, fun h => (hpos1 h).elim, hR⟩
          · intro _; exact InterruptOutcome_of_notInterrupted c _ hR
  apply body_sat
  · intro _; exact hw _
  · intro _ _; exact hw _
  · intro _ _ _; exact InterruptOutcome_of_notInterrupted c _ hL
  · intro _ _ _; exact InterruptOutcome_of_notInterrupted c _ hL

/-- What a `RecvRaw` call has returned when one of its waits ended without a
hard error and with the interrupt flag set: the return value is
`TXSOCK_ERR_INTERRUPT`, the flag is down, and that wait was the last call of
a primitive. -/
theorem RecvRaw_interrupted (c : Consts) (w : Env) (length substreamid : Int) (fuel : Nat)
    (st : PSock) (out : RecvOut) (k : Nat) (fds : List Int) (nfds : Int) (post : List Ev)
    (hcall : RecvRaw c w length substreamid fuel st = some out)
    (hwait : WaitAt out.trace k fds nfds post)
    (hnoerr : ¬ HardError w k fds nfds)
    (hflag : FlagSeen w st k) :
    out.ret = c.TXSOCK_ERR_INTERRUPT ∧ out.st.fRDInterrupt = false ∧ post = [] := by
  have hnil : ∀ o : RecvOut, o.trace = [] → WaitAt o.trace k fds nfds post → False := by
    intro o ho hw
    rw [ho] at hw
    obtain ⟨pre, heq, _⟩ := hw
    simp at heq
  unfold RecvRaw at hcall
  simp only at hcall
  split_ifs at hcall with h1 h2 h3
  · simp only [Option.some.injEq] at hcall
    subst hcall
    exact (hnil _ rfl hwait).elim
  · simp only [Option.some.injEq] at hcall
    subst hcall
    exact (hnil _ rfl hwait).elim
  · have h := loop_sat c w length (w.time 0)
      (fun st1 L1 => SameRegistry st st1 ∧ L1.nsel = waitsIn L1.trace ∧
        (L1.nsel = 0 → st1.fRDInterrupt = st.fRDInterrupt) ∧
        NotInterrupted w st L1.trace)
      (InterruptOutcome c w st)
      (fun st1 L1 hP => body_interrupt c w length (w.time 0) st st1 L1 h2 hP.1 hP.2.1
        hP.2.2.1 hP.2.2.2)
      fuel st _
      ⟨SameRegistry.refl st, rfl, fun _ => rfl, NotInterrupted_nil w st⟩ out hcall
    exact h k fds nfds post hwait hnoerr hflag
  · simp only [Option.some.injEq] at hcall
    subst hcall
    exact (hnil _ rfl hwait).elim

/-! ### C12: a paused substream -/

/-- No call has touched the descriptor yet. -/
theorem Avoids_nil (sock : Int) : Avoids sock [] :=
  ⟨fun _ _ h => by simp at h, fun _ _ _ _ h => by simp at h⟩

/-- One more wait, on a set that does not hold the descriptor. -/
theorem Avoids_wait {sock : Int} {t : List Ev} (h : Avoids sock t) {fds : List Int}
    (nfds : Int) (hfds : sock ∉ fds) : Avoids sock (t ++ [Ev.wait fds nfds]) := by
  constructor
  · intro fds1 nfds1 hm
    rcases List.mem_append.mp hm with hm | hm
    · exact h.1 fds1 nfds1 hm
    · simp only [List.mem_singleton, Ev.wait.injEq] at hm
      rw [hm.1]
      exact hfds
  · intro fd len n e hm
    rcases List.mem_append.mp hm with hm | hm
    · exact h.2 fd len n e hm
    · simp at hm

/-- One more read, on another descriptor. -/
theorem Avoids_read {sock : Int} {t : List Ev} (h : Avoids sock t) {ii : Int}
    (len n : Int) (e : Bool) (hii : ii ≠ sock) : Avoids sock (t ++ [Ev.read ii len n e]) := by
  constructor
  · intro fds1 nfds1 hm
    rcases List.mem_append.mp hm with hm | hm
    · exact h.1 fds1 nfds1 hm
    · simp at hm
  · intro fd len1 n1 e1 hm
    rcases List.mem_append.mp hm with hm | hm
    · exact h.2 fd len1 n1 e1 hm
    · simp only [List.mem_singleton, Ev.read.injEq] at hm
      rw [hm.1]
      exact hii

/-- A pass through the loop body on a pool whose global descriptor set `g` is
not stale, does not hold `sock`, and holds only handles of substreams other
than `id`: the calls stay away from `sock` and `id` is not reported. -/
theorem body_avoids (c : Consts) (w : Env) (length starttime : Int) (st0 : PSock)
    (g : fdinfo) (sock id : Int) (hsock : sock ∉ g.fdset)
    (hothers : OthersRegistered st0 g.fdset id)
    (st : PSock) (L : Locals) (hreg : SameRegistry st0 st)
    (hflag : st.fReinit_fd = false) (hg : st.globalfdinfo = g)
    (hsid : L.substreamid ≠ -1 → GetSock st0 L.substreamid ∈ g.fdset)
    (hused : L.usedsubstreamid ≠ some id) (hL : Avoids sock L.trace) :
    (body c w length starttime st L).sat
      (fun out => out.usedsubstreamid ≠ some id ∧ Avoids sock out.trace)
      (fun st1 L1 => SameRegistry st0 st1 ∧ st1.fReinit_fd = false ∧
        st1.globalfdinfo = g ∧
        (L1.substreamid ≠ -1 → GetSock st0 L1.substreamid ∈ g.fdset) ∧
        L1.usedsubstreamid ≠ some id ∧ Avoids sock L1.trace) := by
  have href : refreshed st = st := by
    unfold refreshed
    rw [hflag]
    rfl
  have hw : ∀ loc : fdinfo, (∀ x ∈ loc.fdset, x ∈ g.fdset) →
      (waitStep c w length starttime st L loc).sat
        (fun out => out.usedsubstreamid ≠ some id ∧ Avoids sock out.trace)
        (fun st1 L1 => SameRegistry st0 st1 ∧ st1.fReinit_fd = false ∧
          st1.globalfdinfo = g ∧
          (L1.substreamid ≠ -1 → GetSock st0 L1.substreamid ∈ g.fdset) ∧
          L1.usedsubstreamid ≠ some id ∧ Avoids sock L1.trace) := by
    intro loc hloc
    have hreg2 : SameRegistry st0 (raise (w.interrupt L.nsel) st) :=
      hreg.trans (raise_sameRegistry _ _)
    have hflag2 : (raise (w.interrupt L.nsel) st).fReinit_fd = false := by
      unfold raise
      split_ifs <;> exact hflag
    have hg2 : (raise (w.interrupt L.nsel) st).globalfdinfo = g := by
      unfold raise
      split_ifs <;> exact hg
    have hW : Avoids sock (noteWait L loc).trace :=
      Avoids_wait hL _ (fun hm => hsock (hloc sock hm))
    apply waitStep_sat
    · intro _; exact ⟨hused, hL⟩
    · intro _ _ _; exact ⟨hused, hW⟩
    · intro _ _ _; exact ⟨hreg2, hflag2, hg2, hsid, hused, hW⟩
    · intro _ _
      apply afterWait_sat
      · intro _; exact ⟨hused, hW⟩
      · intro _ _; exact ⟨hused, hW⟩
      · intro _ _ _
        apply whileTest_sat
        · intro _; exact ⟨hreg2, hflag2, hg2, hsid, hused, hW⟩
        · intro _; exact ⟨hused, hW⟩
      · intro ii _ _ hscan
        have hmem : ii ∈ g.fdset := hloc ii (selected_subset (scan_mem hscan))
        have hne : ii ≠ sock := fun h => hsock (h ▸ hmem)
        have hR := Avoids_read hW (length - (noteWait L loc).bytesread)
          (w.recv (noteWait L loc).nrecv ii (length - (noteWait L loc).bytesread)).n
          (w.recv (noteWait L loc).nrecv ii (length - (noteWait L loc).bytesread)).eintr hne
        have hid := hothers ii hmem
        apply readStep_sat
        · intro _ _ _; exact ⟨hused, hR⟩
        · intro _ _ _ _; exact ⟨hused, hR⟩
        · intro _
          have hpin : GetSockId (raise (w.interrupt L.nsel) st) ii = GetSockId st0 ii :=
            hreg2.getSockId ii
          have hused2 : some (GetSockId (raise (w.interrupt L.nsel) st) ii) ≠ some id := by
            rw [hpin]
            intro h
            exact hid.2 (Option.some.inj h)
          have hsid2 : GetSockId (raise (w.interrupt L.nsel) st) ii ≠ -1 →
              GetSock st0 (GetSockId (raise (w.interrupt L.nsel) st) ii) ∈ g.fdset := by
            intro _
            rw [hpin, hid.1]
            exact hmem
          apply whileTest_sat
          · intro _; exact ⟨hreg2, hflag2, hg2, hsid2, hused2, hR⟩
          · intro _; exact ⟨hused2, hR⟩
  apply body_sat
  · intro _
    rw [href]
    apply hw
    intro x hx
    rw [hg] at hx
    exact hx
  · intro hne _
    rw [href]
    apply hw
    intro x hx
    have := mem_FD_SET_FD_ZERO hx
    rw [this, hreg.getSock]
    exact hsid hne
  · intro _ _ _; exact ⟨hused, hL⟩
  · intro _ _ _; exact ⟨hused, hL⟩

/-- C12 fails as stated. (a) On the pool with substreams 1 and 2 whose
descriptor set has never been built, `PauseSelectOnSubstream(2)` changes
nothing, and the next `RecvRaw` with hint ANY rebuilds the set, waits on
descriptor 5, reads from it and reports substream 2. (b) On a pool whose
descriptor set is built and not stale but still holds descriptor 4, which
maps to the id 1 that now belongs to descriptor 5, pausing substream 1 does
not stop the call from reading on descriptor 4, reporting substream 1, and
then waiting on and reading from descriptor 5. -/
theorem C12_pause_counterexample :
    GetSock poolTwo 2 = 5 ∧ poolTwo.fReinit_fd = true ∧
      PauseSelectOnSubstream 2 poolTwo = poolTwo ∧
      RecvRaw sampleConsts envTwoReads 10 (-1) 5 (PauseSelectOnSubstream 2 poolTwo)
        = some outTwoReads ∧
      outTwoReads.usedsubstreamid = some 2 ∧
      Ev.read 5 10 2 false ∈ outTwoReads.trace ∧
      (RecvRaw sampleConsts (envReady [3]) 10 (-1) 5 poolOne).map (fun out => out.st)
        = some poolOneUsed ∧
      GetSock poolStale 1 = 5 ∧ poolStale.fReinit_fd = false ∧
      (RecvRaw sampleConsts envTwoReads45 10 (-1) 5
          (PauseSelectOnSubstream 1 poolStale)).map
          (fun out => (out.usedsubstreamid, out.trace))
        = some (some 1, [Ev.wait [3, 4] 5, Ev.read 4 10 2 false, Ev.wait [5] 6,
            Ev.read 5 8 8 false]) := by
  decide

/-- C12 as amended: on a pool in which `id` is registered under the descriptor
`sock`, the global descriptor set is not marked stale, and every other
descriptor of the set is the handle of a substream other than `id`, after
`PauseSelectOnSubstream(id)` a `RecvRaw` call with hint ANY makes no wait on a
set that holds `sock`, makes no read on `sock`, and does not report `id`
through `usedsubstreamid`, whatever the environment delivers. -/
theorem C12_pause (c : Consts) (w : Env) (length : Int) (fuel : Nat) (st : PSock)
    (out : RecvOut) (id sock : Int)
    (hid : GetSock st id = sock) (hsock : 0 ≤ sock)
    (hflag : st.fReinit_fd = false)
    (hothers : OthersRegistered st (FD_CLR sock st.globalfdinfo.fdset) id)
    (hcall : RecvRaw c w length (-1) fuel (PauseSelectOnSubstream id st) = some out) :
    Avoids sock out.trace ∧ out.usedsubstreamid ≠ some id := by
  have hp : PauseSelectOnSubstream id st =
      { st with globalfdinfo :=
          { st.globalfdinfo with fdset := FD_CLR sock st.globalfdinfo.fdset } } := by
    unfold PauseSelectOnSubstream
    simp only [hid]
    rw [if_pos hsock]
  have hpflag : (PauseSelectOnSubstream id st).fReinit_fd = false := by
    rw [hp]
    exact hflag
  have hpset : (PauseSelectOnSubstream id st).globalfdinfo.fdset
      = FD_CLR sock st.globalfdinfo.fdset := by
    rw [hp]
  have hnot : sock ∉ (PauseSelectOnSubstream id st).globalfdinfo.fdset := by
    rw [hpset]
    exact fun h => (mem_FD_CLR.mp h).2 rfl
  have hoth : OthersRegistered st (PauseSelectOnSubstream id st).globalfdinfo.fdset id := by
    rw [hpset]
    exact hothers
  have hnone : (none : Option Int) ≠ some id := fun h => Option.noConfusion h
  unfold RecvRaw at hcall
  simp only at hcall
  split_ifs at hcall with h1 h2 h3
  · simp only [Option.some.injEq] at hcall
    subst hcall
    exact ⟨Avoids_nil sock, hnone⟩
  · simp only [Option.some.injEq] at hcall
    subst hcall
    exact ⟨Avoids_nil sock, hnone⟩
  · have h := loop_sat c w length (w.time 0)
      (fun st1 L1 => SameRegistry st st1 ∧ st1.fReinit_fd = false ∧
        st1.globalfdinfo = (PauseSelectOnSubstream id st).globalfdinfo ∧
        (L1.substreamid ≠ -1 →
          GetSock st L1.substreamid ∈ (PauseSelectOnSubstream id st).globalfdinfo.fdset) ∧
        L1.usedsubstreamid ≠ some id ∧ Avoids sock L1.trace)
      (fun out => out.usedsubstreamid ≠ some id ∧ Avoids sock out.trace)
      (fun st1 L1 hP => body_avoids c w length (w.time 0) st
        (PauseSelectOnSubstream id st).globalfdinfo sock id hnot
        hoth st1 L1 hP.1 hP.2.1 hP.2.2.1 hP.2.2.2.1 hP.2.2.2.2.1 hP.2.2.2.2.2)
      fuel (PauseSelectOnSubstream id st) _
      ⟨PauseSelectOnSubstream_sameRegistry id st, hpflag, rfl, fun h => absurd rfl h, hnone,
        Avoids_nil sock⟩
      out hcall
    exact ⟨h.2, h.1⟩
  · simp only [Option.some.injEq] at hcall
    subst hcall
    exact ⟨Avoids_nil sock, hnone⟩

/-- On a pool with a consistent registry whose global descriptor set holds
only registered descriptors, every descriptor of the set other than the
handle of `id` is the handle of a substream other than `id`. -/
theorem OthersRegistered_of_regInv {st : PSock} (hinv : RegInv st) {id sock : Int}
    (hid : Find st.fSocketPool id = some sock)
    (hcur : ∀ fd ∈ st.globalfdinfo.fdset, ∃ k, Find st.fSocketPool k = some fd) :
    OthersRegistered st (FD_CLR sock st.globalfdinfo.fdset) id := by
  intro fd hfd
  obtain ⟨hmem, hne⟩ := mem_FD_CLR.mp hfd
  obtain ⟨k, hk⟩ := hcur fd hmem
  have hback := hinv.back k fd hk
  have h1 : GetSockId st fd = k := by simp [GetSockId, hback]
  rw [h1]
  refine ⟨by simp [GetSock, hk], ?_⟩
  intro hkid
  rw [hkid, hid] at hk
  exact hne (Option.some.inj hk).symm

/-- C12 as amended, at a concrete call: on the pool with substreams 1 and 2
whose descriptor set is built, substream 2 (descriptor 5) is paused; with
data waiting on descriptors 4 and 5 the call waits on 3 and 4, reads from 4
and reports substream 1. -/
theorem C12_pause_witness :
    RecvRaw sampleConsts envTwoReads45 10 (-1) 5 (PauseSelectOnSubstream 2 poolTwoUsed)
        = some outPaused ∧
      Avoids 5 outPaused.trace ∧ outPaused.usedsubstreamid ≠ some 2 :=
  have h := C12_pause sampleConsts envTwoReads45 10 5 poolTwoUsed outPaused 2 5
    (by decide) (by decide) (by decide) (by unfold OthersRegistered; decide) (by decide)
  ⟨by decide, h.1, h.2⟩

/-! ### The arithmetic of `int` in `GetSockIdHint` -/

/-- An exact result within the range of `int` is not changed by the wrap. -/
theorem wrap32_id {x : Int} (h0 : -2147483648 ≤ x) (h1 : x ≤ 2147483647) : wrap32 x = x := by
  unfold wrap32
  omega

/-- The operator `%` on a dividend that is not negative and a positive
divisor. -/
theorem cMod_pos {a b : Int} (ha : 0 ≤ a) (hb : 0 < b) : cMod a b = some (a % b) := by
  unfold cMod
  rw [if_neg (by omega), Int.tmod_eq_emod ha (le_of_lt hb)]

/-- The operator `/` on a dividend that is not negative and a positive
divisor. -/
theorem cDiv_pos {a b : Int} (ha : 0 ≤ a) (hb : 0 < b) : cDiv a b = some (a / b) := by
  unfold cDiv
  rw [if_neg (by omega), Int.tdiv_eq_ediv ha (le_of_lt hb)]

/-- One call of `GetSockIdHint` on an empty list. -/
theorem GetSockIdHint_empty (r : Int) (st : PSock) (hr : 1 ≤ r)
    (he : st.fSocketIdRepo = []) :
    GetSockIdHint r st = some (1, { st with lastsidhint := 0 }) := by
  unfold GetSockIdHint
  have hlen : ¬ ((st.fSocketIdRepo.length : Int) > 0) := by
    rw [he]
    decide
  rw [if_neg hlen, cDiv_pos (le_refl 0) (by omega)]
  simp only [Int.zero_ediv]
  rfl

/-- One call of `GetSockIdHint` on a list that is not empty, when neither the
increment nor the product leaves the range of `int`: the counter advances
modulo the product and the ordinal is the new counter divided by
`reqsperstream`, plus one. -/
theorem GetSockIdHint_fit (r : Int) (st : PSock) (hr : 1 ≤ r)
    (hfit : (st.fSocketIdRepo.length : Int) * r ≤ INT_MAX)
    (h0 : -1 ≤ st.lastsidhint) (h1 : st.lastsidhint < INT_MAX)
    (hpos : (st.fSocketIdRepo.length : Int) > 0) :
    GetSockIdHint r st =
      some ((st.lastsidhint + 1) % ((st.fSocketIdRepo.length : Int) * r) / r + 1,
        { st with lastsidhint :=
            (st.lastsidhint + 1) % ((st.fSocketIdRepo.length : Int) * r) }) := by
  unfold INT_MAX at hfit h1
  have hm : 0 < (st.fSocketIdRepo.length : Int) * r := Int.mul_pos hpos (by omega)
  have hlo : 0 ≤ (st.lastsidhint + 1) % ((st.fSocketIdRepo.length : Int) * r) :=
    Int.emod_nonneg _ (ne_of_gt hm)
  have hhi : (st.lastsidhint + 1) % ((st.fSocketIdRepo.length : Int) * r)
      < (st.fSocketIdRepo.length : Int) * r := Int.emod_lt_of_pos _ hm
  have hq0 : 0 ≤ (st.lastsidhint + 1) % ((st.fSocketIdRepo.length : Int) * r) / r :=
    Int.ediv_nonneg hlo (by omega)
  have hq1 : (st.lastsidhint + 1) % ((st.fSocketIdRepo.length : Int) * r) / r
      ≤ (st.lastsidhint + 1) % ((st.fSocketIdRepo.length : Int) * r) :=
    Int.ediv_le_self _ hlo
  have hcall := GetSockIdHint_eq r st
    ((st.lastsidhint + 1) % ((st.fSocketIdRepo.length : Int) * r))
    ((st.lastsidhint + 1) % ((st.fSocketIdRepo.length : Int) * r) / r) hpos
    (by rw [wrap32_id (by omega) (by omega), wrap32_id (by omega) (by omega),
          cMod_pos (by omega) hm])
    (cDiv_pos hlo (by omega))
  rw [hcall, wrap32_id (by omega) (by omega)]

/-- An operation that fits leaves the hint counter between 0 and
`INT_MAX - 1`. -/
theorem counter_run (c : Consts) (op : Op) {st st1 : PSock}
    (h : 0 ≤ st.lastsidhint ∧ st.lastsidhint < INT_MAX) (hfits : op.fits st)
    (hrun : op.run c st = some st1) :
    0 ≤ st1.lastsidhint ∧ st1.lastsidhint < INT_MAX := by
  cases op with
  | connectPrimary s =>
    simp only [Op.run, Option.some.injEq] at hrun
    subst hrun
    unfold TryConnect TryConnect_low
    split_ifs <;> exact h
  | connectParallel s =>
    simp only [Op.run, Option.some.injEq] at hrun
    subst hrun
    unfold TryConnectParallelSock TryConnect_low
    split_ifs <;> exact h
  | establish id =>
    simp only [Op.run, Option.some.injEq] at hrun
    subst hrun
    unfold EstablishParallelSock
    simp only
    split_ifs <;> exact h
  | remove id =>
    simp only [Op.run, Option.some.injEq] at hrun
    subst hrun
    exact h
  | disconnect =>
    simp only [Op.run, Option.some.injEq] at hrun
    subst hrun
    exact h
  | hint r =>
    simp only [Op.run, Option.map_eq_some'] at hrun
    obtain ⟨res, hcall, hst⟩ := hrun
    subst hst
    obtain ⟨hr, hfit⟩ := hfits
    by_cases hpos : (st.fSocketIdRepo.length : Int) > 0
    · rw [GetSockIdHint_fit r st hr hfit (le_trans (by decide) h.1) h.2 hpos,
        Option.some.injEq] at hcall
      subst hcall
      have hm : 0 < (st.fSocketIdRepo.length : Int) * r := Int.mul_pos hpos (by omega)
      have hlo := Int.emod_nonneg (st.lastsidhint + 1) (ne_of_gt hm)
      have hhi := Int.emod_lt_of_pos (st.lastsidhint + 1) hm
      refine ⟨hlo, ?_⟩
      show (st.lastsidhint + 1) % ((st.fSocketIdRepo.length : Int) * r) < INT_MAX
      omega
    · have he : st.fSocketIdRepo = [] := by
        cases hl : st.fSocketIdRepo with
        | nil => rfl
        | cons a l =>
          rw [hl] at hpos
          simp only [List.length_cons] at hpos
          omega
      rw [GetSockIdHint_empty r st hr he, Option.some.injEq] at hcall
      subst hcall
      exact ⟨le_refl _, show (0 : Int) < INT_MAX by decide⟩
  | pause id =>
    simp only [Op.run, Option.some.injEq] at hrun
    subst hrun
    unfold PauseSelectOnSubstream
    simp only
    split_ifs <;> exact h
  | restart id =>
    simp only [Op.run, Option.some.injEq] at hrun
    subst hrun
    unfold RestartSelectOnSubstream
    simp only
    split_ifs <;> exact h
  | recv w length substreamid fuel =>
    simp only [Op.run, Option.map_eq_some'] at hrun
    obtain ⟨out, hcall, hst⟩ := hrun
    subst hst
    rw [RecvRaw_lastsidhint c w length substreamid fuel st out hcall]
    exact h

/-- In every pool reached by operations that fit, the hint counter lies
between 0 and `INT_MAX - 1`. -/
theorem counter_of_reachableFit (c : Consts) {st : PSock} (h : ReachableFit c st) :
    0 ≤ st.lastsidhint ∧ st.lastsidhint < INT_MAX := by
  induction h with
  | fresh g w => exact ⟨le_refl _, show (0 : Int) < INT_MAX by decide⟩
  | step op _ _ hfits hrun ih => exact counter_run c op ih hfits hrun

/-- The pool with substreams 1 and 2 is reached by operations that fit. -/
theorem reachableFit_poolTwo : ReachableFit sampleConsts poolTwo :=
  ReachableFit.step (Op.establish 2)
    (ReachableFit.step (Op.connectParallel 5)
      (ReachableFit.step (Op.establish 1)
        (ReachableFit.step (Op.connectParallel 4)
          (ReachableFit.step (Op.connectPrimary 3) (ReachableFit.fresh _ _)
            (show (3 : Int) < 0 ∨ (3 : Int) ∉ freshPool.sys.openFds from Or.inr (by decide))
            trivial rfl)
          (show (4 : Int) < 0 ∨ (4 : Int) ∉ (TryConnect 3 freshPool).sys.openFds from
            Or.inr (by decide)) trivial rfl)
        trivial trivial rfl)
      (show (5 : Int) < 0 ∨ (5 : Int) ∉ (EstablishParallelSock sampleConsts 1
        (TryConnectParallelSock sampleConsts 4 (TryConnect 3 freshPool)).2).2.sys.openFds from
        Or.inr (by decide)) trivial rfl)
    trivial trivial rfl

/-- The pool with substreams 1, 2 and 3 is reachable. -/
theorem reachable_poolThree : Reachable sampleConsts poolThree :=
  Reachable.step (Op.establish 3)
    (Reachable.step (Op.connectParallel 6) reachable_poolTwo
      (show (6 : Int) < 0 ∨ (6 : Int) ∉ poolTwo.sys.openFds from Or.inr (by decide)) rfl)
    trivial rfl

/-- The pool with substreams 1, 2, 3 and 4 is reachable. -/
theorem reachable_poolFour : Reachable sampleConsts poolFour :=
  Reachable.step (Op.establish 4)
    (Reachable.step (Op.connectParallel 7) reachable_poolThree
      (show (7 : Int) < 0 ∨ (7 : Int) ∉ poolThree.sys.openFds from Or.inr (by decide)) rfl)
    trivial rfl

/-- A run of consecutive calls of `GetSockIdHint` that all return leads from a
reachable pool to a reachable pool. -/
theorem reachable_hintState (c : Consts) (r : Int) (k : Nat) :
    ∀ (st st1 : PSock), Reachable c st → hintState r k st = some st1 → Reachable c st1 := by
  induction k with
  | zero =>
    intro st st1 hreach h
    simp only [hintState, Option.some.injEq] at h
    subst h
    exact hreach
  | succ k ih =>
    intro st st1 hreach h
    cases hc : GetSockIdHint r st with
    | none =>
      simp only [hintState, hc] at h
      exact Option.noConfusion h
    | some res =>
      simp only [hintState, hc] at h
      exact ih res.2 st1
        (Reachable.step (Op.hint r) hreach trivial (by simp only [Op.run, hc, Option.map_some']))
        h

/-- With two ids in the ordered list and `reqsperstream = 2^30` the product
wraps to `INT_MIN`, and a call just adds one to the counter. -/
theorem GetSockIdHint_countUp (st : PSock) (hlen : st.fSocketIdRepo.length = 2)
    (h0 : 0 ≤ st.lastsidhint) (h1 : st.lastsidhint < 2147483647) :
    ∃ o, GetSockIdHint 1073741824 st = some (o, { st with lastsidhint := st.lastsidhint + 1 }) := by
  have hw : wrap32 (((2 : Nat) : Int) * 1073741824) = -2147483648 := by decide
  refine ⟨_, GetSockIdHint_eq 1073741824 st (st.lastsidhint + 1)
    (Int.tdiv (st.lastsidhint + 1) 1073741824) (by rw [hlen]; decide) ?_ ?_⟩
  · rw [hlen, hw, wrap32_id (by omega) (by omega)]
    unfold cMod INT_MIN
    rw [if_neg (by omega), Int.tmod_neg, Int.tmod_eq_of_lt (by omega) (by omega)]
  · unfold cDiv
    rw [if_neg (by omega)]

/-- With two ids in the ordered list, `k` calls `GetSockIdHint(2^30)` add `k`
to the counter, up to `INT_MAX`. -/
theorem hintState_countUp (k : Nat) :
    ∀ (a : Int) (st : PSock), st.fSocketIdRepo.length = 2 → st.lastsidhint = a → 0 ≤ a →
      a + k ≤ 2147483647 →
      hintState 1073741824 k st = some { st with lastsidhint := a + k } := by
  induction k with
  | zero =>
    intro a st _ ha _ _
    subst ha
    simp [hintState]
  | succ k ih =>
    intro a st hlen ha h0 hk
    obtain ⟨o, ho⟩ := GetSockIdHint_countUp st hlen (by omega) (by omega)
    simp only [hintState, ho]
    have hnext := ih (a + 1) { st with lastsidhint := st.lastsidhint + 1 } hlen
      (show st.lastsidhint + 1 = a + 1 by rw [ha]) (by omega) (by push_cast at hk; omega)
    rw [hnext]
    have : a + 1 + (k : Int) = a + ((k + 1 : Nat) : Int) := by
      push_cast
      ring
    rw [this]

/-- After 2147483647 calls `GetSockIdHint(1073741824)` on the pool with
substreams 1 and 2 the hint counter holds `INT_MAX`. -/
theorem hintState_poolCounterMax :
    hintState 1073741824 2147483647 poolTwo = some poolCounterMax :=
  hintState_countUp 2147483647 0 poolTwo (by decide) (by decide) (by decide) (by decide)

/-- The pool in which the hint counter holds `INT_MAX` is reachable. -/
theorem reachable_poolCounterMax : Reachable sampleConsts poolCounterMax :=
  reachable_hintState sampleConsts 1073741824 2147483647 poolTwo poolCounterMax
    reachable_poolTwo hintState_poolCounterMax

/-- The pool in which the hint counter holds `-2` is reachable. -/
theorem reachable_poolCounterNeg : Reachable sampleConsts poolCounterNeg :=
  Reachable.step (Op.hint 3) reachable_poolCounterMax trivial (by decide)

/-! ### C14: the range of the hint -/

/-- C14 fails as stated. (a) On the reachable pool with four substreams and a
counter of 0, `GetSockIdHint(1073741824)` does not return: the `int` product
`4 * 2^30` is 0 and `%` traps. (b) After 2147483647 calls
`GetSockIdHint(1073741824)` on the pool with two substreams the counter holds
`INT_MAX`, and a call `GetSockIdHint(3)` then stores `-2`, outside `0..5`.
(c) From there a further call `GetSockIdHint(3)` stores `-1`. -/
theorem C14_hint_range_counterexample :
    (Reachable sampleConsts poolFour ∧ poolFour.fSocketIdRepo = [1, 2, 3, 4] ∧
        poolFour.lastsidhint = 0 ∧ GetSockIdHint 1073741824 poolFour = none) ∧
      (hintState 1073741824 2147483647 poolTwo = some poolCounterMax ∧
        Reachable sampleConsts poolCounterMax ∧ poolCounterMax.fSocketIdRepo = [1, 2] ∧
        GetSockIdHint 3 poolCounterMax = some (1, poolCounterNeg)) ∧
      (Reachable sampleConsts poolCounterNeg ∧ poolCounterNeg.lastsidhint = -2 ∧
        GetSockIdHint 3 poolCounterNeg = some (1, { poolTwo with lastsidhint := -1 })) := by
  exact ⟨⟨reachable_poolFour, by decide, by decide, by decide⟩,
    ⟨hintState_poolCounterMax, reachable_poolCounterMax, by decide, by decide⟩,
    ⟨reachable_poolCounterNeg, by decide, by decide⟩⟩

/-- C14 as amended: for every `reqsperstream >= 1` whose product with the
number `n` of ids in the ordered list does not exceed `INT_MAX`, and every
prior value of the hint counter from `-1` to `INT_MAX - 1`, `GetSockIdHint`
returns; if the ordered list is empty it returns 1; if the list holds
`n >= 1` ids, the returned ordinal lies in `1..n` and the stored counter lies
in `0..n*reqsperstream-1`; the stored counter lies again between 0 and
`INT_MAX - 1`, and nothing but the counter changes. -/
theorem C14_hint_range (r : Int) (st : PSock) (hr : 1 ≤ r)
    (hfit : (st.fSocketIdRepo.length : Int) * r ≤ INT_MAX)
    (h0 : -1 ≤ st.lastsidhint) (h1 : st.lastsidhint < INT_MAX) :
    ∃ o st1, GetSockIdHint r st = some (o, st1) ∧
      (st.fSocketIdRepo = [] → o = 1) ∧
      (∀ n : Int, n = st.fSocketIdRepo.length → 1 ≤ n →
        1 ≤ o ∧ o ≤ n ∧ 0 ≤ st1.lastsidhint ∧ st1.lastsidhint ≤ n * r - 1) ∧
      (0 ≤ st1.lastsidhint ∧ st1.lastsidhint < INT_MAX) ∧
      st1 = { st with lastsidhint := st1.lastsidhint } := by
  by_cases hpos : (st.fSocketIdRepo.length : Int) > 0
  · have hm : 0 < (st.fSocketIdRepo.length : Int) * r := Int.mul_pos hpos (by omega)
    have hlo := Int.emod_nonneg (st.lastsidhint + 1) (ne_of_gt hm)
    have hhi := Int.emod_lt_of_pos (st.lastsidhint + 1) hm
    have hq0 : 0 ≤ (st.lastsidhint + 1) % ((st.fSocketIdRepo.length : Int) * r) / r :=
      Int.ediv_nonneg hlo (by omega)
    have hq1 : (st.lastsidhint + 1) % ((st.fSocketIdRepo.length : Int) * r) / r
        < (st.fSocketIdRepo.length : Int) :=
      Int.ediv_lt_of_lt_mul (by omega) hhi
    refine ⟨_, _, GetSockIdHint_fit r st hr hfit h0 h1 hpos, ?_, ?_, ?_, rfl⟩
    · intro he
      rw [he] at hpos
      exact absurd hpos (by decide)
    · intro n hn _
      subst hn
      exact ⟨by omega, by omega, hlo, by
        show (st.lastsidhint + 1) % ((st.fSocketIdRepo.length : Int) * r) ≤ _
        omega⟩
    · refine ⟨hlo, ?_⟩
      show (st.lastsidhint + 1) % ((st.fSocketIdRepo.length : Int) * r) < INT_MAX
      omega
  · have he : st.fSocketIdRepo = [] := by
      cases hl : st.fSocketIdRepo with
      | nil => rfl
      | cons a l =>
        rw [hl] at hpos
        simp only [List.length_cons] at hpos
        omega
    refine ⟨_, _, GetSockIdHint_empty r st hr he, fun _ => rfl, ?_, ?_, rfl⟩
    · intro n hn hn1
      rw [he] at hn
      simp only [List.length_nil] at hn
      omega
    · exact ⟨le_refl _, show (0 : Int) < INT_MAX by decide⟩

/-- C14 as amended, on the pool with substreams 1 and 2, which is reached by
operations that fit and whose counter is 0: `GetSockIdHint(2)` returns an
ordinal between 1 and 2 and stores a counter between 0 and 3. -/
theorem C14_hint_range_witness :
    (1 : Int) ≤ 2 ∧ (poolTwo.fSocketIdRepo.length : Int) * 2 ≤ INT_MAX ∧
      -1 ≤ poolTwo.lastsidhint ∧ poolTwo.lastsidhint < INT_MAX ∧
      ∃ o st1, GetSockIdHint 2 poolTwo = some (o, st1) ∧
        (1 ≤ o ∧ o ≤ 2 ∧ 0 ≤ st1.lastsidhint ∧ st1.lastsidhint ≤ 2 * 2 - 1) :=
  have hc := counter_of_reachableFit sampleConsts reachableFit_poolTwo
  have h := C14_hint_range 2 poolTwo (by decide) (by decide)
    (le_trans (by decide) hc.1) hc.2
  ⟨by decide, by decide, le_trans (by decide) hc.1, hc.2,
    h.elim fun o h1 => h1.elim fun st1 h2 =>
      ⟨o, st1, h2.1, h2.2.2.1 2 (by decide) (by decide)⟩⟩

/-! ### C16: the rotation of the hint -/

/-- The ordinal returned by call number `j + 1`, in closed form, when neither
the increment nor the product leaves the range of `int`. -/
theorem hintAt_closed (r : Int) (j : Nat) :
    ∀ st : PSock, 1 ≤ r → (st.fSocketIdRepo.length : Int) * r ≤ INT_MAX →
      (st.fSocketIdRepo.length : Int) > 0 → -1 ≤ st.lastsidhint → st.lastsidhint < INT_MAX →
      hintAt r st j
        = some ((st.lastsidhint + 1 + (j : Int)) % ((st.fSocketIdRepo.length : Int) * r) / r
            + 1) := by
  induction j with
  | zero =>
    intro st hr hfit hpos h0 h1
    simp only [hintAt, hintState, GetSockIdHint_fit r st hr hfit h0 h1 hpos, Option.map_some',
      Nat.cast_zero, add_zero]
  | succ j ih =>
    intro st hr hfit hpos h0 h1
    have hstep := GetSockIdHint_fit r st hr hfit h0 h1 hpos
    have hm : 0 < (st.fSocketIdRepo.length : Int) * r := Int.mul_pos hpos (by omega)
    have hlo := Int.emod_nonneg (st.lastsidhint + 1) (ne_of_gt hm)
    have hhi := Int.emod_lt_of_pos (st.lastsidhint + 1) hm
    have hnext : hintAt r st (j + 1)
        = hintAt r { st with lastsidhint :=
            (st.lastsidhint + 1) % ((st.fSocketIdRepo.length : Int) * r) } j := by
      simp only [hintAt, hintState, hstep]
    have hih := ih { st with lastsidhint :=
        (st.lastsidhint + 1) % ((st.fSocketIdRepo.length : Int) * r) } hr hfit hpos
      (show -1 ≤ (st.lastsidhint + 1) % ((st.fSocketIdRepo.length : Int) * r) by omega)
      (show (st.lastsidhint + 1) % ((st.fSocketIdRepo.length : Int) * r) < INT_MAX by omega)
    rw [hnext, hih]
    have harith : ((st.lastsidhint + 1) % ((st.fSocketIdRepo.length : Int) * r) + 1 + (j : Int))
          % ((st.fSocketIdRepo.length : Int) * r)
        = (st.lastsidhint + 1 + ((j + 1 : Nat) : Int)) % ((st.fSocketIdRepo.length : Int) * r) := by
      rw [add_assoc, Int.emod_add_emod]
      congr 1
      push_cast
      ring
    show some ((((st.lastsidhint + 1) % ((st.fSocketIdRepo.length : Int) * r) + 1 + (j : Int))
          % ((st.fSocketIdRepo.length : Int) * r)) / r + 1) = _
    rw [harith]

/-- The closed form of the ordinal, read over the natural numbers. -/
theorem closed_eq_ordinalAfter (n r : Nat) (c0 : Int) (j : Nat) (hm : 0 < n * r)
    (h0 : -1 ≤ c0) :
    (c0 + 1 + (j : Int)) % ((n : Int) * (r : Int)) / (r : Int) + 1
      = ((ordinalAfter n r (c0 + ((n * r : Nat) : Int)).toNat j : Nat) : Int) := by
  have hm2 : (0 : Int) < ((n * r : Nat) : Int) := by exact_mod_cast hm
  have ha : (((c0 + ((n * r : Nat) : Int)).toNat : Nat) : Int) = c0 + ((n * r : Nat) : Int) :=
    Int.toNat_of_nonneg (by omega)
  unfold ordinalAfter
  rw [Nat.cast_add, Nat.cast_one, Int.natCast_div, Int.natCast_mod, Nat.cast_add, Nat.cast_one,
    Nat.cast_add, ha, Nat.cast_mul]
  have : c0 + (n : Int) * (r : Int) + (j : Int) + 1
      = (c0 + 1 + (j : Int)) + (n : Int) * (r : Int) := by ring
  rw [this, Int.add_emod_self]

/-- The list of the first `k` hints, in closed form. -/
theorem hints_closed (r : Int) (k : Nat) :
    ∀ st : PSock, 1 ≤ r → (st.fSocketIdRepo.length : Int) * r ≤ INT_MAX →
      (st.fSocketIdRepo.length : Int) > 0 → -1 ≤ st.lastsidhint → st.lastsidhint < INT_MAX →
      hints r k st = (List.range k).map (fun (j : Nat) =>
        (st.lastsidhint + 1 + (j : Int)) % ((st.fSocketIdRepo.length : Int) * r) / r + 1) := by
  induction k with
  | zero =>
    intro st _ _ _ _ _
    rfl
  | succ k ih =>
    intro st hr hfit hpos h0 h1
    have hstep := GetSockIdHint_fit r st hr hfit h0 h1 hpos
    have hm : 0 < (st.fSocketIdRepo.length : Int) * r := Int.mul_pos hpos (by omega)
    have hlo := Int.emod_nonneg (st.lastsidhint + 1) (ne_of_gt hm)
    have hhi := Int.emod_lt_of_pos (st.lastsidhint + 1) hm
    have hnext := ih { st with lastsidhint :=
        (st.lastsidhint + 1) % ((st.fSocketIdRepo.length : Int) * r) } hr hfit hpos
      (show -1 ≤ (st.lastsidhint + 1) % ((st.fSocketIdRepo.length : Int) * r) by omega)
      (show (st.lastsidhint + 1) % ((st.fSocketIdRepo.length : Int) * r) < INT_MAX by omega)
    simp only [hints, hstep]
    rw [hnext, List.range_succ_eq_map, List.map_cons, List.map_map]
    simp only [Nat.cast_zero, add_zero, List.cons.injEq, true_and]
    apply List.map_congr_left
    intro j _
    simp only [Function.comp]
    have harith : ((st.lastsidhint + 1) % ((st.fSocketIdRepo.length : Int) * r) + 1 + (j : Int))
          % ((st.fSocketIdRepo.length : Int) * r)
        = (st.lastsidhint + 1 + ((j + 1 : Nat) : Int)) % ((st.fSocketIdRepo.length : Int) * r) := by
      rw [add_assoc, Int.emod_add_emod]
      congr 1
      push_cast
      ring
    rw [harith]

/-- With three ids in the ordered list and `reqsperstream = 2^30` the product
wraps to `-2^30`: the counter advances modulo `2^30` and every call returns
the ordinal 1. -/
theorem GetSockIdHint_stuck (st : PSock) (hlen : st.fSocketIdRepo.length = 3)
    (h0 : 0 ≤ st.lastsidhint) (h1 : st.lastsidhint < 1073741824) :
    GetSockIdHint 1073741824 st
      = some (1, { st with lastsidhint := (st.lastsidhint + 1) % 1073741824 }) := by
  have hw : wrap32 (((3 : Nat) : Int) * 1073741824) = -1073741824 := by decide
  have hcall := GetSockIdHint_eq 1073741824 st ((st.lastsidhint + 1) % 1073741824) 0
    (by rw [hlen]; decide)
    (by
      rw [hlen, hw, wrap32_id (by omega) (by omega)]
      unfold cMod INT_MIN
      rw [if_neg (by omega), Int.tmod_neg, Int.tmod_eq_emod (by omega) (by omega)])
    (by
      unfold cDiv INT_MIN
      rw [if_neg (by omega), Int.tdiv_eq_ediv (by omega) (by omega)]
      congr 1
      omega)
  rw [hcall]
  rfl

/-- With three ids in the ordered list and `reqsperstream = 2^30`, every call
of a run that starts with a counter between 0 and `2^30 - 1` returns the
ordinal 1. -/
theorem hintAt_stuck (j : Nat) :
    ∀ st : PSock, st.fSocketIdRepo.length = 3 → 0 ≤ st.lastsidhint →
      st.lastsidhint < 1073741824 → hintAt 1073741824 st j = some 1 := by
  induction j with
  | zero =>
    intro st hlen h0 h1
    simp only [hintAt, hintState, GetSockIdHint_stuck st hlen h0 h1, Option.map_some']
  | succ j ih =>
    intro st hlen h0 h1
    have hstep := GetSockIdHint_stuck st hlen h0 h1
    have hnext : hintAt 1073741824 st (j + 1)
        = hintAt 1073741824 { st with lastsidhint := (st.lastsidhint + 1) % 1073741824 } j := by
      simp only [hintAt, hintState, hstep]
    rw [hnext]
    exact ih { st with lastsidhint := (st.lastsidhint + 1) % 1073741824 } hlen
      (show 0 ≤ (st.lastsidhint + 1) % 1073741824 by omega)
      (show (st.lastsidhint + 1) % 1073741824 < 1073741824 by omega)

/-- C16 fails as stated. (a) On the reachable pool with three substreams and a
counter of 0, with `reqsperstream = 1073741824` the `int` product `3 * 2^30`
is `-2^30`: no call of the run ever returns the ordinal 2, so that it is
returned 0 times, not `2^30` times, within the first `3 * 2^30` calls. (b) On
the reachable pools with two substreams in which the counter holds `-2` and
`INT_MAX`, six calls `GetSockIdHint(3)` return the ordinal 1 four and five
times. -/
theorem C16_hint_rotation_counterexample :
    (Reachable sampleConsts poolThree ∧ poolThree.fSocketIdRepo = [1, 2, 3] ∧
        poolThree.lastsidhint = 0 ∧
        (¬ ∃ j, hintAt 1073741824 poolThree j = some 2) ∧
        ((Finset.range (3 * 1073741824)).filter
          (fun j => hintAt 1073741824 poolThree (0 + j) = some 2)).card = 0) ∧
      (Reachable sampleConsts poolCounterNeg ∧ poolCounterNeg.fSocketIdRepo = [1, 2] ∧
        hints 3 6 poolCounterNeg = [1, 1, 1, 1, 2, 2]) ∧
      (Reachable sampleConsts poolCounterMax ∧
        hints 3 6 poolCounterMax = [1, 1, 1, 1, 1, 2]) := by
  have hstuck : ∀ j, hintAt 1073741824 poolThree j = some 1 :=
    fun j => hintAt_stuck j poolThree (by decide) (by decide) (by decide)
  refine ⟨⟨reachable_poolThree, by decide, by decide, ?_, ?_⟩,
    ⟨reachable_poolCounterNeg, by decide, by decide⟩,
    ⟨reachable_poolCounterMax, by decide⟩⟩
  · rintro ⟨j, hj⟩
    rw [hstuck j] at hj
    exact absurd hj (by decide)
  · rw [Finset.card_eq_zero, Finset.filter_eq_empty_iff]
    intro j _ hj
    rw [hstuck] at hj
    exact absurd hj (by decide)

/-- C16 as amended: with a fixed ordered list of `n >= 1` substreams, a fixed
`r >= 1` whose product `n * r` does not exceed `INT_MAX`, and a hint counter
between `-1` and `INT_MAX - 1`, every call of a run of consecutive calls
`GetSockIdHint(r)` returns, and the ordinals returned are given by the counter
advanced modulo `n * r` and divided by `r`; they repeat with period `n * r`;
within any `n * r` consecutive calls each ordinal of `1..n` is returned
exactly `r` times; and from one call to the next the ordinal stays or moves to
its cyclic successor, so that the occurrences of an ordinal are consecutive. -/
theorem C16_hint_rotation (st : PSock) (n r : Nat)
    (hn : st.fSocketIdRepo.length = n) (hn0 : 0 < n) (hr : 1 ≤ r)
    (hfit : n * r ≤ 2147483647)
    (h0 : -1 ≤ st.lastsidhint) (h1 : st.lastsidhint < INT_MAX) :
    (∀ j : Nat, hintAt (r : Int) st j
        = some ((st.lastsidhint + 1 + (j : Int)) % ((n : Int) * (r : Int)) / (r : Int) + 1)) ∧
      (∀ j, hintAt (r : Int) st (j + n * r) = hintAt (r : Int) st j) ∧
      (∀ i q : Nat, 1 ≤ q → q ≤ n →
        ((Finset.range (n * r)).filter
          (fun j => hintAt (r : Int) st (i + j) = some (q : Int))).card = r) ∧
      (∀ j, ∃ x y : Int, hintAt (r : Int) st j = some x ∧ hintAt (r : Int) st (j + 1) = some y ∧
        (y = x ∨ y = x % (n : Int) + 1)) ∧
      (∀ k, hints (r : Int) k st = (List.range k).map (fun (j : Nat) =>
        (st.lastsidhint + 1 + (j : Int)) % ((n : Int) * (r : Int)) / (r : Int) + 1)) := by
  have hr2 : (1 : Int) ≤ (r : Int) := by exact_mod_cast hr
  have hpos : (st.fSocketIdRepo.length : Int) > 0 := by
    rw [hn]
    exact_mod_cast hn0
  have hfit2 : (st.fSocketIdRepo.length : Int) * (r : Int) ≤ INT_MAX := by
    rw [hn]
    unfold INT_MAX
    exact_mod_cast hfit
  have hm : 0 < n * r := Nat.mul_pos hn0 hr
  have hcl : ∀ j : Nat, hintAt (r : Int) st j
      = some ((st.lastsidhint + 1 + (j : Int)) % ((n : Int) * (r : Int)) / (r : Int) + 1) := by
    intro j
    have h := hintAt_closed (r : Int) j st hr2 hfit2 hpos h0 h1
    rw [hn] at h
    exact h
  have hnat : ∀ j : Nat, hintAt (r : Int) st j
      = some ((ordinalAfter n r (st.lastsidhint + ((n * r : Nat) : Int)).toNat j : Nat) : Int) :=
    fun j => by rw [hcl, closed_eq_ordinalAfter n r st.lastsidhint j hm h0]
  refine ⟨hcl, ?_, ?_, ?_, ?_⟩
  · intro j
    rw [hnat, hnat, ordinalAfter_periodic]
  · intro i q hq1 hqn
    refine Eq.trans ?_ (card_ordinalAfter_window n r
      (st.lastsidhint + ((n * r : Nat) : Int)).toNat i q hr hq1 hqn)
    congr 1
    ext j
    simp only [Finset.mem_filter, Finset.mem_range, hnat, Option.some.injEq]
    constructor
    · rintro ⟨h1, h2⟩
      exact ⟨h1, by exact_mod_cast h2⟩
    · rintro ⟨h1, h2⟩
      exact ⟨h1, by exact_mod_cast h2⟩
  · intro j
    refine ⟨_, _, hnat j, hnat (j + 1), ?_⟩
    rcases ordinalAfter_step n r (st.lastsidhint + ((n * r : Nat) : Int)).toNat j hn0 hr
      with h | h
    · left
      rw [h]
    · right
      rw [h]
      push_cast
      rfl
  · intro k
    have h := hints_closed (r : Int) k st hr2 hfit2 hpos h0 h1
    rw [hn] at h
    exact h

/-- C16 as amended, on the pool with substreams 1 and 2 and `r = 2`: the
fifth call returns what the first returned, the ordinal 1 is returned twice in
the first four calls, and the first six hints are 1, 2, 2, 1, 1, 2. -/
theorem C16_hint_rotation_witness :
    poolTwo.fSocketIdRepo.length = 2 ∧ (-1 : Int) ≤ poolTwo.lastsidhint ∧
      poolTwo.lastsidhint < INT_MAX ∧
      hintAt ((2 : Nat) : Int) poolTwo (0 + 2 * 2) = hintAt ((2 : Nat) : Int) poolTwo 0 ∧
      ((Finset.range (2 * 2)).filter
        (fun j => hintAt ((2 : Nat) : Int) poolTwo (0 + j) = some ((1 : Nat) : Int))).card = 2 ∧
      hints ((2 : Nat) : Int) 6 poolTwo = [1, 2, 2, 1, 1, 2] :=
  have h := C16_hint_rotation poolTwo 2 2 (by decide) (by decide) (by decide) (by decide)
    (by decide) (by decide)
  ⟨by decide, by decide, by decide, h.2.1 0, h.2.2.1 0 1 (by decide) (by decide),
    (h.2.2.2.2 6).trans (by decide)⟩

/-! ### The pass in which a call returns -/

/-- On a connected pool with a primary descriptor and for a positive length,
`RecvRaw` is its loop. -/
theorem RecvRaw_eq_loop (c : Consts) (w : Env) (length substreamid : Int) (fuel : Nat)
    (st : PSock) (hconn : st.fConnected = true) (hmain : ¬ GetMainSock st < 0)
    (hlen : 0 < length) :
    RecvRaw c w length substreamid fuel st
      = loop c w length (w.time 0) fuel st (startLocals substreamid) := by
  unfold RecvRaw
  simp only []
  rw [if_neg (by rw [hconn]; decide), if_neg hmain, if_pos hlen]
  rfl

/-- When the loop gets to pass number `k` and that pass returns, the loop
returns what the pass returns, as soon as it is given more than `k` passes. -/
theorem loop_of_passAt (c : Consts) (w : Env) (length starttime : Int) (k : Nat) :
    ∀ (st : PSock) (L : Locals) (st1 : PSock) (L1 : Locals) (out : RecvOut) (fuel : Nat),
      passAt c w length starttime k st L = some (st1, L1) →
      body c w length starttime st1 L1 = Step.done out → k < fuel →
      loop c w length starttime fuel st L = some out := by
  induction k with
  | zero =>
    intro st L st1 L1 out fuel harr hbody hfuel
    simp only [passAt, Option.some.injEq, Prod.mk.injEq] at harr
    obtain ⟨h1, h2⟩ := harr
    subst h1
    subst h2
    cases fuel with
    | zero => omega
    | succ f => simp only [loop, hbody]
  | succ k ih =>
    intro st L st1 L1 out fuel harr hbody hfuel
    cases fuel with
    | zero => omega
    | succ f =>
      cases hb : body c w length starttime st L with
      | done o =>
        simp only [passAt, hb] at harr
        exact Option.noConfusion harr
      | again st2 L2 =>
        simp only [passAt, hb] at harr
        simp only [loop, hb]
        exact ih st2 L2 st1 L1 out f harr hbody (by omega)

/-- A pass that goes round again leaves the registry as it is. -/
theorem body_again_sameRegistry (c : Consts) (w : Env) (length starttime : Int)
    (st : PSock) (L : Locals) (st1 : PSock) (L1 : Locals)
    (h : body c w length starttime st L = Step.again st1 L1) : SameRegistry st st1 := by
  have hsat := body_registry c w length starttime st st L (SameRegistry.refl st)
  rw [h] at hsat
  exact hsat

/-- The registry with which a pass begins is the one found at the call. -/
theorem passAt_sameRegistry (c : Consts) (w : Env) (length starttime : Int) (k : Nat) :
    ∀ (st : PSock) (L : Locals) (st1 : PSock) (L1 : Locals),
      passAt c w length starttime k st L = some (st1, L1) → SameRegistry st st1 := by
  induction k with
  | zero =>
    intro st L st1 L1 harr
    simp only [passAt, Option.some.injEq, Prod.mk.injEq] at harr
    rw [← harr.1]
    exact SameRegistry.refl st
  | succ k ih =>
    intro st L st1 L1 harr
    cases hb : body c w length starttime st L with
    | done o =>
      simp only [passAt, hb] at harr
      exact Option.noConfusion harr
    | again st2 L2 =>
      simp only [passAt, hb] at harr
      exact (body_again_sameRegistry c w length starttime st L st2 L2 hb).trans
        (ih st2 L2 st1 L1 harr)

/-- A pass whose substream, if it is pinned to one, has a descriptor is the
wait step on the local descriptor set. -/
theorem body_eq_waitStep (c : Consts) (w : Env) (length starttime : Int) (st : PSock)
    (L : Locals) (h : L.substreamid = -1 ∨ 0 ≤ GetSock (refreshed st) L.substreamid) :
    body c w length starttime st L
      = waitStep c w length starttime (refreshed st) L
          (localSet (refreshed st) L.substreamid) := by
  unfold body localSet
  simp only []
  by_cases hany : L.substreamid = -1
  · rw [if_pos hany, if_pos hany]
  · rw [if_neg hany, if_neg hany]
    rcases h with h | h
    · exact absurd h hany
    · rw [if_pos (ge_iff_le.mpr h)]

/-- A wait step that ends before the deadline, without a hard error and with
the interrupt flag set returns `TXSOCK_ERR_INTERRUPT` with the flag down. -/
theorem waitStep_interrupt (c : Consts) (w : Env) (length starttime : Int) (st : PSock)
    (L : Locals) (loc : fdinfo)
    (hdl : ¬ (w.time (L.nsel + 1) - starttime > w.requestTimeout))
    (herr : ¬ ((w.select L.nsel loc.fdset (loc.maxfd + 1)).selRet < 0 ∧
      (w.select L.nsel loc.fdset (loc.maxfd + 1)).eintr = false))
    (hflag : (raise (w.interrupt L.nsel) st).fRDInterrupt = true)
    (hmain : ¬ GetMainSock st < 0) :
    waitStep c w length starttime st L loc
      = leave c.TXSOCK_ERR_INTERRUPT
          { raise (w.interrupt L.nsel) st with fRDInterrupt := false } (noteWait L loc) := by
  have hmain2 : ¬ GetMainSock (raise (w.interrupt L.nsel) st) < 0 := by
    rw [(raise_sameRegistry _ st).getMainSock]
    exact hmain
  have hloop : ¬ ((w.select L.nsel loc.fdset (loc.maxfd + 1)).selRet ≤ 0 ∧
      (raise (w.interrupt L.nsel) st).fRDInterrupt = false) := by
    rw [hflag]
    exact fun h => Bool.noConfusion h.2
  unfold waitStep
  simp only []
  rw [if_neg hdl, if_neg herr, if_neg hloop]
  unfold afterWait
  rw [if_neg hmain2, if_pos hflag]

/-- A wait step that ends before the deadline with a positive result of
`select` and the interrupt flag down goes on to the read on the first ready
descriptor. -/
theorem waitStep_reads (c : Consts) (w : Env) (length starttime : Int) (st : PSock)
    (L : Locals) (loc : fdinfo) (ii : Int)
    (hdl : ¬ (w.time (L.nsel + 1) - starttime > w.requestTimeout))
    (hsel : 0 < (w.select L.nsel loc.fdset (loc.maxfd + 1)).selRet)
    (hflag : (raise (w.interrupt L.nsel) st).fRDInterrupt = false)
    (hmain : ¬ GetMainSock st < 0)
    (hscan : scan { loc with
      fdset := selected loc.fdset (loc.maxfd + 1)
        (w.select L.nsel loc.fdset (loc.maxfd + 1)).ready } = some ii) :
    waitStep c w length starttime st L loc
      = readStep c w length (raise (w.interrupt L.nsel) st) (noteWait L loc) ii := by
  have hmain2 : ¬ GetMainSock (raise (w.interrupt L.nsel) st) < 0 := by
    rw [(raise_sameRegistry _ st).getMainSock]
    exact hmain
  have herr : ¬ ((w.select L.nsel loc.fdset (loc.maxfd + 1)).selRet < 0 ∧
      (w.select L.nsel loc.fdset (loc.maxfd + 1)).eintr = false) := fun h => by omega
  have hloop : ¬ ((w.select L.nsel loc.fdset (loc.maxfd + 1)).selRet ≤ 0 ∧
      (raise (w.interrupt L.nsel) st).fRDInterrupt = false) := fun h => by omega
  have hflag2 : ¬ ((raise (w.interrupt L.nsel) st).fRDInterrupt = true) := by
    rw [hflag]
    decide
  unfold waitStep
  simp only []
  rw [if_neg hdl, if_neg herr, if_neg hloop]
  unfold afterWait
  rw [if_neg hmain2, if_neg hflag2, hscan]

/-- A failed read on a descriptor that maps to the primary id or to no id
returns `TXSOCK_ERR` and leaves the pool as it is. -/
theorem readStep_failed_fatal (c : Consts) (w : Env) (length : Int) (st : PSock) (L : Locals)
    (ii : Int) (hfail : ReadFails w length L ii)
    (hid : GetSockId st ii = 0 ∨ GetSockId st ii = -1) :
    readStep c w length st L ii
      = leave c.TXSOCK_ERR st
          (noteRead L ii (length - L.bytesread) (w.recv L.nrecv ii (length - L.bytesread))) := by
  unfold ReadFails at hfail
  unfold readStep
  simp only []
  rw [if_pos hfail, if_pos hid]

/-- A failed read on a descriptor that maps to an id other than the primary
one returns `TXSOCK_ERR_TIMEOUT` after the descriptor was cleared from the
global set and the id removed. -/
theorem readStep_failed_parallel (c : Consts) (w : Env) (length : Int) (st : PSock)
    (L : Locals) (ii : Int) (hfail : ReadFails w length L ii)
    (hid : ¬ (GetSockId st ii = 0 ∨ GetSockId st ii = -1)) :
    readStep c w length st L ii
      = leave c.TXSOCK_ERR_TIMEOUT
          (RemoveParallelSock (GetSockId st ii) (clearGlobal ii st)).2
          (noteRead L ii (length - L.bytesread) (w.recv L.nrecv ii (length - L.bytesread))) := by
  unfold ReadFails at hfail
  unfold readStep
  simp only []
  rw [if_pos hfail, if_neg hid]

/-- The pass that issues a read on `ii` is that read, made in the pool and
with the locals that the wait step leaves. -/
theorem body_eq_readStep (c : Consts) (w : Env) (length starttime : Int) (st : PSock)
    (L : Locals) (ii : Int) (hread : ReadsOn w starttime st L ii)
    (hmain : ¬ GetMainSock st < 0) :
    body c w length starttime st L
      = readStep c w length (raise (w.interrupt L.nsel) (refreshed st))
          (noteWait L (localSet (refreshed st) L.substreamid)) ii := by
  obtain ⟨⟨hsub, hdl, _⟩, hsel, hflag, hscan⟩ := hread
  rw [body_eq_waitStep c w length starttime st L hsub]
  exact waitStep_reads c w length starttime (refreshed st) L _ ii hdl hsel hflag
    (by rw [(refreshed_sameRegistry st).getMainSock]; exact hmain) hscan

/-- The pass whose wait step ends with the interrupt flag set returns
`TXSOCK_ERR_INTERRUPT`. -/
theorem body_eq_interrupt (c : Consts) (w : Env) (length starttime : Int) (st : PSock)
    (L : Locals) (hwait : WaitEnds w starttime st L) (hflag : flagAt w st L = true)
    (hmain : ¬ GetMainSock st < 0) :
    body c w length starttime st L
      = leave c.TXSOCK_ERR_INTERRUPT
          { raise (w.interrupt L.nsel) (refreshed st) with fRDInterrupt := false }
          (noteWait L (localSet (refreshed st) L.substreamid)) := by
  obtain ⟨hsub, hdl, herr⟩ := hwait
  rw [body_eq_waitStep c w length starttime st L hsub]
  exact waitStep_interrupt c w length starttime (refreshed st) L _ hdl herr hflag
    (by rw [(refreshed_sameRegistry st).getMainSock]; exact hmain)

/-! ### Reachable pools used as inputs -/

/-- The pool `poolOneUsed` is reachable: it is what a receive leaves of
`poolOne`. -/
theorem reachable_poolOneUsed : Reachable sampleConsts poolOneUsed :=
  Reachable.step (Op.recv (envReady [3]) 10 (-1) 5) reachable_poolOne trivial (by decide)

/-- The pool `poolStale` is reachable. -/
theorem reachable_poolStale : Reachable sampleConsts poolStale :=
  Reachable.step (Op.establish 1)
    (Reachable.step (Op.connectParallel 5) reachable_poolOneUsed
      (show (5 : Int) < 0 ∨ (5 : Int) ∉ poolOneUsed.sys.openFds from Or.inr (by decide)) rfl)
    trivial rfl

/-- The pool `poolMinusOne` is reachable. -/
theorem reachable_poolMinusOne : Reachable sampleConsts poolMinusOne :=
  Reachable.step (Op.establish (-1))
    (Reachable.step (Op.connectParallel 4) reachable_connected
      (show (4 : Int) < 0 ∨ (4 : Int) ∉ (TryConnect 3 freshPool).sys.openFds from
        Or.inr (by decide)) rfl)
    trivial rfl

/-! ### C2: the counterexample -/

/-- C10 fails as stated: on the reachable pool in which two parallel
connections were opened one after the other, descriptor 4 is open and has an
entry in the descriptor table, but no id maps to it; `Disconnect` closes
descriptor 5 only, and descriptor 4 is still open afterwards. -/
theorem C10_disconnect_counterexample :
    Reachable sampleConsts poolStagedTwice ∧
      Find poolStagedTwice.fSocketIdPool 4 = some sampleConsts.XRDCLI_PSOCKTEMP ∧
      (4 : Int) ∈ poolStagedTwice.sys.openFds ∧
      (Disconnect poolStagedTwice).sys.closeLog = [5] ∧
      (4 : Int) ∈ (Disconnect poolStagedTwice).sys.openFds ∧
      (Disconnect poolStagedTwice).fSocketIdPool = [] :=
  ⟨reachable_poolStagedTwice, by decide, by decide, by decide, by decide, by decide⟩

/-! ### C3: a parallel connection is dropped -/

/-- C3 fails as stated. (a) On the pool in which the id 1 was established
twice, the read on descriptor 5, the handle of substream 1, finds the
connection closed; the call returns the timeout code and removes the substream
from both tables, but the id 1 is still in the ordered list afterwards. (b) On
the reachable pool `poolStale`, where descriptor 4 maps to the id 1 and the id
1 maps to descriptor 5, the read on descriptor 4 finds the connection closed;
the call returns the timeout code, closes descriptor 5, and leaves descriptor
4 open and mapped to the id 1. (c) On the reachable pool in which descriptor 4
is established under the id `-1`, the read on descriptor 4 finds the
connection closed; the call returns `TXSOCK_ERR` and removes nothing. -/
theorem C3_dropped_parallel_counterexample :
    (RecvRaw sampleConsts envClosed5 10 (-1) 5 poolDup = some outDupClosed5 ∧
        Ev.read 5 10 0 false ∈ outDupClosed5.trace ∧
        GetSock poolDup 1 = 5 ∧ GetSockId poolDup 5 = 1 ∧
        outDupClosed5.ret = sampleConsts.TXSOCK_ERR_TIMEOUT ∧
        (1 : Int) ∈ outDupClosed5.st.fSocketIdRepo) ∧
      (Reachable sampleConsts poolStale ∧ GetSockId poolStale 4 = 1 ∧
        GetSock poolStale 1 = 5 ∧
        (RecvRaw sampleConsts envClosed4 10 (-1) 5 poolStale).map
            (fun out => (out.ret, out.trace, GetSockId out.st 4, out.st.sys.closeLog,
              out.st.sys.openFds))
          = some (sampleConsts.TXSOCK_ERR_TIMEOUT,
              [Ev.wait [3, 4] 5, Ev.read 4 10 0 false], 1, [5], [4, 3])) ∧
      (Reachable sampleConsts poolMinusOne ∧ GetSock poolMinusOne (-1) = 4 ∧
        GetSockId poolMinusOne 4 = -1 ∧
        (RecvRaw sampleConsts envClosed4 10 (-1) 5 poolMinusOne).map
            (fun out => (out.ret, out.trace, GetSock out.st (-1), out.st.fSocketIdRepo))
          = some (sampleConsts.TXSOCK_ERR,
              [Ev.wait [3, 4] 5, Ev.read 4 10 0 false], 4, [-1])) :=
  ⟨by decide, ⟨reachable_poolStale, by decide, by decide, by decide⟩,
    ⟨reachable_poolMinusOne, by decide, by decide, by decide⟩⟩

/-- C3 as amended: on a connected pool with the primary registered and for
`length > 0`, when a pass of a `RecvRaw` call issues a read on the first ready
descriptor `fd`, that read fails (`n <= 0`, `errno` not `EINTR`), and `fd` is
the handle of a substream `S` other than the primary (the registry maps `S`
to `fd` and `fd` back to `S`, and `S` is not `-1`), the call returns as soon
as it is given more passes than came before, its return value is
`TXSOCK_ERR_TIMEOUT` (which is not `TXSOCK_ERR` when the two codes differ);
afterwards `S` has no entry in the id table and `fd` none in the descriptor
table, `fd` is not in the global descriptor set, and the ordered list has lost
its first occurrence of `S`, so that `S` is gone from it when it was listed at
most once. -/
theorem C3_dropped_parallel (c : Consts) (w : Env) (length substreamid : Int)
    (k fuel : Nat) (st st1 : PSock) (L1 : Locals) (fd S : Int)
    (hconn : st.fConnected = true) (hmain : 0 ≤ GetMainSock st) (hlen : 0 < length)
    (harr : passAt c w length (w.time 0) k st (startLocals substreamid) = some (st1, L1))
    (hread : ReadsOn w (w.time 0) st1 L1 fd) (hfail : ReadFails w length L1 fd)
    (hS : HandleOf st S fd) (hS0 : S ≠ 0) (hfuel : k < fuel) :
    ∃ out, RecvRaw c w length substreamid fuel st = some out ∧
      out.ret = c.TXSOCK_ERR_TIMEOUT ∧
      (c.TXSOCK_ERR ≠ c.TXSOCK_ERR_TIMEOUT → out.ret ≠ c.TXSOCK_ERR) ∧
      Find out.st.fSocketPool S = none ∧ Find out.st.fSocketIdPool fd = none ∧
      fd ∉ out.st.globalfdinfo.fdset ∧
      out.st.fSocketIdRepo = st.fSocketIdRepo.erase S ∧
      (st.fSocketIdRepo.count S ≤ 1 → S ∉ out.st.fSocketIdRepo) := by
  have hmain0 : ¬ GetMainSock st < 0 := not_lt.mpr hmain
  have hreg1 := passAt_sameRegistry c w length (w.time 0) k st _ st1 L1 harr
  have hmain1 : ¬ GetMainSock st1 < 0 := by
    rw [hreg1.getMainSock]
    exact hmain0
  have hreg2 : SameRegistry st (raise (w.interrupt L1.nsel) (refreshed st1)) :=
    hreg1.trans ((refreshed_sameRegistry st1).trans (raise_sameRegistry _ _))
  have hid : ¬ (GetSockId (raise (w.interrupt L1.nsel) (refreshed st1)) fd = 0 ∨
      GetSockId (raise (w.interrupt L1.nsel) (refreshed st1)) fd = -1) := by
    rw [hreg2.getSockId, hS.2.1]
    exact fun h => h.elim hS0 hS.2.2
  have hbody := (body_eq_readStep c w length (w.time 0) st1 L1 fd hread hmain1).trans
    (readStep_failed_parallel c w length _
      (noteWait L1 (localSet (refreshed st1) L1.substreamid)) fd hfail hid)
  have hcall := (RecvRaw_eq_loop c w length substreamid fuel st hconn hmain0 hlen).trans
    (loop_of_passAt c w length (w.time 0) k st _ st1 L1 _ fuel harr hbody hfuel)
  have hev : Ev.read fd (length - L1.bytesread)
      (w.recv L1.nrecv fd (length - L1.bytesread)).n false
      ∈ (L1.trace ++ [Ev.wait (localSet (refreshed st1) L1.substreamid).fdset
            ((localSet (refreshed st1) L1.substreamid).maxfd + 1)])
          ++ [Ev.read fd (length - L1.bytesread)
            (w.recv L1.nrecv fd (length - L1.bytesread)).n
            (w.recv L1.nrecv fd (length - L1.bytesread)).eintr] := by
    rw [hfail.2]
    exact List.mem_append_right _ (List.mem_singleton.mpr rfl)
  exact ⟨_, hcall, RecvRaw_dropped_parallel c w length substreamid fuel st _ S fd _ _ hcall
    hev hfail.1 hS hS0⟩

/-- C3 as amended, at a concrete call: on the pool with substreams 1 and 2 the
first pass reads on descriptor 5, the handle of substream 2, and finds the
connection closed. -/
theorem C3_dropped_parallel_witness :
    ReadsOn envClosed5 (envClosed5.time 0) poolTwo (startLocals (-1)) 5 ∧
      ReadFails envClosed5 10 (startLocals (-1)) 5 ∧ HandleOf poolTwo 2 5 ∧
      (∃ out, RecvRaw sampleConsts envClosed5 10 (-1) 5 poolTwo = some out ∧
        out.ret = sampleConsts.TXSOCK_ERR_TIMEOUT ∧ (2 : Int) ∉ out.st.fSocketIdRepo) ∧
      RecvRaw sampleConsts envClosed5 10 (-1) 5 poolTwo = some outTwoClosed5 :=
  have hread : ReadsOn envClosed5 (envClosed5.time 0) poolTwo (startLocals (-1)) 5 := by
    unfold ReadsOn WaitEnds
    decide
  have hfail : ReadFails envClosed5 10 (startLocals (-1)) 5 := by
    unfold ReadFails
    decide
  have hS : HandleOf poolTwo 2 5 := ⟨by decide, by decide, by decide⟩
  have h := C3_dropped_parallel sampleConsts envClosed5 10 (-1) 0 5 poolTwo poolTwo
    (startLocals (-1)) 5 2 (by decide) (by decide) (by decide) rfl hread hfail hS
    (by decide) (by decide)
  ⟨hread, hfail, hS, h.elim fun out ho => ⟨out, ho.1, ho.2.1, ho.2.2.2.2.2.2.2 (by decide)⟩,
    by decide⟩

/-! ### C4: the primary connection is lost -/

/-- C4: on a connected pool with the primary registered and for `length > 0`,
when a pass of a `RecvRaw` call issues a read on the first ready descriptor
`fd`, that read fails (`n <= 0`, `errno` not `EINTR`), and the registry maps
`fd` to the primary id `0`, the call returns as soon as it is given more
passes than came before, its return value is `TXSOCK_ERR` (which is not the
timeout code when the two codes differ), and the two tables, the ordered list
and the open descriptors are those found at the call: nothing was
deregistered or closed. -/
theorem C4_primary_lost (c : Consts) (w : Env) (length substreamid : Int)
    (k fuel : Nat) (st st1 : PSock) (L1 : Locals) (fd : Int)
    (hconn : st.fConnected = true) (hmain : 0 ≤ GetMainSock st) (hlen : 0 < length)
    (harr : passAt c w length (w.time 0) k st (startLocals substreamid) = some (st1, L1))
    (hread : ReadsOn w (w.time 0) st1 L1 fd) (hfail : ReadFails w length L1 fd)
    (hprim : GetSockId st fd = 0) (hfuel : k < fuel) :
    ∃ out, RecvRaw c w length substreamid fuel st = some out ∧
      out.ret = c.TXSOCK_ERR ∧
      (c.TXSOCK_ERR ≠ c.TXSOCK_ERR_TIMEOUT → out.ret ≠ c.TXSOCK_ERR_TIMEOUT) ∧
      SameRegistry st out.st := by
  have hmain0 : ¬ GetMainSock st < 0 := not_lt.mpr hmain
  have hreg1 := passAt_sameRegistry c w length (w.time 0) k st _ st1 L1 harr
  have hmain1 : ¬ GetMainSock st1 < 0 := by
    rw [hreg1.getMainSock]
    exact hmain0
  have hreg2 : SameRegistry st (raise (w.interrupt L1.nsel) (refreshed st1)) :=
    hreg1.trans ((refreshed_sameRegistry st1).trans (raise_sameRegistry _ _))
  have hid : GetSockId (raise (w.interrupt L1.nsel) (refreshed st1)) fd = 0 ∨
      GetSockId (raise (w.interrupt L1.nsel) (refreshed st1)) fd = -1 := by
    rw [hreg2.getSockId]
    exact Or.inl hprim
  have hbody := (body_eq_readStep c w length (w.time 0) st1 L1 fd hread hmain1).trans
    (readStep_failed_fatal c w length _
      (noteWait L1 (localSet (refreshed st1) L1.substreamid)) fd hfail hid)
  have hcall := (RecvRaw_eq_loop c w length substreamid fuel st hconn hmain0 hlen).trans
    (loop_of_passAt c w length (w.time 0) k st _ st1 L1 _ fuel harr hbody hfuel)
  exact ⟨_, hcall, rfl, fun hd => hd, hreg2⟩

/-- C4 at a concrete call: on the pool with substreams 1 and 2 the first pass
reads on descriptor 3, the primary connection, and finds the connection
closed. -/
theorem C4_primary_lost_witness :
    ReadsOn envClosed3 (envClosed3.time 0) poolTwo (startLocals (-1)) 3 ∧
      ReadFails envClosed3 10 (startLocals (-1)) 3 ∧ GetSockId poolTwo 3 = 0 ∧
      (∃ out, RecvRaw sampleConsts envClosed3 10 (-1) 5 poolTwo = some out ∧
        out.ret = sampleConsts.TXSOCK_ERR ∧
        out.st.fSocketPool = poolTwo.fSocketPool ∧
        out.st.fSocketIdRepo = poolTwo.fSocketIdRepo) ∧
      RecvRaw sampleConsts envClosed3 10 (-1) 5 poolTwo = some outTwoClosed3 :=
  have hread : ReadsOn envClosed3 (envClosed3.time 0) poolTwo (startLocals (-1)) 3 := by
    unfold ReadsOn WaitEnds
    decide
  have hfail : ReadFails envClosed3 10 (startLocals (-1)) 3 := by
    unfold ReadFails
    decide
  have h := C4_primary_lost sampleConsts envClosed3 10 (-1) 0 5 poolTwo poolTwo
    (startLocals (-1)) 3 (by decide) (by decide) (by decide) rfl hread hfail (by decide)
    (by decide)
  ⟨hread, hfail, by decide,
    h.elim fun out ho => ⟨out, ho.1, ho.2.1, ho.2.2.2.1, ho.2.2.2.2.2.1⟩, by decide⟩

/-! ### C15: the interrupt -/

/-- C15: on a connected pool with the primary registered and for
`length > 0`, when a pass of a `RecvRaw` call reaches the end of its wait step
(the deadline has not elapsed and `select` reported no hard error) and the
interrupt flag is set then, the call returns as soon as it is given more
passes than came before, its return value is `TXSOCK_ERR_INTERRUPT`, the flag
is down afterwards, and the wait of that pass is the last call of a primitive:
no read follows it, whatever `select` reported ready. -/
theorem C15_interrupt (c : Consts) (w : Env) (length substreamid : Int)
    (k fuel : Nat) (st st1 : PSock) (L1 : Locals)
    (hconn : st.fConnected = true) (hmain : 0 ≤ GetMainSock st) (hlen : 0 < length)
    (harr : passAt c w length (w.time 0) k st (startLocals substreamid) = some (st1, L1))
    (hwait : WaitEnds w (w.time 0) st1 L1) (hflag : flagAt w st1 L1 = true)
    (hfuel : k < fuel) :
    ∃ out, RecvRaw c w length substreamid fuel st = some out ∧
      out.ret = c.TXSOCK_ERR_INTERRUPT ∧ out.st.fRDInterrupt = false ∧
      out.trace = L1.trace ++ [Ev.wait (localSet (refreshed st1) L1.substreamid).fdset
        ((localSet (refreshed st1) L1.substreamid).maxfd + 1)] := by
  have hmain0 : ¬ GetMainSock st < 0 := not_lt.mpr hmain
  have hreg1 := passAt_sameRegistry c w length (w.time 0) k st _ st1 L1 harr
  have hmain1 : ¬ GetMainSock st1 < 0 := by
    rw [hreg1.getMainSock]
    exact hmain0
  have hbody := body_eq_interrupt c w length (w.time 0) st1 L1 hwait hflag hmain1
  have hcall := (RecvRaw_eq_loop c w length substreamid fuel st hconn hmain0 hlen).trans
    (loop_of_passAt c w length (w.time 0) k st _ st1 L1 _ fuel harr hbody hfuel)
  exact ⟨_, hcall, rfl, rfl, rfl⟩

/-- C15 at a concrete call: on the pool with substreams 1 and 2, descriptor 5
is readable at the first wait and another thread raises the flag during it;
the call returns the interrupt code with the flag down and reads nothing. -/
theorem C15_interrupt_witness :
    WaitEnds envInterrupt (envInterrupt.time 0) poolTwo (startLocals (-1)) ∧
      flagAt envInterrupt poolTwo (startLocals (-1)) = true ∧
      (∃ out, RecvRaw sampleConsts envInterrupt 10 (-1) 5 poolTwo = some out ∧
        out.ret = sampleConsts.TXSOCK_ERR_INTERRUPT ∧ out.st.fRDInterrupt = false ∧
        out.trace = [Ev.wait [3, 4, 5] 6]) ∧
      RecvRaw sampleConsts envInterrupt 10 (-1) 5 poolTwo = some outTwoInterrupt :=
  have hwait : WaitEnds envInterrupt (envInterrupt.time 0) poolTwo (startLocals (-1)) := by
    unfold WaitEnds
    decide
  have h := C15_interrupt sampleConsts envInterrupt 10 (-1) 0 5 poolTwo poolTwo
    (startLocals (-1)) (by decide) (by decide) (by decide) rfl hwait (by decide) (by decide)
  ⟨hwait, by decide,
    h.elim fun out ho => ⟨out, ho.1, ho.2.1, ho.2.2.1, ho.2.2.2.trans (by decide)⟩,
    by decide⟩

end XrdClientPSock
